import Mathlib

/-!
SerialGPS: decoding of NMEA-0183 sentences

A shallow embedding of `SerialGPS.cpp` and `SerialGPS.h`.

Conventions of the embedding.

* A byte is a natural number; `char` is taken unsigned, as on the ARM targets of mbed.
* A pointer into a buffer is the list of the bytes from the pointed one to the end of
  the buffer. A C library function that would read past the end of that list has
  undefined behaviour, which the embedding reports as a `Fault`.
* `plist`, the array of fields of a decoder, is a function from row and column to a byte.
  It is not initialised by the C code: what the stack held before is an argument
  (`stack0`) of every decoder.
* `sscanf` with `%lf` is library code whose result is a binary floating-point number;
  the conversion is an argument (`scanLf`) of the decoders that use it, and the type `D`
  of its results is arbitrary.
* A callback is a member of `gps_callback_t` that is NULL or not; calling it is recorded
  as an `Event`, in the order of the calls, together with the diagnostics that
  `processing` prints.
-/

/-- The function `exists`: whether `c` is one of the characters of `buf`. -/
def SerialGPS.exists (c : Nat) : List Nat → Bool
  | [] => false
  | b :: buf => if c = b then true else SerialGPS.exists c buf

namespace SerialGPS

set_option maxRecDepth 10000

/-- The bytes of an ASCII text. -/
def txt (s : String) : List Nat := s.toList.map Char.toNat

/-! ## Results -/

/-- Undefined behaviour of the C code. -/
inductive Fault where
  /-- a store to `src[cnt]` with `cnt >= DATABUFSIZ` -/
  | srcOverflow
  /-- a read of `src[srclen - 3]` with `srclen < 3` -/
  | srcUnderread
  /-- a store to `plist[cnt]` with `cnt >= PARAM_ARRAYSIZE` -/
  | plistOverflow
  /-- a read past the end of a buffer -/
  | overread
  /-- a converted number that its type cannot hold -/
  | intOverflow
  /-- the bound on the iterations of a loop of the embedding is used up, which never happens: see `tokenize_ne_fuel` -/
  | fuel
  deriving DecidableEq, Repr

/-- A value, or undefined behaviour. -/
inductive Res (α : Type) where
  | ok (a : α)
  | ub (f : Fault)
  deriving DecidableEq, Repr

/-! ## Constants -/

/-- The size of the line buffer of `processing`. -/
def DATABUFSIZ : Nat := 128

/-- The size of a field of `plist`. -/
def PARAM_TXTMAXLEN : Nat := 64

/-- The number of fields of `plist`. -/
def PARAM_ARRAYSIZE : Nat := 64

/-- The delimiters `",*"`. -/
def delims : List Nat := [44, 42]

/-! ## The C library -/

/-- The function `strlen`; the end of the list counts as a terminator. -/
def strlen : List Nat → Nat
  | [] => 0
  | c :: cs => if c = 0 then 0 else strlen cs + 1

/-- The function `isspace` in the C locale. -/
def isspace (c : Nat) : Bool := c = 32 || (9 ≤ c && c ≤ 13)

/-- The function `isdigit`. -/
def isdigit (c : Nat) : Bool := 48 ≤ c && c ≤ 57

/-- The value of a hexadecimal digit, in either case. -/
def hexval (c : Nat) : Option Nat :=
  if 48 ≤ c ∧ c ≤ 57 then some (c - 48)
  else if 65 ≤ c ∧ c ≤ 70 then some (c - 55)
  else if 97 ≤ c ∧ c ≤ 102 then some (c - 87)
  else none

/-- The digits of a hexadecimal number, most significant first, after `acc`. -/
def scanHexDigits : List Nat → Nat → Res Nat
  | [], _ => .ub .overread
  | c :: cs, acc =>
    match hexval c with
    | some d => scanHexDigits cs (acc * 16 + d)
    | none => .ok acc

/-- The number of `scanHexDigits` as an `unsigned int` of 32 bits. -/
def scanHexNumber (s : List Nat) : Res (Option Nat) :=
  match scanHexDigits s 0 with
  | .ub f => .ub f
  | .ok v => if v < 2 ^ 32 then .ok (some v) else .ub .intOverflow

/-- A hexadecimal number after its sign: an optional `0x` or `0X` and at least one digit.
`none` is a failure of the conversion (`sscanf` does not return 1); a `0x` that no digit
follows is one, as in the C standard. -/
def scanHexBody : List Nat → Res (Option Nat)
  | [] => .ub .overread
  | c :: cs =>
    if c = 48 then
      match cs with
      | [] => .ub .overread
      | x :: rest =>
        if x = 120 ∨ x = 88 then
          match rest with
          | [] => .ub .overread
          | d :: _ => if (hexval d).isSome then scanHexNumber rest else .ok none
        else scanHexNumber cs
    else if (hexval c).isSome then scanHexNumber (c :: cs)
    else .ok none

/-- The call `sscanf(s, "%X", &v) == 1` (and `"%x"`), with the bits stored in `v`: white
space is skipped, a sign is accepted, and a negative number is negated as an `unsigned`. -/
def sscanfHex : List Nat → Res (Option Nat)
  | [] => .ub .overread
  | c :: cs =>
    if isspace c then sscanfHex cs
    else if c = 45 then
      match scanHexBody cs with
      | .ok (some v) => .ok (some ((2 ^ 32 - v) % 2 ^ 32))
      | r => r
    else if c = 43 then scanHexBody cs
    else scanHexBody (c :: cs)

/-- The call `sscanf(s, "%c", &c) == 1`, with the character stored: it fails on the empty
string and skips no white space. -/
def sscanfChar : List Nat → Res (Option Nat)
  | [] => .ub .overread
  | c :: _ => if c = 0 then .ok none else .ok (some c)

/-- The digits of a decimal number after `acc`. -/
def atoiDigits : List Nat → Nat → Res Nat
  | [], _ => .ub .overread
  | c :: cs, acc => if isdigit c then atoiDigits cs (acc * 10 + (c - 48)) else .ok acc

/-- The number of `atoi` after the white space: an optional sign and digits. -/
def atoiSigned : List Nat → Res Int
  | [] => .ub .overread
  | c :: cs =>
    if c = 45 then
      match atoiDigits cs 0 with
      | .ub f => .ub f
      | .ok v => if v ≤ 2 ^ 31 then .ok (-(v : Int)) else .ub .intOverflow
    else
      match atoiDigits (if c = 43 then cs else c :: cs) 0 with
      | .ub f => .ub f
      | .ok v => if v < 2 ^ 31 then .ok (v : Int) else .ub .intOverflow

/-- The function `atoi` with an `int` of 32 bits: 0 when no number starts the string,
undefined when the number does not fit. -/
def atoi : List Nat → Res Int
  | [] => .ub .overread
  | c :: cs => if isspace c then atoi cs else atoiSigned (c :: cs)

/-- The test `strcmp(s, lit) == 0` for a literal `lit` (no NUL in it). -/
def strcmpEq : List Nat → List Nat → Res Bool
  | [], _ => .ub .overread
  | c :: _, [] => .ok (c = 0)
  | c :: cs, l :: ls => if c = l then strcmpEq cs ls else .ok false

/-- The string at a pointer: the bytes before the first NUL. -/
def cstr : List Nat → Res (List Nat)
  | [] => .ub .overread
  | c :: cs =>
    if c = 0 then .ok []
    else
      match cstr cs with
      | .ok s => .ok (c :: s)
      | .ub f => .ub f

/-- The call `sscanf(s, "%lf", &d) == 1` with the number stored, for a conversion `scanLf`
of the string at `s`. -/
def sscanfLf {D : Type} (scanLf : List Nat → Option D) (s : List Nat) : Res (Option D) :=
  match cstr s with
  | .ok t => .ok (scanLf t)
  | .ub f => .ub f

/-- Sequencing of computations that may be undefined. -/
def Res.bind {α β : Type} (x : Res α) (f : α → Res β) : Res β :=
  match x with
  | .ok a => f a
  | .ub e => .ub e

/-! ## Records and callbacks (`SerialGPS.h`) -/

/-- The record of a GGA sentence; `D` stands for `double`. -/
structure gps_gga_t (D : Type) where
  hour : Int
  min : Int
  sec : Int
  latitude : D
  ns : Nat
  longitude : D
  ew : Nat
  position_fix : Int
  satellites_used : Int
  hdop : D
  altitude : Int
  altitude_unit : Nat
  deriving DecidableEq, Repr

/-- The record of a GSA sentence. -/
structure gps_gsa_t where
  selmode : Nat
  fix : Int
  deriving DecidableEq, Repr

/-- The record of an RMC sentence. -/
structure gps_rmc_t (D : Type) where
  hour : Int
  min : Int
  sec : Int
  status : Nat
  nl : D
  el : D
  deriving DecidableEq, Repr

/-- One satellite of a GSV sentence. -/
structure gps_gsv_satellite_t where
  num : Int
  elevation : Int
  azimuth : Int
  snr : Int
  deriving DecidableEq, Repr

/-- The record of a GSV sentence; `satellite` has four entries. -/
structure gps_gsv_t where
  msgcnt : Int
  msgnum : Int
  satcnt : Int
  satellite : List gps_gsv_satellite_t
  deriving DecidableEq, Repr

/-- The callback structure: each member says whether its function pointer is not NULL. -/
structure gps_callback_t where
  cbfunc_log : Bool
  cbfunc_gga : Bool
  cbfunc_gsa : Bool
  cbfunc_gsv : Bool
  cbfunc_rmc : Bool
  deriving DecidableEq, Repr

/-- The three diagnostics that `processing` prints. -/
inductive Diag where
  /-- the text `Invalid check sum data found.` -/
  | invalidCheckSum
  /-- the text `Illegal data found.` -/
  | illegalData
  /-- the text `Invalid data format found.` -/
  | invalidFormat
  deriving DecidableEq, Repr

/-- What a call of `processing` does that its caller can see, besides its result. -/
inductive Event (D : Type) where
  /-- a call of `cbfunc_log` with the text of the line -/
  | log (str : List Nat)
  /-- a call of `cbfunc_gga` -/
  | gga (p : gps_gga_t D)
  /-- a call of `cbfunc_gsa` -/
  | gsa (p : gps_gsa_t)
  /-- a call of `cbfunc_gsv` -/
  | gsv (p : gps_gsv_t)
  /-- a call of `cbfunc_rmc` -/
  | rmc (p : gps_rmc_t D)
  /-- a diagnostic printed with the text of the line -/
  | print (d : Diag) (str : List Nat)
  deriving DecidableEq, Repr

/-- Whether an event is a call of one of the four record callbacks. -/
def Event.isRecord {D : Type} : Event D → Bool
  | .gga _ => true
  | .gsa _ => true
  | .gsv _ => true
  | .rmc _ => true
  | _ => false

/-! ## Tokenizing (`SerialGPS::exists`, `SerialGPS::parse`) -/

/-- The function `parse`: the bytes stored in `des`, and the pointer returned (`none` for
NULL). The end of `src` counts as its NUL. When `dessiz` bytes are copied and neither a
delimiter nor an end is met, nothing more is stored (the statement `des = 0` changes the
pointer only) and NULL is returned. -/
def parse : List Nat → Nat → List Nat → List Nat × Option (List Nat)
  | _, 0, _ => ([], none)
  | [], _ + 1, _ => ([0], none)
  | c :: src, dessiz + 1, delim =>
    if c = 0 ∨ c = 13 ∨ c = 10 then ([0], none)
    else if SerialGPS.exists c delim then ([0], some src)
    else ((c :: (parse src dessiz delim).1), (parse src dessiz delim).2)

/-- The array `plist[PARAM_ARRAYSIZE][PARAM_TXTMAXLEN]`, by row and column. -/
abbrev Plist := Nat → Nat → Nat

/-- The array after the bytes `des` are stored from the start of row `cnt`. -/
def store (plist : Plist) (cnt : Nat) (des : List Nat) : Plist :=
  fun r c => if r = cnt then des.getD c (plist r c) else plist r c

/-- The loop `while ((p = parse(p, plist[cnt], PARAM_TXTMAXLEN, ",*")) != NULL) cnt++;`
for at most `fuel` calls of `parse`: the final `cnt` and `plist`. No test keeps `cnt`
below `PARAM_ARRAYSIZE`. -/
def tokenLoop : Nat → List Nat → Nat → Plist → Res (Nat × Plist)
  | 0, _, _, _ => .ub .fuel
  | fuel + 1, p, cnt, plist =>
    if PARAM_ARRAYSIZE ≤ cnt then .ub .plistOverflow
    else
      match (parse p PARAM_TXTMAXLEN delims).2 with
      | none => .ok (cnt, store plist cnt (parse p PARAM_TXTMAXLEN delims).1)
      | some q => tokenLoop fuel q (cnt + 1) (store plist cnt (parse p PARAM_TXTMAXLEN delims).1)

/-- The tokenizing loop of a decoder on the line `src`, from `cnt = 0`; every call of
`parse` but the last consumes a byte of `src`, so the bound is never used up. -/
def tokenize (stack0 : Plist) (src : List Nat) : Res (Nat × Plist) :=
  tokenLoop (src.length + 1) src 0 stack0

/-- The `n` bytes of row `r` from column `c` on. -/
def rowFrom (plist : Plist) (r : Nat) : Nat → Nat → List Nat
  | _, 0 => []
  | c, n + 1 => plist r c :: rowFrom plist r (c + 1) n

/-- The bytes of the `n` rows from row `r` on. -/
def rowsFrom (plist : Plist) : Nat → Nat → List Nat
  | _, 0 => []
  | r, n + 1 => rowFrom plist r 0 PARAM_TXTMAXLEN ++ rowsFrom plist (r + 1) n

/-- The pointer `plist[r]`: the bytes from the start of row `r` to the end of the array. -/
def plistAt (plist : Plist) (r : Nat) : List Nat :=
  rowsFrom plist r (PARAM_ARRAYSIZE - r)

/-! ## The decoders -/

/-- The number `(a - '0') * 10 + (b - '0')` of two characters. -/
def twoDigits (a b : Nat) : Int := ((a : Int) - 48) * 10 + ((b : Int) - 48) * 1

/-- The function `parseAndCallbackGGA`: the value returned and the callbacks called. -/
def parseAndCallbackGGA {D : Type} (scanLf : List Nat → Option D) (stack0 : Plist)
    (src : List Nat) (cbfuncs : gps_callback_t) : Res (Int × List (Event D)) :=
  if cbfuncs.cbfunc_gga = false then .ok (-1, [])
  else
    (tokenize stack0 src).bind fun t =>
    let cnt := t.1
    let plist := t.2
    if cnt = 15 then
      let hour := twoDigits (plist 1 0) (plist 1 1)
      let min := twoDigits (plist 1 2) (plist 1 3)
      let sec := twoDigits (plist 1 4) (plist 1 5)
      (sscanfLf scanLf (plistAt plist 2)).bind fun latitude =>
      match latitude with
      | none => .ok (-2, [])
      | some latitude =>
      (sscanfChar (plistAt plist 3)).bind fun ns =>
      match ns with
      | none => .ok (-3, [])
      | some ns =>
      if ns ≠ 78 ∧ ns ≠ 83 then .ok (-4, [])
      else
      (sscanfLf scanLf (plistAt plist 4)).bind fun longitude =>
      match longitude with
      | none => .ok (-5, [])
      | some longitude =>
      (sscanfChar (plistAt plist 5)).bind fun ew =>
      match ew with
      | none => .ok (-6, [])
      | some ew =>
      if ew ≠ 69 ∧ ew ≠ 87 then .ok (-7, [])
      else
      (atoi (plistAt plist 6)).bind fun position_fix =>
      (atoi (plistAt plist 7)).bind fun satellites_used =>
      (sscanfLf scanLf (plistAt plist 8)).bind fun hdop =>
      match hdop with
      | none => .ok (-8, [])
      | some hdop =>
      (atoi (plistAt plist 9)).bind fun _ =>
      (strcmpEq (plistAt plist 10) (txt "M")).bind fun isM =>
      if isM = false then .ok (-9, [])
      else
      (atoi (plistAt plist 11)).bind fun altitude =>
      (sscanfChar (plistAt plist 12)).bind fun altitude_unit =>
      match altitude_unit with
      | none => .ok (-10, [])
      | some altitude_unit =>
      .ok (0, [Event.gga
        { hour := hour, min := min, sec := sec, latitude := latitude, ns := ns,
          longitude := longitude, ew := ew, position_fix := position_fix,
          satellites_used := satellites_used, hdop := hdop, altitude := altitude,
          altitude_unit := altitude_unit }])
    else .ok (-11, [])

/-- The function `parseAndCallbackGSA`. -/
def parseAndCallbackGSA {D : Type} (stack0 : Plist)
    (src : List Nat) (cbfuncs : gps_callback_t) : Res (Int × List (Event D)) :=
  if cbfuncs.cbfunc_gsa = false then .ok (-1, [])
  else
    (tokenize stack0 src).bind fun t =>
    let cnt := t.1
    let plist := t.2
    if cnt = 18 then
      let selmode := plist 1 0
      if selmode ≠ 65 ∧ selmode ≠ 77 then .ok (-2, [])
      else
      (atoi (plistAt plist 2)).bind fun fix =>
      if fix ≠ 1 ∧ fix ≠ 2 ∧ fix ≠ 3 then .ok (-3, [])
      else .ok (0, [Event.gsa { selmode := selmode, fix := fix }])
    else .ok (-4, [])

/-- The function `parseAndCallbackRMC`. -/
def parseAndCallbackRMC {D : Type} (scanLf : List Nat → Option D) (stack0 : Plist)
    (src : List Nat) (cbfuncs : gps_callback_t) : Res (Int × List (Event D)) :=
  if cbfuncs.cbfunc_rmc = false then .ok (-1, [])
  else
    (tokenize stack0 src).bind fun t =>
    let cnt := t.1
    let plist := t.2
    if cnt = 13 then
      let hour := twoDigits (plist 1 0) (plist 1 1)
      let min := twoDigits (plist 1 2) (plist 1 3)
      let sec := twoDigits (plist 1 4) (plist 1 5)
      let status := plist 2 0
      (sscanfLf scanLf (plistAt plist 3)).bind fun nl =>
      match nl with
      | none => .ok (-2, [])
      | some nl =>
      (strcmpEq (plistAt plist 4) (txt "N")).bind fun isN =>
      if isN = false then .ok (-3, [])
      else
      (sscanfLf scanLf (plistAt plist 5)).bind fun el =>
      match el with
      | none => .ok (-4, [])
      | some el =>
      (strcmpEq (plistAt plist 6) (txt "E")).bind fun isE =>
      if isE = false then .ok (-5, [])
      else
      .ok (0, [Event.rmc
        { hour := hour, min := min, sec := sec, status := status, nl := nl, el := el }])
    else .ok (-4, [])

/-- The constant `SATINFOFS`. -/
def SATINFOFS : Nat := 4

/-- One pass of the loop over `i` of `parseAndCallbackGSV`: the entry `satellite[i]`. -/
def gsvSatellite (plist : Plist) (i : Nat) : Res gps_gsv_satellite_t :=
  (atoi (plistAt plist (SATINFOFS + 0 * (i * 4)))).bind fun num =>
  (atoi (plistAt plist (SATINFOFS + 1 * (i * 4)))).bind fun elevation =>
  (atoi (plistAt plist (SATINFOFS + 2 * (i * 4)))).bind fun azimuth =>
  (atoi (plistAt plist (SATINFOFS + 3 * (i * 4)))).bind fun snr =>
  .ok { num := num, elevation := elevation, azimuth := azimuth, snr := snr }

/-- The function `parseAndCallbackGSV`. -/
def parseAndCallbackGSV {D : Type} (stack0 : Plist)
    (src : List Nat) (cbfuncs : gps_callback_t) : Res (Int × List (Event D)) :=
  if cbfuncs.cbfunc_gsv = false then .ok (-1, [])
  else
    (tokenize stack0 src).bind fun t =>
    let cnt := t.1
    let plist := t.2
    if cnt = 20 then
      (atoi (plistAt plist 1)).bind fun msgcnt =>
      (atoi (plistAt plist 2)).bind fun msgnum =>
      (atoi (plistAt plist 3)).bind fun satcnt =>
      (gsvSatellite plist 0).bind fun s0 =>
      (gsvSatellite plist 1).bind fun s1 =>
      (gsvSatellite plist 2).bind fun s2 =>
      (gsvSatellite plist 3).bind fun s3 =>
      (sscanfHex (plistAt plist 20)).bind fun chksum =>
      match chksum with
      | none => .ok (-2, [])
      | some _ =>
      .ok (0, [Event.gsv
        { msgcnt := msgcnt, msgnum := msgnum, satcnt := satcnt,
          satellite := [s0, s1, s2, s3] }])
    else .ok (-3, [])

/-- The function `parseAndCallbackUnknown`. -/
def parseAndCallbackUnknown {D : Type}
    (_src : List Nat) (_cbfuncs : gps_callback_t) : Res (Int × List (Event D)) :=
  .ok (0, [])

/-- The function `calcCheckSum`, from the value `cs` on: `cs ^= buf[i]` for `i < siz`,
in 8 bits. `processing` never asks for more bytes than `buf` has. -/
def calcCheckSumFrom (cs : Nat) : List Nat → Nat → Nat
  | _, 0 => cs
  | [], _ + 1 => cs
  | b :: buf, siz + 1 => calcCheckSumFrom ((cs ^^^ b) % 256) buf siz

/-- The function `calcCheckSum`. -/
def calcCheckSum (buf : List Nat) (siz : Nat) : Nat := calcCheckSumFrom 0 buf siz

/-! ## `SerialGPS::processing` -/

/-- The outcome of the loops of `processing` that read a line. -/
inductive Framed where
  /-- the serial buffer had no byte (`getc` below 0): `processing` returns false -/
  | noData (ser : List Int)
  /-- a byte was stored at `src[cnt]` with `cnt >= DATABUFSIZ` -/
  | overflow (ser : List Int)
  /-- a line of `cnt > 1` bytes, its terminator stored as NUL, is in `src` -/
  | line (src : List Nat) (ser : List Int)
  deriving DecidableEq, Repr

/-- The two nested `do ... while` loops of `processing`. `ser` lists what the successive
calls of `ser.getc()` return, and a call past its end returns a negative number; `src`
lists the `cnt` bytes stored so far. The outcome carries the calls not made yet. -/
def readLine : List Int → List Nat → Framed
  | [], _ => .noData []
  | c :: ser, src =>
    if c < 0 then .noData ser
    else if DATABUFSIZ ≤ src.length then .overflow ser
    else if c = 13 ∨ c = 10 then
      if src.length + 1 ≤ 1 then readLine ser [] else .line (src ++ [0]) ser
    else readLine ser (src ++ [(c % 256).toNat])

/-- The text of the line in `src`: the bytes before the NUL. -/
def text (src : List Nat) : List Nat := src.take (strlen src)

/-- The block of `processing` that checks the check sum of the line in `src`: `none`
when the check passes, else the diagnostic printed before `processing` returns false. -/
def checkSum (src : List Nat) : Res (Option Diag) :=
  let srclen := strlen src
  if src.getD 0 0 = 36 then
    if srclen < 3 then .ub .srcUnderread
    else if src.getD (srclen - 3) 0 = 42 then
      (sscanfHex (src.drop (srclen - 2))).bind fun cs_src =>
      match cs_src with
      | none => .ok (some .invalidCheckSum)
      | some cs_src =>
        let cs_cal := calcCheckSum (src.drop 1) (srclen - 4)
        if cs_src % 256 ≠ cs_cal then .ok (some .illegalData) else .ok none
    else .ok (some .invalidFormat)
  else .ok (some .invalidFormat)

/-- The block of `processing` that parses the first field into `des` and calls the decoder
of the sentence: the value of `res` and the callbacks called. -/
def dispatch {D : Type} (scanLf : List Nat → Option D) (stack0 : Plist)
    (src : List Nat) (cbfuncs : gps_callback_t) : Res (Int × List (Event D)) :=
  match (parse src DATABUFSIZ delims).2 with
  | none => .ok (0, [])
  | some _ =>
    let des := (parse src DATABUFSIZ delims).1
    (strcmpEq des (txt "$GPGGA")).bind fun isGGA =>
    if isGGA then parseAndCallbackGGA scanLf stack0 src cbfuncs
    else
    (strcmpEq des (txt "$GPGSA")).bind fun isGSA =>
    if isGSA then parseAndCallbackGSA stack0 src cbfuncs
    else
    (strcmpEq des (txt "$GPRMC")).bind fun isRMC =>
    if isRMC then parseAndCallbackRMC scanLf stack0 src cbfuncs
    else
    (strcmpEq des (txt "$GPGSV")).bind fun isGSV =>
    if isGSV then parseAndCallbackGSV stack0 src cbfuncs
    else parseAndCallbackUnknown src cbfuncs

/-- The part of `processing` after a line is read into `src`: the value returned and the
events, in order. `cbfuncs` is `none` when no callback structure is attached. -/
def processLine {D : Type} (scanLf : List Nat → Option D) (stack0 : Plist)
    (cbfuncs : Option gps_callback_t) (src : List Nat) : Res Bool × List (Event D) :=
  match cbfuncs with
  | none => (.ok true, [])
  | some cb =>
    let logged : List (Event D) := if cb.cbfunc_log then [Event.log (text src)] else []
    match checkSum src with
    | .ub f => (.ub f, logged)
    | .ok (some d) => (.ok false, logged ++ [Event.print d (text src)])
    | .ok none =>
      match dispatch scanLf stack0 src cb with
      | .ub f => (.ub f, logged)
      | .ok t => (.ok (decide (t.1 = 0)), logged ++ t.2)

/-- One call of `processing`. -/
structure Run (D : Type) where
  /-- the value returned -/
  ret : Res Bool
  /-- the callbacks called and the diagnostics printed, in order -/
  events : List (Event D)
  /-- what the serial buffer still holds -/
  ser : List Int
  deriving DecidableEq

/-- The function `processing`, for the callback structure attached (`none` after
`detach`) and the results `ser` of the calls of `ser.getc()` to come. -/
def processing {D : Type} (scanLf : List Nat → Option D) (stack0 : Plist)
    (cbfuncs : Option gps_callback_t) (ser : List Int) : Run D :=
  match readLine ser [] with
  | .noData rest => { ret := .ok false, events := [], ser := rest }
  | .overflow rest => { ret := .ub .srcOverflow, events := [], ser := rest }
  | .line src rest =>
    { ret := (processLine scanLf stack0 cbfuncs src).1,
      events := (processLine scanLf stack0 cbfuncs src).2,
      ser := rest }

/-! ## A decimal conversion for `%lf` -/

/-- A decimal number `mantissa * 10 ^ (- scale)`, negated when `neg`. -/
structure Decimal where
  neg : Bool
  mantissa : Nat
  scale : Nat
  deriving DecidableEq, Repr

/-- The digits of the fraction of a decimal number, after the point. -/
def scanFraction : List Nat → Decimal → Decimal
  | [], d => d
  | c :: cs, d =>
    if isdigit c then
      scanFraction cs { d with mantissa := d.mantissa * 10 + (c - 48), scale := d.scale + 1 }
    else d

/-- The digits of a decimal number before the point, then its fraction; `seen` says
whether a digit was read. -/
def scanMantissa : List Nat → Bool → Decimal → Option Decimal
  | [], seen, d => if seen then some d else none
  | c :: cs, seen, d =>
    if isdigit c then scanMantissa cs true { d with mantissa := d.mantissa * 10 + (c - 48) }
    else if c = 46 then
      match cs with
      | [] => if seen then some d else none
      | e :: _ => if seen || isdigit e then some (scanFraction cs d) else none
    else if seen then some d else none

/-- A conversion for `%lf` that reads an optional sign, digits and an optional fraction,
after white space, and gives the number read exactly (a `double` holds the nearest
binary number). Exponents and the other forms that `strtod` reads are left out. -/
def scanDecimal : List Nat → Option Decimal
  | [] => none
  | c :: cs =>
    if isspace c then scanDecimal cs
    else if c = 45 then scanMantissa cs false { neg := true, mantissa := 0, scale := 0 }
    else if c = 43 then scanMantissa cs false { neg := false, mantissa := 0, scale := 0 }
    else scanMantissa (c :: cs) false { neg := false, mantissa := 0, scale := 0 }

/-! ## Notions used to state the properties -/

/-- The exclusive or of the bytes of a buffer, in 8 bits. -/
def xor8 (buf : List Nat) : Nat := buf.foldl (fun x b => x ^^^ b) 0 % 256

/-- A line as `processing` frames it: one to `DATABUFSIZ - 1` bytes, none of them NUL, CR
or LF. -/
def IsLine (line : List Nat) : Prop :=
  line ≠ [] ∧ line.length < DATABUFSIZ ∧ ∀ c ∈ line, c ≠ 0 ∧ c ≠ 10 ∧ c ≠ 13 ∧ c < 256

instance (line : List Nat) : Decidable (IsLine line) := by
  unfold IsLine
  infer_instance

/-- The results of `ser.getc()` for a line, its terminator `eol` and what follows. -/
def lineStream (line : List Nat) (eol : Int) (rest : List Int) : List Int :=
  line.map Int.ofNat ++ eol :: rest

/-- The callbacks of records among the events of a call. -/
def recordEvents {D : Type} (events : List (Event D)) : List (Event D) :=
  events.filter Event.isRecord

/-- The call of `cbfunc_log` that `processing` makes when the member is not NULL. -/
def logged {D : Type} (cb : gps_callback_t) (line : List Nat) : List (Event D) :=
  if cb.cbfunc_log then [Event.log line] else []

/-- The sentence of the NMEA reference manual that `SerialGPS.h` quotes for GGA. -/
def ggaExample : List Nat :=
  txt "$GPGGA,161229.487,3723.2475,N,12158.3416,W,1,07,1.0,9.0,M,,,,0000*18"

/-- The sentence `ggaExample` with the check sum `19`. -/
def ggaExample19 : List Nat :=
  txt "$GPGGA,161229.487,3723.2475,N,12158.3416,W,1,07,1.0,9.0,M,,,,0000*19"

/-- Whether a character is one of the delimiters `,` and `*`. -/
def isDelim (c : Nat) : Bool := c = 44 || c = 42

/-- The fields of a line: the runs of characters between its delimiters, in order. -/
def fields : List Nat → List (List Nat)
  | [] => [[]]
  | c :: line =>
    if isDelim c then [] :: fields line
    else
      match fields line with
      | [] => [[c]]
      | f :: fs => (c :: f) :: fs

/-- The field of index `k` of a line, empty when the line has no such field. -/
def field (line : List Nat) (k : Nat) : List Nat := (fields line).getD k []

/-- The number of delimiters of a line. -/
def delimCount (line : List Nat) : Nat := (line.filter isDelim).length

/-- The part of a line after its first delimiter. -/
def afterDelim : List Nat → List Nat
  | [] => []
  | c :: line => if isDelim c then line else afterDelim line

/-- A text without NUL, CR and LF. -/
def NoEnd (line : List Nat) : Prop := ∀ c ∈ line, c ≠ 0 ∧ c ≠ 13 ∧ c ≠ 10

/-- The tokenizing loop, told on the fields that are left: a field of `PARAM_TXTMAXLEN`
characters or more ends the loop, as the last field does. -/
def tokenizeFields : List (List Nat) → Nat → Plist → Res (Nat × Plist)
  | [], cnt, plist => .ok (cnt, plist)
  | f :: fs, cnt, plist =>
    if PARAM_ARRAYSIZE ≤ cnt then .ub .plistOverflow
    else if PARAM_TXTMAXLEN ≤ f.length then .ok (cnt, store plist cnt (f.take PARAM_TXTMAXLEN))
    else
      match fs with
      | [] => .ok (cnt, store plist cnt (f ++ [0]))
      | _ :: _ => tokenizeFields fs (cnt + 1) (store plist cnt (f ++ [0]))

/-- Row `r` of `plist` starts with the bytes `w`. -/
def RowHas (plist : Plist) (r : Nat) (w : List Nat) : Prop :=
  ∀ c, c < w.length → plist r c = w.getD c 0

/-- A GGA sentence that the decoder accepts: the sentence of the reference manual with
`0` and `M` in fields 11 and 12. -/
def ggaAccepted : List Nat :=
  txt "$GPGGA,161229.487,3723.2475,N,12158.3416,W,1,07,1.0,9.0,M,0,M,,0000*65"

/-- The sentence `ggaAccepted` with its identifier in lower case. -/
def ggaLowerCase : List Nat :=
  txt "$gpgga,161229.487,3723.2475,N,12158.3416,W,1,07,1.0,9.0,M,0,M,,0000*45"

/-- Every callback registered. -/
def allCallbacks : gps_callback_t :=
  { cbfunc_log := true, cbfunc_gga := true, cbfunc_gsa := true, cbfunc_gsv := true,
    cbfunc_rmc := true }

/-- Every callback registered but `cbfunc_gga`. -/
def noGgaCallback : gps_callback_t :=
  { cbfunc_log := true, cbfunc_gga := false, cbfunc_gsa := true, cbfunc_gsv := true,
    cbfunc_rmc := true }

/-- A stack of zeros. -/
def zeroStack : Plist := fun _ _ => 0

/-- The record that `ggaAccepted` gives with the decimal conversion. -/
def ggaAcceptedRecord : gps_gga_t Decimal :=
  { hour := 16, min := 12, sec := 29,
    latitude := { neg := false, mantissa := 37232475, scale := 4 }, ns := 78,
    longitude := { neg := false, mantissa := 121583416, scale := 4 }, ew := 87,
    position_fix := 1, satellites_used := 7,
    hdop := { neg := false, mantissa := 10, scale := 1 },
    altitude := 0, altitude_unit := 77 }

/-- A GGA sentence with 16 delimiters, of which the field after the fifteenth has 64
characters: the sentence `$GPGGA,000000,1,N,1,E,1,1,1,1,M,1,M,,*6C`, which has the 15
delimiters of GGA, with one more field put before its `*`. -/
def ggaLongField : List Nat :=
  txt "$GPGGA,000000,1,N,1,E,1,1,1,1,M,1,M,,," ++ List.replicate 64 65 ++ txt "*40"

/-- The record that `ggaLongField` gives with the decimal conversion. -/
def ggaLongFieldRecord : gps_gga_t Decimal :=
  { hour := 0, min := 0, sec := 0,
    latitude := { neg := false, mantissa := 1, scale := 0 }, ns := 78,
    longitude := { neg := false, mantissa := 1, scale := 0 }, ew := 69,
    position_fix := 1, satellites_used := 1,
    hdop := { neg := false, mantissa := 1, scale := 0 },
    altitude := 1, altitude_unit := 77 }

/-- A GGA sentence whose field 3 is `NX`. -/
def ggaNX : List Nat :=
  txt "$GPGGA,161229.487,3723.2475,NX,12158.3416,W,1,07,1.0,9.0,M,0,M,,0000*3D"

/-- A GSA sentence whose check sum has a letter. -/
def gsaUpper : List Nat :=
  txt "$GPGSA,A,3,07,02,26,27,09,04,15,,,,,,1.8,1.0,1.9*3F"

/-- The sentence `gsaUpper` with the letter of its check sum in lower case. -/
def gsaLower : List Nat :=
  txt "$GPGSA,A,3,07,02,26,27,09,04,15,,,,,,1.8,1.0,1.9*3f"

/-- The characters that are hexadecimal digits. -/
def hexChars : List Nat :=
  [48, 49, 50, 51, 52, 53, 54, 55, 56, 57, 65, 66, 67, 68, 69, 70, 97, 98, 99, 100, 101, 102]

/-- Whether the scan of a check sum fails or gives a value other than `v` in 8 bits. -/
def scanDiffers (r : Res (Option Nat)) (v : Nat) : Bool :=
  match r with
  | .ok none => true
  | .ok (some w) => w % 256 != v
  | .ub _ => false

/-- A character may stand in a line: it is a byte other than NUL, CR and LF. -/
def lineChar (c : Nat) : Bool := c != 0 && c != 10 && c != 13 && decide (c < 256)

/-- The flip of bit `k` of the first character of the check sum `c1 c2` keeps the scanned
value: it changes the case of a letter, or turns `0` into a space. -/
def keepsFirst (c1 k : Nat) : Bool :=
  hexval (c1 ^^^ 2 ^ k) == hexval c1 || (c1 == 48 && k == 4)

/-- The flip of bit `k` of the second character of the check sum `c1 c2` keeps the scanned
value: it changes the case of a letter, or the check sum is `00` and the character is no
digit any more. -/
def keepsSecond (c1 c2 k : Nat) : Bool :=
  hexval (c2 ^^^ 2 ^ k) == hexval c2 ||
    (c1 == 48 && c2 == 48 && hexval (c2 ^^^ 2 ^ k) == none)

/-- Whether the scan of a check sum gives the value `v` in 8 bits. -/
def scanSame (r : Res (Option Nat)) (v : Nat) : Bool :=
  match r with
  | .ok (some w) => w % 256 == v
  | _ => false

/-- Whether a character ends a text for `parse`: NUL, CR or LF. -/
def isEnd (c : Nat) : Bool := c = 0 || c = 13 || c = 10

/-- The loop `while ((p = parse(p, des, n, ",*")) != NULL) cnt++;` of the decoders for a
buffer `des` of any size `n`, without the array: the texts stored by the successive calls
of `parse`, at most `fuel` of them, and the final `cnt`, the number of calls that did not
return NULL. -/
def parseRepeat : Nat → List Nat → Nat → Nat → List (List Nat) × Nat
  | 0, _, _, cnt => ([], cnt)
  | fuel + 1, p, n, cnt =>
    match (parse p n delims).2 with
    | none => ([(parse p n delims).1], cnt)
    | some q =>
      ((parse p n delims).1 :: (parseRepeat fuel q n (cnt + 1)).1,
        (parseRepeat fuel q n (cnt + 1)).2)

/-- A GGA sentence with an altitude of 9.0 m and a separation of the geoid of -34.2 m. -/
def ggaGeoid : List Nat :=
  txt "$GPGGA,161229.487,3723.2475,N,12158.3416,W,1,07,1.0,9.0,M,-34.2,M,,0000*63"

/-- The record that `ggaGeoid` gives with the decimal conversion. -/
def ggaGeoidRecord : gps_gga_t Decimal :=
  { hour := 16, min := 12, sec := 29,
    latitude := { neg := false, mantissa := 37232475, scale := 4 }, ns := 78,
    longitude := { neg := false, mantissa := 121583416, scale := 4 }, ew := 87,
    position_fix := 1, satellites_used := 7,
    hdop := { neg := false, mantissa := 10, scale := 1 },
    altitude := -34, altitude_unit := 77 }

/-- The sentence `ggaAccepted` with an empty position fix (field 6). -/
def ggaNoFix : List Nat :=
  txt "$GPGGA,161229.487,3723.2475,N,12158.3416,W,,07,1.0,9.0,M,0,M,,0000*54"

/-- The GSV sentence of the NMEA reference manual. -/
def gsvExample : List Nat :=
  txt "$GPGSV,2,1,07,07,79,048,42,02,51,062,43,26,36,256,42,27,27,138,42*71"

/-- A stack of zeros but for the character `9` at the start of row 28 of `plist`. -/
def nineStack : Plist := fun r c => if r = 28 ∧ c = 0 then 57 else 0

/-- The text after the white space at its start. -/
def skipSpace : List Nat → List Nat
  | [] => []
  | c :: cs => if isspace c then skipSpace cs else c :: cs

/-- A text in which `atoi` finds no number: after the white space at its start and a sign,
if there is one, comes no digit. The empty text is one. -/
def noNumber (f : List Nat) : Bool :=
  match skipSpace f with
  | [] => true
  | c :: cs =>
    if c = 45 ∨ c = 43 then
      match cs with
      | [] => true
      | d :: _ => !isdigit d
    else !isdigit c

/-- The sentence `ggaAccepted` with an empty position fix (field 6) and an empty altitude
(field 9). -/
def ggaNoAltitude : List Nat :=
  txt "$GPGGA,161229.487,3723.2475,N,12158.3416,W,,07,1.0,,M,0,M,,0000*73"

/-- A GSV sentence with empty fields 1 and 8 and a right check sum. -/
def gsvNoCount : List Nat :=
  txt "$GPGSV,,1,07,07,79,048,42,,51,062,43,26,36,256,42,27,27,138,42*41"

/-- A GSA sentence whose field 2, the fix, is `-x`, with a right check sum. -/
def gsaNoFix : List Nat :=
  txt "$GPGSA,A,-x,07,02,26,27,09,04,15,,,,,,1.8,1.0,1.5*55"

/-- The record that `gsvExample` gives when the stack held zeros. -/
def gsvExampleRecord : gps_gsv_t :=
  { msgcnt := 2, msgnum := 1, satcnt := 7,
    satellite :=
      [{ num := 7, elevation := 7, azimuth := 7, snr := 7 },
       { num := 7, elevation := 2, azimuth := 26, snr := 27 },
       { num := 7, elevation := 26, azimuth := 71, snr := 0 },
       { num := 7, elevation := 27, azimuth := 0, snr := 0 }] }

/-- The record that `gsvExample` gives on the stack `nineStack`. -/
def gsvExampleRecord9 : gps_gsv_t :=
  { msgcnt := 2, msgnum := 1, satcnt := 7,
    satellite :=
      [{ num := 7, elevation := 7, azimuth := 7, snr := 7 },
       { num := 7, elevation := 2, azimuth := 26, snr := 27 },
       { num := 7, elevation := 26, azimuth := 71, snr := 9 },
       { num := 7, elevation := 27, azimuth := 9, snr := 0 }] }

/-- A GGA sentence with 64 delimiters and a right check sum. -/
def ggaManyFields : List Nat :=
  txt "$GPGGA" ++ List.replicate 63 44 ++ txt "*7A"

/-- The computation is defined: it has a value and no undefined behaviour. -/
def Res.isOk {α : Type} : Res α → Bool
  | .ok _ => true
  | .ub _ => false

/-! # Properties -/

theorem hexval_eq_some {c a : Nat} (h : hexval c = some a) :
    (48 ≤ c ∧ c ≤ 57 ∧ a = c - 48) ∨ (65 ≤ c ∧ c ≤ 70 ∧ a = c - 55) ∨
      (97 ≤ c ∧ c ≤ 102 ∧ a = c - 87) := by
  unfold hexval at h
  split_ifs at h with h1 h2 h3 <;> simp at h <;> omega

theorem hexval_lt {c a : Nat} (h : hexval c = some a) : a < 16 := by
  rcases hexval_eq_some h with h | h | h <;> omega

theorem hexval_zero : hexval 0 = none := by decide

theorem isspace_of_hexval {c a : Nat} (h : hexval c = some a) : isspace c = false := by
  rcases hexval_eq_some h with h | h | h <;> simp [isspace] <;> omega

/-! ## Lemmas on the check sum -/

/-- Two hexadecimal digits and the NUL after them scan to their value. -/
theorem sscanfHex_two {c1 c2 a b : Nat} (t : List Nat)
    (h1 : hexval c1 = some a) (h2 : hexval c2 = some b) :
    sscanfHex (c1 :: c2 :: 0 :: t) = .ok (some (16 * a + b)) := by
  have ha := hexval_lt h1
  have hb := hexval_lt h2
  have hs := isspace_of_hexval h1
  have hc1 := hexval_eq_some h1
  have hc2 := hexval_eq_some h2
  have n45 : c1 ≠ 45 := by omega
  have n43 : c1 ≠ 43 := by omega
  have nx : ¬ (c2 = 120 ∨ c2 = 88) := by omega
  have hlt : 16 * a + b < 2 ^ 32 := by omega
  by_cases h48 : c1 = 48
  · subst h48
    have : a = 0 := by omega
    subst this
    simp [sscanfHex, scanHexBody, scanHexNumber, scanHexDigits, h2, hexval_zero, nx, isspace]
    omega
  · simp [sscanfHex, scanHexBody, scanHexNumber, scanHexDigits, h1, h2, hexval_zero, hs, n45,
      n43, h48]
    rw [if_pos (by omega)]
    simp [Nat.mul_comm]

theorem xor_mod_256 (x b : Nat) : (x ^^^ b) % 256 = (x % 256) ^^^ (b % 256) := by
  apply Nat.eq_of_testBit_eq
  intro i
  have h : (256 : Nat) = 2 ^ 8 := by norm_num
  rw [h]
  simp only [Nat.testBit_mod_two_pow, Nat.testBit_xor]
  by_cases hi : i < 8 <;> simp [hi]

theorem foldl_xor_mod (buf : List Nat) (x : Nat) :
    buf.foldl (fun x b => x ^^^ b) x % 256
      = buf.foldl (fun x b => x ^^^ b) (x % 256) % 256 := by
  induction buf generalizing x with
  | nil => simp
  | cons b buf ih =>
    simp only [List.foldl_cons]
    rw [ih (x ^^^ b), ih (x % 256 ^^^ b), xor_mod_256 x b, xor_mod_256 (x % 256) b]
    simp

theorem calcCheckSumFrom_eq (buf : List Nat) (siz cs : Nat) :
    calcCheckSumFrom cs buf siz % 256
      = (buf.take siz).foldl (fun x b => x ^^^ b) cs % 256 := by
  induction buf generalizing siz cs with
  | nil => cases siz <;> simp [calcCheckSumFrom]
  | cons b buf ih =>
    cases siz with
    | zero => simp [calcCheckSumFrom]
    | succ siz =>
      simp only [calcCheckSumFrom, List.take_succ_cons, List.foldl_cons]
      rw [ih, foldl_xor_mod, Nat.mod_mod, ← foldl_xor_mod]

theorem calcCheckSumFrom_lt (buf : List Nat) (siz cs : Nat) (h : cs < 256) :
    calcCheckSumFrom cs buf siz < 256 := by
  induction buf generalizing siz cs with
  | nil => cases siz <;> simpa [calcCheckSumFrom] using h
  | cons b buf ih =>
    cases siz with
    | zero => simpa [calcCheckSumFrom] using h
    | succ siz =>
      simp only [calcCheckSumFrom]
      exact ih _ _ (Nat.mod_lt _ (by norm_num))

/-- The function `calcCheckSum` is the exclusive or, in 8 bits, of the first `siz` bytes. -/
theorem calcCheckSum_eq_xor8 (buf : List Nat) (siz : Nat) :
    calcCheckSum buf siz = xor8 (buf.take siz) := by
  have h := calcCheckSumFrom_eq buf siz 0
  have hlt := calcCheckSumFrom_lt buf siz 0 (by norm_num)
  unfold calcCheckSum xor8
  rw [← h, Nat.mod_eq_of_lt hlt]

theorem calcCheckSumFrom_append (buf t : List Nat) (siz cs : Nat) (h : siz ≤ buf.length) :
    calcCheckSumFrom cs (buf ++ t) siz = calcCheckSumFrom cs buf siz := by
  induction buf generalizing siz cs with
  | nil =>
    have : siz = 0 := by simpa using h
    subst this
    cases t <;> simp [calcCheckSumFrom]
  | cons b buf ih =>
    cases siz with
    | zero => simp [calcCheckSumFrom]
    | succ siz =>
      simp only [List.cons_append, calcCheckSumFrom]
      exact ih _ _ (by simpa using h)

theorem strlen_append_zero (line t : List Nat) (h : ∀ c ∈ line, c ≠ 0) :
    strlen (line ++ 0 :: t) = line.length := by
  induction line with
  | nil => simp [strlen]
  | cons c line ih =>
    have hc : c ≠ 0 := h c (by simp)
    have ih2 := ih (fun d hd => h d (by simp [hd]))
    simp [strlen, hc, ih2]

theorem text_append_zero (line t : List Nat) (h : ∀ c ∈ line, c ≠ 0) :
    text (line ++ 0 :: t) = line := by
  unfold text
  rw [strlen_append_zero line t h]
  simp

theorem drop_length_sub_two (line : List Nat) (h : 2 ≤ line.length) :
    line.drop (line.length - 2)
      = [line.getD (line.length - 2) 0, line.getD (line.length - 1) 0] := by
  have h1 : line.length - 2 < line.length := by omega
  have h2 : line.length - 2 + 1 < line.length := by omega
  have e : line.length - 2 + 1 = line.length - 1 := by omega
  rw [List.drop_eq_getElem_cons h1, List.drop_eq_getElem_cons h2,
    List.drop_eq_nil_of_le (by omega)]
  rw [List.getD_eq_getElem _ _ h1, List.getD_eq_getElem _ _ (by omega)]
  simp only [e]

/-- The check of the check sum on a line that has the form `$...*XX`. -/
theorem checkSum_of_form (line t : List Nat) (v1 v2 : Nat) (hline : ∀ c ∈ line, c ≠ 0)
    (hn : 4 ≤ line.length) (h0 : line.getD 0 0 = 36)
    (hstar : line.getD (line.length - 3) 0 = 42)
    (h1 : hexval (line.getD (line.length - 2) 0) = some v1)
    (h2 : hexval (line.getD (line.length - 1) 0) = some v2) :
    checkSum (line ++ 0 :: t)
      = if 16 * v1 + v2 = calcCheckSum (line.drop 1) (line.length - 4) then .ok none
        else .ok (some .illegalData) := by
  have hv1 := hexval_lt h1
  have hv2 := hexval_lt h2
  unfold checkSum
  simp only [strlen_append_zero line t hline]
  rw [List.getD_append _ _ _ _ (by omega), List.getD_append _ _ _ _ (by omega), h0, hstar]
  rw [List.drop_append_of_le_length (by omega), drop_length_sub_two line (by omega)]
  rw [List.drop_append_of_le_length (by omega)]
  rw [show calcCheckSum (List.drop 1 line ++ 0 :: t) (line.length - 4)
        = calcCheckSum (List.drop 1 line) (line.length - 4) from
      calcCheckSumFrom_append _ _ _ _ (by simp; omega)]
  simp only [List.cons_append, List.nil_append, sscanfHex_two t h1 h2, Res.bind]
  have hmod : (16 * v1 + v2) % 256 = 16 * v1 + v2 := Nat.mod_eq_of_lt (by omega)
  rw [hmod]
  have : ¬ line.length < 3 := by omega
  simp only [this, if_false, if_true]
  by_cases hc : 16 * v1 + v2 = calcCheckSum (List.drop 1 line) (line.length - 4) <;> simp [hc]

/-- The check of the check sum on a line that does not start with `$` or has no `*` before
its last two characters. -/
theorem checkSum_of_bad_form (line t : List Nat) (hline : ∀ c ∈ line, c ≠ 0)
    (hn : 3 ≤ line.length)
    (h : line.getD 0 0 ≠ 36 ∨ line.getD (line.length - 3) 0 ≠ 42) :
    checkSum (line ++ 0 :: t) = .ok (some .invalidFormat) := by
  unfold checkSum
  simp only [strlen_append_zero line t hline]
  rw [List.getD_append _ _ _ _ (by omega), List.getD_append _ _ _ _ (by omega)]
  have : ¬ line.length < 3 := by omega
  rcases h with h | h
  · rw [if_neg h]
  · by_cases h0 : line.getD 0 0 = 36
    · rw [if_pos h0, if_neg this, if_neg h]
    · rw [if_neg h0]

/-! ## Lines and the loops that read them -/

theorem readLine_append (line : List Nat) (eol : Int) (rest : List Int) (src : List Nat)
    (heol : eol = 13 ∨ eol = 10)
    (hlen : src.length + line.length < DATABUFSIZ) (hne : src ++ line ≠ [])
    (hc : ∀ c ∈ line, c ≠ 0 ∧ c ≠ 10 ∧ c ≠ 13 ∧ c < 256) :
    readLine (line.map Int.ofNat ++ eol :: rest) src = .line (src ++ line ++ [0]) rest := by
  induction line generalizing src with
  | nil =>
    have h1 : ¬ eol < 0 := by rcases heol with h | h <;> omega
    have h2 : ¬ DATABUFSIZ ≤ src.length := by simpa using hlen
    have h3 : ¬ src.length + 1 ≤ 1 := by
      cases src with
      | nil => simp at hne
      | cons a s => simp
    simp only [List.map_nil, List.nil_append, readLine, h1, h2, heol, h3, if_false, if_true,
      List.append_nil]
  | cons c line ih =>
    obtain ⟨c0, c10, c13, c256⟩ := hc c (by simp)
    have h1 : ¬ (Int.ofNat c) < 0 := by simp
    have h2 : ¬ DATABUFSIZ ≤ src.length := by
      simp only [List.length_cons] at hlen
      omega
    have h3 : ¬ (Int.ofNat c = 13 ∨ Int.ofNat c = 10) := by
      simp only [Int.ofNat_eq_coe]
      omega
    have h4 : (Int.ofNat c % 256).toNat = c := by
      simp only [Int.ofNat_eq_coe]
      omega
    simp only [List.map_cons, List.cons_append, readLine, h1, h2, h3, if_false, h4]
    have hlen2 : (src ++ [c]).length + line.length < DATABUFSIZ := by
      simp only [List.length_append, List.length_cons, List.length_nil] at hlen ⊢
      omega
    have ih2 := ih (src ++ [c]) hlen2 (by simp) (fun d hd => hc d (by simp [hd]))
    simpa [List.append_assoc] using ih2

theorem readLine_line (line : List Nat) (eol : Int) (rest : List Int)
    (hline : IsLine line) (heol : eol = 13 ∨ eol = 10) :
    readLine (lineStream line eol rest) [] = .line (line ++ [0]) rest := by
  obtain ⟨hne, hlen, hc⟩ := hline
  have h := readLine_append line eol rest [] heol (by simpa using hlen) (by simpa using hne) hc
  simpa [lineStream] using h

/-- A call of `processing` that reads a whole line does what `processLine` does on it. -/
theorem processing_line {D : Type} (scanLf : List Nat → Option D) (stack0 : Plist)
    (cbfuncs : Option gps_callback_t) (line : List Nat) (eol : Int) (rest : List Int)
    (hline : IsLine line) (heol : eol = 13 ∨ eol = 10) :
    processing scanLf stack0 cbfuncs (lineStream line eol rest)
      = { ret := (processLine scanLf stack0 cbfuncs (line ++ [0])).1,
          events := (processLine scanLf stack0 cbfuncs (line ++ [0])).2,
          ser := rest } := by
  unfold processing
  rw [readLine_line line eol rest hline heol]

theorem IsLine.ne_zero {line : List Nat} (h : IsLine line) : ∀ c ∈ line, c ≠ 0 :=
  fun c hc => (h.2.2 c hc).1

/-! ## The check of the check sum (C1, C2) -/

/-- C1. On a line of at least four characters that starts with `$`, has `*` as its third
character from the end and ends in two hexadecimal digits of value `16 * v1 + v2`, the
check of `processing` passes exactly when that value is what `calcCheckSum` computes, the
exclusive or in 8 bits of the bytes between the `$` and the `*`, and it fails with the
diagnostic of illegal data otherwise. On a line of at least three characters that does not
start with `$` or has no `*` as its third character from the end, the check fails. -/
theorem checkSum_validates (line : List Nat) (hline : ∀ c ∈ line, c ≠ 0) :
    (∀ v1 v2 : Nat, 4 ≤ line.length → line.getD 0 0 = 36 →
      line.getD (line.length - 3) 0 = 42 →
      hexval (line.getD (line.length - 2) 0) = some v1 →
      hexval (line.getD (line.length - 1) 0) = some v2 →
        calcCheckSum (line.drop 1) (line.length - 4)
            = xor8 ((line.drop 1).take (line.length - 4)) ∧
          (checkSum (line ++ [0]) = .ok none ↔
            16 * v1 + v2 = calcCheckSum (line.drop 1) (line.length - 4)) ∧
          (16 * v1 + v2 ≠ calcCheckSum (line.drop 1) (line.length - 4) →
            checkSum (line ++ [0]) = .ok (some .illegalData))) ∧
    (3 ≤ line.length → line.getD 0 0 ≠ 36 ∨ line.getD (line.length - 3) 0 ≠ 42 →
      checkSum (line ++ [0]) = .ok (some .invalidFormat)) := by
  refine ⟨?_, fun hn h => checkSum_of_bad_form line [] hline hn h⟩
  intro v1 v2 hn h0 hstar h1 h2
  have h := checkSum_of_form line [] v1 v2 hline hn h0 hstar h1 h2
  refine ⟨calcCheckSum_eq_xor8 _ _, ?_, ?_⟩
  · rw [h]
    by_cases hc : 16 * v1 + v2 = calcCheckSum (List.drop 1 line) (line.length - 4)
    · simp [hc]
    · simp [hc]
  · intro hc
    rw [h, if_neg hc]

/-- C1 at the sentence of the reference manual: `1` and `8` are its last two characters,
and the check passes. -/
theorem checkSum_validates_witness :
    (∀ c ∈ ggaExample, c ≠ 0) ∧ checkSum (ggaExample ++ [0]) = .ok none :=
  ⟨by decide,
   ((checkSum_validates ggaExample (by decide)).1 1 8 (by decide) (by decide) (by decide)
      (by decide) (by decide)).2.1.mpr (by decide)⟩

theorem processLine_of_checkSum_fails {D : Type} (scanLf : List Nat → Option D)
    (stack0 : Plist) (cb : gps_callback_t) (src : List Nat) (d : Diag)
    (h : checkSum src = .ok (some d)) :
    processLine scanLf stack0 (some cb) src
      = (.ok false, logged cb (text src) ++ [Event.print d (text src)]) := by
  simp [processLine, h, logged]

/-- C2. With a callback structure attached, a call of `processing` that reads a line on
which the check of the check sum fails (with any of the three diagnostics) returns false,
and its events are the call of the log callback, when there is one, and the diagnostic:
no record callback is called. So it is for the sentence of the reference manual with the
check sum changed to `19`, followed by CR and LF. -/
theorem checksum_gate {D : Type} (scanLf : List Nat → Option D) (stack0 : Plist)
    (cb : gps_callback_t) :
    (∀ (line : List Nat) (eol : Int) (rest : List Int) (d : Diag),
      IsLine line → eol = 13 ∨ eol = 10 → checkSum (line ++ [0]) = .ok (some d) →
        processing scanLf stack0 (some cb) (lineStream line eol rest)
            = { ret := .ok false,
                events := logged cb line ++ [Event.print d line],
                ser := rest } ∧
          recordEvents (processing scanLf stack0 (some cb) (lineStream line eol rest)).events
            = []) ∧
    processing scanLf stack0 (some cb) (lineStream ggaExample19 13 [10])
        = { ret := .ok false,
            events := logged cb ggaExample19 ++ [Event.print .illegalData ggaExample19],
            ser := [10] } ∧
      recordEvents (processing scanLf stack0 (some cb) (lineStream ggaExample19 13 [10])).events
        = [] := by
  have gen : ∀ (line : List Nat) (eol : Int) (rest : List Int) (d : Diag),
      IsLine line → eol = 13 ∨ eol = 10 → checkSum (line ++ [0]) = .ok (some d) →
        processing scanLf stack0 (some cb) (lineStream line eol rest)
            = { ret := .ok false,
                events := logged cb line ++ [Event.print d line],
                ser := rest } ∧
          recordEvents (processing scanLf stack0 (some cb) (lineStream line eol rest)).events
            = [] := by
    intro line eol rest d hline heol hfail
    have hp := processing_line scanLf stack0 (some cb) line eol rest hline heol
    rw [processLine_of_checkSum_fails scanLf stack0 cb _ d hfail,
      text_append_zero line [] hline.ne_zero] at hp
    refine ⟨hp, ?_⟩
    rw [hp]
    unfold recordEvents logged
    cases cb.cbfunc_log <;> simp [Event.isRecord]
  exact ⟨gen, gen ggaExample19 13 [10] .illegalData (by decide) (by decide) (by decide)⟩

/-! ## Fields and `parse` -/

theorem exists_delims (c : Nat) : SerialGPS.exists c delims = isDelim c := by
  simp only [SerialGPS.exists, delims, isDelim]
  by_cases h1 : c = 44 <;> by_cases h2 : c = 42 <;> simp [h1, h2]

theorem fields_ne_nil (line : List Nat) : fields line ≠ [] := by
  cases line with
  | nil => simp [fields]
  | cons c line =>
    simp only [fields]
    split_ifs
    · simp
    · split <;> simp

theorem fields_cons_delim (c : Nat) (line : List Nat) (h : isDelim c = true) :
    fields (c :: line) = [] :: fields line := by
  simp [fields, h]

theorem fields_cons_char (c : Nat) (line : List Nat) (f : List Nat) (fs : List (List Nat))
    (h : isDelim c = false) (hf : fields line = f :: fs) :
    fields (c :: line) = (c :: f) :: fs := by
  simp [fields, h, hf]

theorem NoEnd.tail {c : Nat} {line : List Nat} (h : NoEnd (c :: line)) : NoEnd line :=
  fun d hd => h d (by simp [hd])

theorem NoEnd.head {c : Nat} {line : List Nat} (h : NoEnd (c :: line)) :
    ¬ (c = 0 ∨ c = 13 ∨ c = 10) := by
  have := h c (by simp)
  omega

/-- What `parse` does on a text whose first field is `f`: a field shorter than `dessiz`
is stored with a NUL, and the pointer after its delimiter is returned when it has one;
of a longer field `dessiz` characters are stored and NULL is returned. -/
theorem parse_fields (line t : List Nat) (dessiz : Nat) (f : List Nat) (fs : List (List Nat))
    (hline : NoEnd line) (hf : fields line = f :: fs) :
    parse (line ++ 0 :: t) dessiz delims
      = if dessiz ≤ f.length then (f.take dessiz, none)
        else (f ++ [0], if fs = [] then none else some (afterDelim line ++ 0 :: t)) := by
  induction line generalizing dessiz f with
  | nil =>
    simp only [fields, List.cons.injEq] at hf
    obtain ⟨rfl, rfl⟩ := hf
    cases dessiz with
    | zero => simp [parse]
    | succ n => simp [parse]
  | cons c line ih =>
    cases dessiz with
    | zero => simp [parse]
    | succ n =>
      have hc := hline.head
      simp only [List.cons_append, parse, hc, if_false, exists_delims, List.append_eq]
      by_cases hd : isDelim c = true
      · rw [fields_cons_delim c line hd] at hf
        simp only [List.cons.injEq] at hf
        obtain ⟨rfl, rfl⟩ := hf
        simp [hd, afterDelim, fields_ne_nil]
      · have hd2 : isDelim c = false := by simpa using hd
        obtain ⟨g, gs, hg⟩ : ∃ g gs, fields line = g :: gs := by
          cases h : fields line with
          | nil => exact absurd h (fields_ne_nil line)
          | cons g gs => exact ⟨g, gs, rfl⟩
        rw [fields_cons_char c line g gs hd2 hg] at hf
        simp only [List.cons.injEq] at hf
        obtain ⟨rfl, rfl⟩ := hf
        rw [ih n g hline.tail hg]
        simp only [hd2, Bool.false_eq_true, if_false, List.length_cons, afterDelim]
        by_cases hn : n ≤ g.length
        · simp [hn]
        · simp [hn]

theorem fields_afterDelim (line : List Nat) (f g : List Nat) (fs : List (List Nat))
    (hf : fields line = f :: g :: fs) : fields (afterDelim line) = g :: fs := by
  induction line generalizing f with
  | nil => simp [fields] at hf
  | cons c line ih =>
    by_cases hd : isDelim c = true
    · rw [fields_cons_delim c line hd] at hf
      simp only [List.cons.injEq] at hf
      simp [afterDelim, hd, hf.2]
    · have hd2 : isDelim c = false := by simpa using hd
      obtain ⟨h, hs, hg⟩ : ∃ h hs, fields line = h :: hs := by
        cases h : fields line with
        | nil => exact absurd h (fields_ne_nil line)
        | cons g gs => exact ⟨g, gs, rfl⟩
      rw [fields_cons_char c line h hs hd2 hg] at hf
      simp only [List.cons.injEq] at hf
      obtain ⟨-, rfl⟩ := hf
      simp only [afterDelim, hd2, Bool.false_eq_true, if_false]
      exact ih h hg

theorem afterDelim_length_le (line : List Nat) : (afterDelim line).length ≤ line.length := by
  induction line with
  | nil => simp [afterDelim]
  | cons c line ih =>
    simp only [afterDelim]
    split_ifs
    · simp
    · simp only [List.length_cons]
      omega

theorem afterDelim_length_lt (line : List Nat) (h : line ≠ []) :
    (afterDelim line).length < line.length := by
  cases line with
  | nil => exact absurd rfl h
  | cons c line =>
    simp only [afterDelim]
    have := afterDelim_length_le line
    split_ifs
    · simp
    · simp only [List.length_cons]
      omega

theorem NoEnd.afterDelim {line : List Nat} (h : NoEnd line) : NoEnd (afterDelim line) := by
  induction line with
  | nil => simpa [SerialGPS.afterDelim] using h
  | cons c line ih =>
    simp only [SerialGPS.afterDelim]
    split_ifs
    · exact h.tail
    · exact ih h.tail

theorem fields_length_two_ne_nil (line : List Nat) (f g : List Nat) (fs : List (List Nat))
    (hf : fields line = f :: g :: fs) : line ≠ [] := by
  intro h
  subst h
  simp [fields] at hf

/-- The tokenizing loop on a line is the loop told on its fields. -/
theorem tokenLoop_fields (fuel : Nat) (line t : List Nat) (cnt : Nat) (plist : Plist)
    (hline : NoEnd line) (hfuel : line.length < fuel) :
    tokenLoop fuel (line ++ 0 :: t) cnt plist = tokenizeFields (fields line) cnt plist := by
  induction fuel generalizing line cnt plist with
  | zero => omega
  | succ fuel ih =>
    obtain ⟨f, fs, hf⟩ : ∃ f fs, fields line = f :: fs := by
      cases h : fields line with
      | nil => exact absurd h (fields_ne_nil line)
      | cons g gs => exact ⟨g, gs, rfl⟩
    rw [hf]
    simp only [tokenLoop, tokenizeFields, parse_fields line t PARAM_TXTMAXLEN f fs hline hf]
    by_cases h1 : PARAM_ARRAYSIZE ≤ cnt
    · simp [h1]
    · simp only [h1, if_false]
      by_cases h2 : PARAM_TXTMAXLEN ≤ f.length
      · simp [h2]
      · simp only [h2, if_false]
        cases fs with
        | nil => simp
        | cons g gs =>
          simp only [reduceCtorEq, if_false]
          have hne := fields_length_two_ne_nil line f g gs hf
          have hlt := afterDelim_length_lt line hne
          rw [ih (afterDelim line) (cnt + 1) _ hline.afterDelim (by omega),
            fields_afterDelim line f g gs hf]

/-- The tokenizing loop of a decoder never uses up its bound. -/
theorem tokenize_fuel (stack0 : Plist) (line t : List Nat) (hline : NoEnd line) :
    tokenize stack0 (line ++ 0 :: t) = tokenizeFields (fields line) 0 stack0 := by
  unfold tokenize
  exact tokenLoop_fields _ line t 0 stack0 hline (by simp; omega)

/-! ## The array of fields after the tokenizing loop -/

theorem store_same (plist : Plist) (cnt : Nat) (w : List Nat) : RowHas (store plist cnt w) cnt w := by
  intro c hc
  simp only [store, if_true]
  rw [List.getD_eq_getElem _ _ hc, List.getD_eq_getElem _ _ hc]

theorem store_other (plist : Plist) (cnt r : Nat) (w : List Nat) (h : r ≠ cnt) :
    store plist cnt w r = plist r := by
  funext c
  simp [store, h]

theorem store_same_beyond (plist : Plist) (cnt c : Nat) (w : List Nat) (h : w.length ≤ c) :
    store plist cnt w cnt c = plist cnt c := by
  simp only [store, if_true]
  rw [List.getD_eq_default _ _ h]

/-- What the tokenizing loop leaves: the count `n` it ends with is below
`PARAM_ARRAYSIZE` and indexes a field; every row from `cnt` to below `n` has a field shorter
than `PARAM_TXTMAXLEN` and its NUL; the rows below `cnt` and above `n` are as before; row
`n` has the last field and its NUL, or the first `PARAM_TXTMAXLEN` characters of a field
that is not shorter and nothing after them. -/
theorem tokenizeFields_spec (fs : List (List Nat)) (cnt : Nat) (plist : Plist) (n : Nat)
    (plist' : Plist) (hfs : fs ≠ []) (h : tokenizeFields fs cnt plist = .ok (n, plist')) :
    cnt ≤ n ∧ n < PARAM_ARRAYSIZE ∧ n - cnt < fs.length ∧
    (∀ i, cnt + i < n →
      (fs.getD i []).length < PARAM_TXTMAXLEN ∧ RowHas plist' (cnt + i) (fs.getD i [] ++ [0])) ∧
    (∀ r, r < cnt ∨ n < r → plist' r = plist r) ∧
    ((fs.getD (n - cnt) []).length < PARAM_TXTMAXLEN →
      n - cnt + 1 = fs.length ∧ RowHas plist' n (fs.getD (n - cnt) [] ++ [0])) ∧
    (PARAM_TXTMAXLEN ≤ (fs.getD (n - cnt) []).length →
      RowHas plist' n ((fs.getD (n - cnt) []).take PARAM_TXTMAXLEN) ∧
      ∀ c, PARAM_TXTMAXLEN ≤ c → plist' n c = plist n c) := by
  induction fs generalizing cnt plist with
  | nil => exact absurd rfl hfs
  | cons f fs ih =>
    simp only [tokenizeFields] at h
    by_cases h1 : PARAM_ARRAYSIZE ≤ cnt
    · simp [h1] at h
    · simp only [h1, if_false] at h
      by_cases h2 : PARAM_TXTMAXLEN ≤ f.length
      · simp only [h2, if_true, Res.ok.injEq, Prod.mk.injEq] at h
        obtain ⟨rfl, rfl⟩ := h
        refine ⟨le_refl _, by omega, by simp, fun i hi => by omega, ?_, ?_, ?_⟩
        · intro r hr
          exact store_other _ _ _ _ (by omega)
        · intro hlt
          simp only [Nat.sub_self, List.getD_cons_zero] at hlt
          omega
        · intro _
          simp only [Nat.sub_self, List.getD_cons_zero]
          refine ⟨store_same _ _ _, fun c hc => store_same_beyond _ _ _ _ ?_⟩
          simp only [List.length_take]
          omega
      · simp only [h2, if_false] at h
        cases fs with
        | nil =>
          simp only [Res.ok.injEq, Prod.mk.injEq] at h
          obtain ⟨rfl, rfl⟩ := h
          refine ⟨le_refl _, by omega, by simp, fun i hi => by omega, ?_, ?_, ?_⟩
          · intro r hr
            exact store_other _ _ _ _ (by omega)
          · intro _
            simp only [Nat.sub_self, List.getD_cons_zero]
            exact ⟨by simp, store_same _ _ _⟩
          · intro hge
            simp only [Nat.sub_self, List.getD_cons_zero] at hge
            omega
        | cons g gs =>
          simp only at h
          obtain ⟨a1, a2, a3, a4, a5, a6, a7⟩ := ih (cnt + 1) _ (by simp) h
          have hsub : n - cnt = (n - (cnt + 1)) + 1 := by omega
          refine ⟨by omega, a2, ?_, ?_, ?_, ?_, ?_⟩
          · simp only [List.length_cons] at a3 ⊢
            omega
          · intro i hi
            cases i with
            | zero =>
              simp only [List.getD_cons_zero, Nat.add_zero]
              refine ⟨by omega, fun c hc => ?_⟩
              rw [a5 cnt (Or.inl (by omega))]
              exact store_same _ _ _ c hc
            | succ j =>
              have := a4 j (by omega)
              simp only [List.getD_cons_succ]
              have e : cnt + (j + 1) = cnt + 1 + j := by omega
              rw [e]
              exact this
          · intro r hr
            rw [a5 r (by omega)]
            exact store_other _ _ _ _ (by omega)
          · intro hlt
            rw [hsub, List.getD_cons_succ] at hlt
            have := a6 hlt
            rw [hsub, List.getD_cons_succ]
            refine ⟨?_, this.2⟩
            simp only [List.length_cons] at this ⊢
            omega
          · intro hge
            rw [hsub, List.getD_cons_succ] at hge
            have := a7 hge
            rw [hsub, List.getD_cons_succ]
            refine ⟨this.1, fun c hc => ?_⟩
            rw [this.2 c hc]
            exact congrFun (store_other _ _ _ _ (by omega)) c

theorem rowFrom_start (plist : Plist) (r : Nat) (w : List Nat) (c n : Nat)
    (h : ∀ i, i < w.length → plist r (c + i) = w.getD i 0) (hn : w.length ≤ n) :
    rowFrom plist r c n = w ++ rowFrom plist r (c + w.length) (n - w.length) := by
  induction w generalizing c n with
  | nil => simp
  | cons a w ih =>
    cases n with
    | zero => simp at hn
    | succ n =>
      have h0 := h 0 (by simp)
      simp only [Nat.add_zero, List.getD_cons_zero] at h0
      simp only [rowFrom, h0, List.cons_append, List.length_cons]
      rw [ih (c + 1) n (fun i hi => by
        have := h (i + 1) (by simpa using hi)
        simp only [List.getD_cons_succ] at this
        rw [← this]
        congr 1
        omega) (by simpa using hn)]
      have e1 : c + 1 + w.length = c + (w.length + 1) := by omega
      have e2 : n - w.length = n + 1 - (w.length + 1) := by omega
      rw [e1, e2]

/-- The pointer to a row that has the bytes `w` sees them first. -/
theorem plistAt_of_rowHas (plist : Plist) (r : Nat) (w : List Nat) (h : RowHas plist r w)
    (hr : r < PARAM_ARRAYSIZE) (hw : w.length ≤ PARAM_TXTMAXLEN) :
    ∃ t, plistAt plist r = w ++ t := by
  unfold plistAt
  obtain ⟨k, hk⟩ : ∃ k, PARAM_ARRAYSIZE - r = k + 1 := ⟨PARAM_ARRAYSIZE - r - 1, by omega⟩
  rw [hk]
  simp only [rowsFrom]
  rw [rowFrom_start plist r w 0 PARAM_TXTMAXLEN (fun i hi => by simpa using h i hi) hw]
  exact ⟨_, by rw [List.append_assoc]⟩

/-! ## The decoders, read backwards -/

theorem bind_eq_ok {α β : Type} {x : Res α} {f : α → Res β} {b : β} :
    x.bind f = .ok b ↔ ∃ a, x = .ok a ∧ f a = .ok b := by
  cases x <;> simp [Res.bind]

theorem bind_eq_ub {α β : Type} {x : Res α} {f : α → Res β} {e : Fault} :
    x.bind f = .ub e ↔ x = .ub e ∨ ∃ a, x = .ok a ∧ f a = .ub e := by
  cases x <;> simp [Res.bind]

/-- What a result of `parseAndCallbackGGA` tells: a value other than 0 and no callback, or
the value 0 and one call of `cbfunc_gga`, after the loop counted 15 delimiters and every
test on the fields passed. -/
theorem parseAndCallbackGGA_inv {D : Type} (scanLf : List Nat → Option D) (stack0 : Plist)
    (src : List Nat) (cb : gps_callback_t) (res : Int) (ev : List (Event D))
    (h : parseAndCallbackGGA scanLf stack0 src cb = .ok (res, ev)) :
    (res ≠ 0 ∧ ev = []) ∨
    (res = 0 ∧ cb.cbfunc_gga = true ∧
      ∃ plist latitude ns longitude ew position_fix satellites_used hdop alt9 altitude
        altitude_unit,
        tokenize stack0 src = .ok (15, plist) ∧
        sscanfLf scanLf (plistAt plist 2) = .ok (some latitude) ∧
        sscanfChar (plistAt plist 3) = .ok (some ns) ∧ (ns = 78 ∨ ns = 83) ∧
        sscanfLf scanLf (plistAt plist 4) = .ok (some longitude) ∧
        sscanfChar (plistAt plist 5) = .ok (some ew) ∧ (ew = 69 ∨ ew = 87) ∧
        atoi (plistAt plist 6) = .ok position_fix ∧
        atoi (plistAt plist 7) = .ok satellites_used ∧
        sscanfLf scanLf (plistAt plist 8) = .ok (some hdop) ∧
        atoi (plistAt plist 9) = .ok alt9 ∧
        strcmpEq (plistAt plist 10) (txt "M") = .ok true ∧
        atoi (plistAt plist 11) = .ok altitude ∧
        sscanfChar (plistAt plist 12) = .ok (some altitude_unit) ∧
        ev = [Event.gga
          { hour := twoDigits (plist 1 0) (plist 1 1),
            min := twoDigits (plist 1 2) (plist 1 3),
            sec := twoDigits (plist 1 4) (plist 1 5),
            latitude := latitude, ns := ns, longitude := longitude, ew := ew,
            position_fix := position_fix, satellites_used := satellites_used,
            hdop := hdop, altitude := altitude, altitude_unit := altitude_unit }]) := by
  unfold parseAndCallbackGGA at h
  split at h
  · simp only [Res.ok.injEq, Prod.mk.injEq] at h
    exact Or.inl ⟨by omega, h.2.symm⟩
  rename_i hcb
  rw [bind_eq_ok] at h
  obtain ⟨⟨cnt, plist⟩, htok, h⟩ := h
  simp only at h
  split at h
  swap
  · simp only [Res.ok.injEq, Prod.mk.injEq] at h
    exact Or.inl ⟨by omega, h.2.symm⟩
  rename_i hcnt
  subst hcnt
  rw [bind_eq_ok] at h
  obtain ⟨latitude, hlat, h⟩ := h
  split at h
  · simp only [Res.ok.injEq, Prod.mk.injEq] at h
    exact Or.inl ⟨by omega, h.2.symm⟩
  rw [bind_eq_ok] at h
  obtain ⟨ns, hns, h⟩ := h
  split at h
  · simp only [Res.ok.injEq, Prod.mk.injEq] at h
    exact Or.inl ⟨by omega, h.2.symm⟩
  split at h
  · simp only [Res.ok.injEq, Prod.mk.injEq] at h
    exact Or.inl ⟨by omega, h.2.symm⟩
  rename_i hnsv
  rw [bind_eq_ok] at h
  obtain ⟨longitude, hlon, h⟩ := h
  split at h
  · simp only [Res.ok.injEq, Prod.mk.injEq] at h
    exact Or.inl ⟨by omega, h.2.symm⟩
  rw [bind_eq_ok] at h
  obtain ⟨ew, hew, h⟩ := h
  split at h
  · simp only [Res.ok.injEq, Prod.mk.injEq] at h
    exact Or.inl ⟨by omega, h.2.symm⟩
  split at h
  · simp only [Res.ok.injEq, Prod.mk.injEq] at h
    exact Or.inl ⟨by omega, h.2.symm⟩
  rename_i hewv
  rw [bind_eq_ok] at h
  obtain ⟨position_fix, hpf, h⟩ := h
  rw [bind_eq_ok] at h
  obtain ⟨satellites_used, hsu, h⟩ := h
  rw [bind_eq_ok] at h
  obtain ⟨hdop, hhdop, h⟩ := h
  split at h
  · simp only [Res.ok.injEq, Prod.mk.injEq] at h
    exact Or.inl ⟨by omega, h.2.symm⟩
  rw [bind_eq_ok] at h
  obtain ⟨alt9, halt9, h⟩ := h
  rw [bind_eq_ok] at h
  obtain ⟨isM, hM, h⟩ := h
  split at h
  · simp only [Res.ok.injEq, Prod.mk.injEq] at h
    exact Or.inl ⟨by omega, h.2.symm⟩
  rename_i hisM
  rw [bind_eq_ok] at h
  obtain ⟨altitude, halt, h⟩ := h
  rw [bind_eq_ok] at h
  obtain ⟨altitude_unit, hau, h⟩ := h
  split at h
  · simp only [Res.ok.injEq, Prod.mk.injEq] at h
    exact Or.inl ⟨by omega, h.2.symm⟩
  simp only [Res.ok.injEq, Prod.mk.injEq] at h
  refine Or.inr ⟨h.1.symm, by simpa using hcb, plist, _, _, _, _, _, _, _, _, _, _, htok, hlat,
    hns, ?_, hlon, hew, ?_, hpf, hsu, hhdop, halt9, ?_, halt, hau, h.2.symm⟩
  · omega
  · omega
  · have : isM = true := by simpa using hisM
    rw [← this]
    exact hM

/-- What a result of `parseAndCallbackGSA` tells. -/
theorem parseAndCallbackGSA_inv {D : Type} (stack0 : Plist)
    (src : List Nat) (cb : gps_callback_t) (res : Int) (ev : List (Event D))
    (h : parseAndCallbackGSA stack0 src cb = .ok (res, ev)) :
    (res ≠ 0 ∧ ev = []) ∨
    (res = 0 ∧ cb.cbfunc_gsa = true ∧
      ∃ plist fix,
        tokenize stack0 src = .ok (18, plist) ∧
        (plist 1 0 = 65 ∨ plist 1 0 = 77) ∧
        atoi (plistAt plist 2) = .ok fix ∧ (fix = 1 ∨ fix = 2 ∨ fix = 3) ∧
        ev = [Event.gsa { selmode := plist 1 0, fix := fix }]) := by
  unfold parseAndCallbackGSA at h
  split at h
  · simp only [Res.ok.injEq, Prod.mk.injEq] at h
    exact Or.inl ⟨by omega, h.2.symm⟩
  rename_i hcb
  rw [bind_eq_ok] at h
  obtain ⟨⟨cnt, plist⟩, htok, h⟩ := h
  simp only at h
  split at h
  swap
  · simp only [Res.ok.injEq, Prod.mk.injEq] at h
    exact Or.inl ⟨by omega, h.2.symm⟩
  rename_i hcnt
  subst hcnt
  split at h
  · simp only [Res.ok.injEq, Prod.mk.injEq] at h
    exact Or.inl ⟨by omega, h.2.symm⟩
  rename_i hsel
  rw [bind_eq_ok] at h
  obtain ⟨fix, hfix, h⟩ := h
  split at h
  · simp only [Res.ok.injEq, Prod.mk.injEq] at h
    exact Or.inl ⟨by omega, h.2.symm⟩
  rename_i hfixv
  simp only [Res.ok.injEq, Prod.mk.injEq] at h
  refine Or.inr ⟨h.1.symm, by simpa using hcb, plist, fix, htok, ?_, hfix, ?_, h.2.symm⟩
  · omega
  · omega

/-- What a result of `parseAndCallbackRMC` tells. -/
theorem parseAndCallbackRMC_inv {D : Type} (scanLf : List Nat → Option D) (stack0 : Plist)
    (src : List Nat) (cb : gps_callback_t) (res : Int) (ev : List (Event D))
    (h : parseAndCallbackRMC scanLf stack0 src cb = .ok (res, ev)) :
    (res ≠ 0 ∧ ev = []) ∨
    (res = 0 ∧ cb.cbfunc_rmc = true ∧
      ∃ plist nl el,
        tokenize stack0 src = .ok (13, plist) ∧
        sscanfLf scanLf (plistAt plist 3) = .ok (some nl) ∧
        strcmpEq (plistAt plist 4) (txt "N") = .ok true ∧
        sscanfLf scanLf (plistAt plist 5) = .ok (some el) ∧
        strcmpEq (plistAt plist 6) (txt "E") = .ok true ∧
        ev = [Event.rmc
          { hour := twoDigits (plist 1 0) (plist 1 1),
            min := twoDigits (plist 1 2) (plist 1 3),
            sec := twoDigits (plist 1 4) (plist 1 5),
            status := plist 2 0, nl := nl, el := el }]) := by
  unfold parseAndCallbackRMC at h
  split at h
  · simp only [Res.ok.injEq, Prod.mk.injEq] at h
    exact Or.inl ⟨by omega, h.2.symm⟩
  rename_i hcb
  rw [bind_eq_ok] at h
  obtain ⟨⟨cnt, plist⟩, htok, h⟩ := h
  simp only at h
  split at h
  swap
  · simp only [Res.ok.injEq, Prod.mk.injEq] at h
    exact Or.inl ⟨by omega, h.2.symm⟩
  rename_i hcnt
  subst hcnt
  rw [bind_eq_ok] at h
  obtain ⟨nl, hnl, h⟩ := h
  split at h
  · simp only [Res.ok.injEq, Prod.mk.injEq] at h
    exact Or.inl ⟨by omega, h.2.symm⟩
  rw [bind_eq_ok] at h
  obtain ⟨isN, hN, h⟩ := h
  split at h
  · simp only [Res.ok.injEq, Prod.mk.injEq] at h
    exact Or.inl ⟨by omega, h.2.symm⟩
  rename_i hisN
  rw [bind_eq_ok] at h
  obtain ⟨el, hel, h⟩ := h
  split at h
  · simp only [Res.ok.injEq, Prod.mk.injEq] at h
    exact Or.inl ⟨by omega, h.2.symm⟩
  rw [bind_eq_ok] at h
  obtain ⟨isE, hE, h⟩ := h
  split at h
  · simp only [Res.ok.injEq, Prod.mk.injEq] at h
    exact Or.inl ⟨by omega, h.2.symm⟩
  rename_i hisE
  simp only [Res.ok.injEq, Prod.mk.injEq] at h
  have e1 : isN = true := by simpa using hisN
  have e2 : isE = true := by simpa using hisE
  subst e1 e2
  exact Or.inr ⟨h.1.symm, by simpa using hcb, plist, _, _, htok, hnl, hN, hel, hE, h.2.symm⟩

/-- What a result of `parseAndCallbackGSV` tells. -/
theorem parseAndCallbackGSV_inv {D : Type} (stack0 : Plist)
    (src : List Nat) (cb : gps_callback_t) (res : Int) (ev : List (Event D))
    (h : parseAndCallbackGSV stack0 src cb = .ok (res, ev)) :
    (res ≠ 0 ∧ ev = []) ∨
    (res = 0 ∧ cb.cbfunc_gsv = true ∧
      ∃ plist msgcnt msgnum satcnt s0 s1 s2 s3 chksum,
        tokenize stack0 src = .ok (20, plist) ∧
        atoi (plistAt plist 1) = .ok msgcnt ∧
        atoi (plistAt plist 2) = .ok msgnum ∧
        atoi (plistAt plist 3) = .ok satcnt ∧
        gsvSatellite plist 0 = .ok s0 ∧ gsvSatellite plist 1 = .ok s1 ∧
        gsvSatellite plist 2 = .ok s2 ∧ gsvSatellite plist 3 = .ok s3 ∧
        sscanfHex (plistAt plist 20) = .ok (some chksum) ∧
        ev = [Event.gsv
          { msgcnt := msgcnt, msgnum := msgnum, satcnt := satcnt,
            satellite := [s0, s1, s2, s3] }]) := by
  unfold parseAndCallbackGSV at h
  split at h
  · simp only [Res.ok.injEq, Prod.mk.injEq] at h
    exact Or.inl ⟨by omega, h.2.symm⟩
  rename_i hcb
  rw [bind_eq_ok] at h
  obtain ⟨⟨cnt, plist⟩, htok, h⟩ := h
  simp only at h
  split at h
  swap
  · simp only [Res.ok.injEq, Prod.mk.injEq] at h
    exact Or.inl ⟨by omega, h.2.symm⟩
  rename_i hcnt
  subst hcnt
  rw [bind_eq_ok] at h
  obtain ⟨msgcnt, h1, h⟩ := h
  rw [bind_eq_ok] at h
  obtain ⟨msgnum, h2, h⟩ := h
  rw [bind_eq_ok] at h
  obtain ⟨satcnt, h3, h⟩ := h
  rw [bind_eq_ok] at h
  obtain ⟨s0, hs0, h⟩ := h
  rw [bind_eq_ok] at h
  obtain ⟨s1, hs1, h⟩ := h
  rw [bind_eq_ok] at h
  obtain ⟨s2, hs2, h⟩ := h
  rw [bind_eq_ok] at h
  obtain ⟨s3, hs3, h⟩ := h
  rw [bind_eq_ok] at h
  obtain ⟨chk, hchk, h⟩ := h
  split at h
  · simp only [Res.ok.injEq, Prod.mk.injEq] at h
    exact Or.inl ⟨by omega, h.2.symm⟩
  simp only [Res.ok.injEq, Prod.mk.injEq] at h
  exact Or.inr ⟨h.1.symm, by simpa using hcb, plist, _, _, _, _, _, _, _, _, htok, h1, h2, h3,
    hs0, hs1, hs2, hs3, hchk, h.2.symm⟩

/-! ## The fields of a line and the strings of the rows -/

theorem fields_cases (line : List Nat) : ∃ f fs, fields line = f :: fs := by
  cases h : fields line with
  | nil => exact absurd h (fields_ne_nil line)
  | cons g gs => exact ⟨g, gs, rfl⟩

theorem fields_length (line : List Nat) : (fields line).length = delimCount line + 1 := by
  induction line with
  | nil => simp [fields, delimCount]
  | cons c line ih =>
    obtain ⟨f, fs, hf⟩ := fields_cases line
    by_cases hd : isDelim c = true
    · rw [fields_cons_delim c line hd]
      simp only [delimCount, List.filter_cons, hd, if_true, List.length_cons] at ih ⊢
      omega
    · have hd2 : isDelim c = false := by simpa using hd
      rw [fields_cons_char c line f fs hd2 hf]
      rw [hf] at ih
      simp only [delimCount, List.filter_cons, hd2, Bool.false_eq_true, if_false,
        List.length_cons] at ih ⊢
      omega

theorem fields_mem (line : List Nat) (f : List Nat) (hf : f ∈ fields line) :
    ∀ c ∈ f, c ∈ line ∧ isDelim c = false := by
  induction line generalizing f with
  | nil =>
    simp only [fields, List.mem_singleton] at hf
    subst hf
    simp
  | cons a line ih =>
    obtain ⟨g, gs, hg⟩ := fields_cases line
    by_cases hd : isDelim a = true
    · rw [fields_cons_delim a line hd] at hf
      simp only [List.mem_cons] at hf
      rcases hf with rfl | hf
      · simp
      · intro c hc
        have := ih f hf c hc
        exact ⟨by simp [this.1], this.2⟩
    · have hd2 : isDelim a = false := by simpa using hd
      rw [fields_cons_char a line g gs hd2 hg] at hf
      simp only [List.mem_cons] at hf
      rcases hf with rfl | hf
      · intro c hc
        simp only [List.mem_cons] at hc
        rcases hc with rfl | hc
        · exact ⟨by simp, hd2⟩
        · have := ih g (by simp [hg]) c hc
          exact ⟨by simp [this.1], this.2⟩
      · intro c hc
        have := ih f (by simp [hg, hf]) c hc
        exact ⟨by simp [this.1], this.2⟩

theorem fields_length_le (line : List Nat) (f : List Nat) (hf : f ∈ fields line) :
    f.length ≤ line.length := by
  induction line generalizing f with
  | nil =>
    simp only [fields, List.mem_singleton] at hf
    subst hf
    simp
  | cons a line ih =>
    obtain ⟨g, gs, hg⟩ := fields_cases line
    by_cases hd : isDelim a = true
    · rw [fields_cons_delim a line hd] at hf
      simp only [List.mem_cons] at hf
      rcases hf with rfl | hf
      · simp
      · have := ih f hf
        simp only [List.length_cons]
        omega
    · have hd2 : isDelim a = false := by simpa using hd
      rw [fields_cons_char a line g gs hd2 hg] at hf
      simp only [List.mem_cons] at hf
      rcases hf with rfl | hf
      · have := ih g (by simp [hg])
        simp only [List.length_cons]
        omega
      · have := ih f (by simp [hg, hf])
        simp only [List.length_cons]
        omega

theorem field_mem_fields (line : List Nat) (k : Nat) (hk : k < (fields line).length) :
    field line k ∈ fields line := by
  unfold field
  rw [List.getD_eq_getElem _ _ hk]
  exact List.getElem_mem _

theorem field_chars (line : List Nat) (k : Nat) :
    ∀ c ∈ field line k, c ∈ line ∧ isDelim c = false := by
  by_cases hk : k < (fields line).length
  · exact fields_mem line _ (field_mem_fields line k hk)
  · intro c hc
    unfold field at hc
    rw [List.getD_eq_default _ _ (by omega)] at hc
    simp at hc

theorem field_ne_zero (line : List Nat) (k : Nat) (hline : ∀ c ∈ line, c ≠ 0) :
    ∀ c ∈ field line k, c ≠ 0 :=
  fun c hc => hline c (field_chars line k c hc).1

theorem field_length_le (line : List Nat) (k : Nat) : (field line k).length ≤ line.length := by
  by_cases hk : k < (fields line).length
  · exact fields_length_le line _ (field_mem_fields line k hk)
  · unfold field
    rw [List.getD_eq_default _ _ (by omega)]
    simp

theorem sscanfChar_string (f t : List Nat) (hf : ∀ c ∈ f, c ≠ 0) :
    sscanfChar (f ++ 0 :: t) = .ok f.head? := by
  cases f with
  | nil => simp [sscanfChar]
  | cons c f =>
    have := hf c (by simp)
    simp [sscanfChar, this]

theorem strcmpEq_string (f t lit : List Nat) (hf : ∀ c ∈ f, c ≠ 0) (hl : ∀ c ∈ lit, c ≠ 0) :
    strcmpEq (f ++ 0 :: t) lit = .ok (decide (f = lit)) := by
  induction f generalizing lit with
  | nil =>
    cases lit with
    | nil => simp [strcmpEq]
    | cons l lit =>
      have := hl l (by simp)
      simp only [List.nil_append, strcmpEq]
      rw [if_neg (fun h => this h.symm)]
      simp
  | cons c f ih =>
    have hc := hf c (by simp)
    cases lit with
    | nil => simp [strcmpEq, hc]
    | cons l lit =>
      simp only [List.cons_append, strcmpEq, List.append_eq]
      by_cases hcl : c = l
      · subst hcl
        rw [if_pos rfl, ih lit (fun d hd => hf d (by simp [hd])) (fun d hd => hl d (by simp [hd]))]
        simp
      · rw [if_neg hcl]
        simp [hcl]

theorem cstr_string (f t : List Nat) (hf : ∀ c ∈ f, c ≠ 0) : cstr (f ++ 0 :: t) = .ok f := by
  induction f with
  | nil => simp [cstr]
  | cons c f ih =>
    have hc := hf c (by simp)
    simp only [List.cons_append, cstr, hc, if_false, List.append_eq]
    rw [ih (fun d hd => hf d (by simp [hd]))]

theorem atoiDigits_string (f t : List Nat) (acc : Nat) :
    atoiDigits (f ++ 0 :: t) acc = atoiDigits (f ++ [0]) acc := by
  induction f generalizing acc with
  | nil => simp [atoiDigits, isdigit]
  | cons c f ih =>
    simp only [List.cons_append, atoiDigits, List.append_eq]
    split_ifs
    · exact ih _
    · rfl

theorem atoiSigned_string (f t : List Nat) :
    atoiSigned (f ++ 0 :: t) = atoiSigned (f ++ [0]) := by
  cases f with
  | nil => simp [atoiSigned, atoiDigits, isdigit]
  | cons c f =>
    simp only [List.cons_append, atoiSigned, List.append_eq]
    by_cases h1 : c = 45
    · simp only [h1, if_true, atoiDigits_string f t]
    · by_cases h2 : c = 43
      · simp only [h1, h2, if_false, if_true, atoiDigits_string f t]
      · have := atoiDigits_string (c :: f) t 0
        simp only [List.cons_append] at this
        simp only [h1, h2, if_false, this]

/-- The function `atoi` reads a string up to its NUL at most. -/
theorem atoi_string (f t : List Nat) : atoi (f ++ 0 :: t) = atoi (f ++ [0]) := by
  induction f with
  | nil => simp [atoi, isspace, atoiSigned, atoiDigits, isdigit]
  | cons c f ih =>
    have := atoiSigned_string (c :: f) t
    simp only [List.cons_append] at this
    simp only [List.cons_append, atoi, List.append_eq]
    split_ifs
    · exact ih
    · exact this

/-! ## The dispatch on the first field -/

theorem IsLine.noEnd {line : List Nat} (h : IsLine line) : NoEnd line :=
  fun c hc => ⟨(h.2.2 c hc).1, (h.2.2 c hc).2.2.1, (h.2.2 c hc).2.1⟩

theorem checkSum_pass_inv (line t : List Nat) (hline : ∀ c ∈ line, c ≠ 0)
    (h : checkSum (line ++ 0 :: t) = .ok none) :
    4 ≤ line.length ∧ line.getD 0 0 = 36 ∧ line.getD (line.length - 3) 0 = 42 := by
  unfold checkSum at h
  simp only [strlen_append_zero line t hline] at h
  by_cases h0 : (line ++ 0 :: t).getD 0 0 = 36
  · rw [if_pos h0] at h
    by_cases hn : line.length < 3
    · rw [if_pos hn] at h
      simp at h
    · rw [if_neg hn] at h
      rw [List.getD_append _ _ _ _ (by omega)] at h0
      by_cases hs : (line ++ 0 :: t).getD (line.length - 3) 0 = 42
      · rw [List.getD_append _ _ _ _ (by omega)] at hs
        refine ⟨?_, h0, hs⟩
        by_contra hlt
        have : line.length - 3 = 0 := by omega
        rw [this, h0] at hs
        omega
      · rw [if_neg hs] at h
        simp at h
  · rw [if_neg h0] at h
    simp at h

theorem delimCount_pos_of_mem (line : List Nat) (c : Nat) (hc : c ∈ line)
    (hd : isDelim c = true) : 0 < delimCount line := by
  unfold delimCount
  exact List.length_pos_of_mem (List.mem_filter.mpr ⟨hc, hd⟩)

theorem delimCount_pos_of_pass (line t : List Nat) (hline : ∀ c ∈ line, c ≠ 0)
    (h : checkSum (line ++ 0 :: t) = .ok none) : 0 < delimCount line := by
  obtain ⟨hn, -, hs⟩ := checkSum_pass_inv line t hline h
  have hlt : line.length - 3 < line.length := by omega
  rw [List.getD_eq_getElem _ _ hlt] at hs
  exact delimCount_pos_of_mem line 42 (hs ▸ List.getElem_mem _) (by decide)

/-- After the check sum is checked, the first call of `parse` finds a delimiter, and the
chain of `strcmp` compares the first field of the line. -/
theorem dispatch_of_pass {D : Type} (scanLf : List Nat → Option D) (stack0 : Plist)
    (cb : gps_callback_t) (line : List Nat) (hline : IsLine line)
    (hpass : checkSum (line ++ [0]) = .ok none) :
    dispatch scanLf stack0 (line ++ [0]) cb
      = if field line 0 = txt "$GPGGA" then parseAndCallbackGGA scanLf stack0 (line ++ [0]) cb
        else if field line 0 = txt "$GPGSA" then parseAndCallbackGSA stack0 (line ++ [0]) cb
        else if field line 0 = txt "$GPRMC" then
          parseAndCallbackRMC scanLf stack0 (line ++ [0]) cb
        else if field line 0 = txt "$GPGSV" then parseAndCallbackGSV stack0 (line ++ [0]) cb
        else .ok (0, []) := by
  obtain ⟨f, fs, hf⟩ := fields_cases line
  have hlen := fields_length line
  have hpos := delimCount_pos_of_pass line [] hline.ne_zero hpass
  have hfs : fs ≠ [] := by
    intro h
    rw [hf, h] at hlen
    simp at hlen
    omega
  have hf0 : field line 0 = f := by simp [field, hf]
  have hfl : f.length ≤ line.length := fields_length_le line f (by simp [hf])
  have hfn : ¬ DATABUFSIZ ≤ f.length := by
    have := hline.2.1
    omega
  have hfz : ∀ c ∈ f, c ≠ 0 := fun c hc => hline.ne_zero c (fields_mem line f (by simp [hf]) c hc).1
  have hp := parse_fields line [] DATABUFSIZ f fs hline.noEnd hf
  rw [if_neg hfn, if_neg hfs] at hp
  unfold dispatch
  rw [hp]
  simp only [strcmpEq_string f [] _ hfz (by decide : ∀ c ∈ txt "$GPGGA", c ≠ 0),
    strcmpEq_string f [] _ hfz (by decide : ∀ c ∈ txt "$GPGSA", c ≠ 0),
    strcmpEq_string f [] _ hfz (by decide : ∀ c ∈ txt "$GPRMC", c ≠ 0),
    strcmpEq_string f [] _ hfz (by decide : ∀ c ∈ txt "$GPGSV", c ≠ 0),
    Res.bind, hf0, decide_eq_true_eq, parseAndCallbackUnknown]

/-! ## The outcomes of `processing` on a line -/

theorem processLine_of_pass {D : Type} (scanLf : List Nat → Option D) (stack0 : Plist)
    (cb : gps_callback_t) (src : List Nat) (res : Int) (ev : List (Event D))
    (hpass : checkSum src = .ok none)
    (hd : dispatch scanLf stack0 src cb = .ok (res, ev)) :
    processLine scanLf stack0 (some cb) src
      = (.ok (decide (res = 0)), logged cb (text src) ++ ev) := by
  simp [processLine, hpass, hd, logged]

theorem processLine_of_pass_ub {D : Type} (scanLf : List Nat → Option D) (stack0 : Plist)
    (cb : gps_callback_t) (src : List Nat) (e : Fault)
    (hpass : checkSum src = .ok none)
    (hd : dispatch scanLf stack0 src cb = .ub e) :
    processLine scanLf stack0 (some cb) src = (.ub e, logged cb (text src)) := by
  simp [processLine, hpass, hd, logged]

theorem processLine_of_checkSum_ub {D : Type} (scanLf : List Nat → Option D) (stack0 : Plist)
    (cb : gps_callback_t) (src : List Nat) (e : Fault)
    (h : checkSum src = .ub e) :
    processLine scanLf stack0 (some cb) src = (.ub e, logged cb (text src)) := by
  simp [processLine, h, logged]

/-- A call of `processing` on a line whose check sum is right, from the result of the
dispatch. -/
theorem processing_of_dispatch {D : Type} (scanLf : List Nat → Option D) (stack0 : Plist)
    (cb : gps_callback_t) (line : List Nat) (eol : Int) (rest : List Int) (res : Int)
    (ev : List (Event D)) (hline : IsLine line) (heol : eol = 13 ∨ eol = 10)
    (hpass : checkSum (line ++ [0]) = .ok none)
    (hd : dispatch scanLf stack0 (line ++ [0]) cb = .ok (res, ev)) :
    processing scanLf stack0 (some cb) (lineStream line eol rest)
      = { ret := .ok (decide (res = 0)), events := logged cb line ++ ev, ser := rest } := by
  rw [processing_line scanLf stack0 (some cb) line eol rest hline heol,
    processLine_of_pass scanLf stack0 cb _ res ev hpass hd,
    text_append_zero line [] hline.ne_zero]

/-! ## The sentence of the reference manual (C3) -/

theorem ggaExample_rows (stack0 : Plist) :
    ∃ plist, tokenize stack0 (ggaExample ++ [0]) = .ok (15, plist) ∧
      cstr (plistAt plist 2) = .ok (txt "3723.2475") ∧
      sscanfChar (plistAt plist 3) = .ok (some 78) ∧
      cstr (plistAt plist 4) = .ok (txt "12158.3416") ∧
      sscanfChar (plistAt plist 5) = .ok (some 87) ∧
      atoi (plistAt plist 6) = .ok 1 ∧
      atoi (plistAt plist 7) = .ok 7 ∧
      cstr (plistAt plist 8) = .ok (txt "1.0") ∧
      atoi (plistAt plist 9) = .ok 9 ∧
      strcmpEq (plistAt plist 10) (txt "M") = .ok true ∧
      atoi (plistAt plist 11) = .ok 0 ∧
      sscanfChar (plistAt plist 12) = .ok none :=
  ⟨_, rfl, rfl, rfl, rfl, rfl, rfl, rfl, rfl, rfl, rfl, rfl, rfl⟩

theorem ggaExample_decoder {D : Type} (scanLf : List Nat → Option D) (stack0 : Plist)
    (cb : gps_callback_t) (hcb : cb.cbfunc_gga = true) :
    ∃ res, res ≠ 0 ∧
      parseAndCallbackGGA scanLf stack0 (ggaExample ++ [0]) cb = .ok (res, []) := by
  obtain ⟨plist, h0, h2, h3, h4, h5, h6, h7, h8, h9, h10, h11, h12⟩ := ggaExample_rows stack0
  unfold parseAndCallbackGGA
  simp only [hcb, Bool.true_eq_false, if_false, h0, Res.bind, if_true, sscanfLf, h2, h3, h4,
    h5, h6, h7, h8, h9, h10, h11, h12]
  cases scanLf (txt "3723.2475") with
  | none => exact ⟨-2, by decide, rfl⟩
  | some lat =>
    cases scanLf (txt "12158.3416") with
    | none => exact ⟨-5, by decide, by simp⟩
    | some lon =>
      cases scanLf (txt "1.0") with
      | none => exact ⟨-8, by decide, by simp⟩
      | some hdop => exact ⟨-10, by decide, by simp⟩

/-- C3. The code on the sentence of the claim, followed by CR and LF, with `cbfunc_gga`
registered: whatever `%lf` converts and whatever the stack held, `processing` returns
false and calls no record callback, where the claim has it return true and deliver a
record. The sentence passes the check of the check sum and has the 15 delimiters of GGA,
but the decoder reads the altitude and its unit from fields 11 and 12, which are empty in
it, and not from fields 9 and 10. -/
theorem ggaExample_rejected {D : Type} (scanLf : List Nat → Option D) (stack0 : Plist)
    (cb : gps_callback_t) (hcb : cb.cbfunc_gga = true) :
    processing scanLf stack0 (some cb) (lineStream ggaExample 13 [10])
        = { ret := .ok false, events := logged cb ggaExample, ser := [10] } ∧
      checkSum (ggaExample ++ [0]) = .ok none ∧ delimCount ggaExample = 15 ∧
      field ggaExample 9 = txt "9.0" ∧ field ggaExample 10 = txt "M" ∧
      field ggaExample 11 = [] ∧ field ggaExample 12 = [] := by
  have hline : IsLine ggaExample := by decide
  have hpass : checkSum (ggaExample ++ [0]) = .ok none := by decide
  obtain ⟨res, hres, hdec⟩ := ggaExample_decoder scanLf stack0 cb hcb
  have hd : dispatch scanLf stack0 (ggaExample ++ [0]) cb = .ok (res, []) := by
    rw [dispatch_of_pass scanLf stack0 cb ggaExample hline hpass,
      if_pos (by decide : field ggaExample 0 = txt "$GPGGA"), hdec]
  have hp := processing_of_dispatch scanLf stack0 cb ggaExample 13 [10] res [] hline
    (by decide) hpass hd
  rw [hp]
  refine ⟨?_, hpass, by decide, by decide, by decide, by decide, by decide⟩
  simp [hres]

/-- C3 at the decimal conversion, with every callback registered and a stack of zeros. -/
theorem ggaExample_rejected_witness :
    processing scanDecimal (fun _ _ => 0) (some ⟨true, true, true, true, true⟩)
        (lineStream ggaExample 13 [10])
      = { ret := .ok false, events := [Event.log ggaExample], ser := [10] } :=
  (ggaExample_rejected scanDecimal (fun _ _ => 0) ⟨true, true, true, true, true⟩ rfl).1

theorem recordEvents_logged {D : Type} (cb : gps_callback_t) (line : List Nat)
    (tail : List (Event D)) :
    recordEvents (logged cb line ++ tail) = recordEvents tail := by
  unfold recordEvents logged
  cases cb.cbfunc_log <;> simp [Event.isRecord]

/-- The outcomes of a call of `processing` that reads a line: after the call of the log
callback, either nothing more happens and the behaviour is undefined, or the check of the
check sum fails and a diagnostic is printed, or a decoder fails, or the sentence is none of
the four, or the decoder of the first field succeeds and calls its callback once. -/
theorem processing_outcome {D : Type} (scanLf : List Nat → Option D) (stack0 : Plist)
    (cb : gps_callback_t) (line : List Nat) (eol : Int) (rest : List Int)
    (hline : IsLine line) (heol : eol = 13 ∨ eol = 10) :
    ∃ ret tail,
      processing scanLf stack0 (some cb) (lineStream line eol rest)
        = { ret := ret, events := logged cb line ++ tail, ser := rest } ∧
      ((∃ e, ret = .ub e ∧ tail = []) ∨
       (∃ d, ret = .ok false ∧ tail = [Event.print d line] ∧
          checkSum (line ++ [0]) = .ok (some d)) ∨
       (checkSum (line ++ [0]) = .ok none ∧ ret = .ok false ∧ tail = []) ∨
       (checkSum (line ++ [0]) = .ok none ∧ ret = .ok true ∧ tail = [] ∧
          field line 0 ≠ txt "$GPGGA" ∧ field line 0 ≠ txt "$GPGSA" ∧
          field line 0 ≠ txt "$GPRMC" ∧ field line 0 ≠ txt "$GPGSV") ∨
       (checkSum (line ++ [0]) = .ok none ∧ ret = .ok true ∧ field line 0 = txt "$GPGGA" ∧
          ∃ p, tail = [Event.gga p] ∧
            parseAndCallbackGGA scanLf stack0 (line ++ [0]) cb = .ok (0, [Event.gga p])) ∨
       (checkSum (line ++ [0]) = .ok none ∧ ret = .ok true ∧ field line 0 = txt "$GPGSA" ∧
          ∃ p, tail = [Event.gsa p] ∧
            parseAndCallbackGSA stack0 (line ++ [0]) cb = .ok (0, [(Event.gsa p : Event D)])) ∨
       (checkSum (line ++ [0]) = .ok none ∧ ret = .ok true ∧ field line 0 = txt "$GPRMC" ∧
          ∃ p, tail = [Event.rmc p] ∧
            parseAndCallbackRMC scanLf stack0 (line ++ [0]) cb = .ok (0, [Event.rmc p])) ∨
       (checkSum (line ++ [0]) = .ok none ∧ ret = .ok true ∧ field line 0 = txt "$GPGSV" ∧
          ∃ p, tail = [Event.gsv p] ∧
            parseAndCallbackGSV stack0 (line ++ [0]) cb
              = .ok (0, [(Event.gsv p : Event D)]))) := by
  have hp := processing_line scanLf stack0 (some cb) line eol rest hline heol
  have htext := text_append_zero line [] hline.ne_zero
  cases hcs : checkSum (line ++ [0]) with
  | ub e =>
    rw [processLine_of_checkSum_ub scanLf stack0 cb _ e hcs, htext] at hp
    exact ⟨.ub e, [], by simpa using hp, Or.inl ⟨e, rfl, rfl⟩⟩
  | ok o =>
    cases o with
    | some d =>
      rw [processLine_of_checkSum_fails scanLf stack0 cb _ d hcs, htext] at hp
      exact ⟨.ok false, [Event.print d line], hp, Or.inr (Or.inl ⟨d, rfl, rfl, rfl⟩)⟩
    | none =>
      have hdis := dispatch_of_pass scanLf stack0 cb line hline hcs
      cases hd : dispatch scanLf stack0 (line ++ [0]) cb with
      | ub e =>
        rw [processLine_of_pass_ub scanLf stack0 cb _ e hcs hd, htext] at hp
        exact ⟨.ub e, [], by simpa using hp, Or.inl ⟨e, rfl, rfl⟩⟩
      | ok t =>
        obtain ⟨res, ev⟩ := t
        rw [processLine_of_pass scanLf stack0 cb _ res ev hcs hd, htext] at hp
        refine ⟨.ok (decide (res = 0)), ev, hp, Or.inr (Or.inr ?_)⟩
        rw [hd] at hdis
        by_cases h1 : field line 0 = txt "$GPGGA"
        · rw [if_pos h1] at hdis
          rcases parseAndCallbackGGA_inv scanLf stack0 _ cb res ev hdis.symm with
            ⟨hr, he⟩ | ⟨hr, _, _, _, _, _, _, _, _, _, _, _, _, _, _, _, _, _, _, _, _, _, _, _, _, _, _, he⟩
          · exact Or.inl ⟨rfl, by simp [hr], he⟩
          · subst hr
            refine Or.inr (Or.inr (Or.inl ⟨rfl, by simp, h1, _, he, ?_⟩))
            rw [← hdis, he]
        · rw [if_neg h1] at hdis
          by_cases h2 : field line 0 = txt "$GPGSA"
          · rw [if_pos h2] at hdis
            rcases parseAndCallbackGSA_inv stack0 _ cb res ev hdis.symm with
            ⟨hr, he⟩ | ⟨hr, _, _, _, _, _, _, _, he⟩
            · exact Or.inl ⟨rfl, by simp [hr], he⟩
            · subst hr
              refine Or.inr (Or.inr (Or.inr (Or.inl ⟨rfl, by simp, h2, _, he, ?_⟩)))
              rw [← hdis, he]
          · rw [if_neg h2] at hdis
            by_cases h3 : field line 0 = txt "$GPRMC"
            · rw [if_pos h3] at hdis
              rcases parseAndCallbackRMC_inv scanLf stack0 _ cb res ev hdis.symm with
            ⟨hr, he⟩ | ⟨hr, _, _, _, _, _, _, _, _, _, he⟩
              · exact Or.inl ⟨rfl, by simp [hr], he⟩
              · subst hr
                refine Or.inr (Or.inr (Or.inr (Or.inr (Or.inl ⟨rfl, by simp, h3, _, he, ?_⟩))))
                rw [← hdis, he]
            · rw [if_neg h3] at hdis
              by_cases h4 : field line 0 = txt "$GPGSV"
              · rw [if_pos h4] at hdis
                rcases parseAndCallbackGSV_inv stack0 _ cb res ev hdis.symm with
            ⟨hr, he⟩ | ⟨hr, _, _, _, _, _, _, _, _, _, _, _, _, _, _, _, _, _, _, _, he⟩
                · exact Or.inl ⟨rfl, by simp [hr], he⟩
                · subst hr
                  refine Or.inr (Or.inr (Or.inr (Or.inr (Or.inr ⟨rfl, by simp, h4, _, he, ?_⟩))))
                  rw [← hdis, he]
              · rw [if_neg h4] at hdis
                simp only [Res.ok.injEq, Prod.mk.injEq] at hdis
                obtain ⟨rfl, rfl⟩ := hdis
                exact Or.inr (Or.inl ⟨rfl, by simp, rfl, h1, h2, h3, h4⟩)

/-! ## Callbacks and sentences (C4, C7, C8, C9) -/

/-- C4. A call of `processing` that reads a line calls at most one record callback, once;
a record callback is called only when the first field of the line is its identifier,
compared exactly; and when the call returns true on a line whose first field is one of the
four identifiers, the record callbacks called are one call of the callback of that
identifier. This holds for every callback structure, so with the four callbacks
registered. -/
theorem emission_routing {D : Type} (scanLf : List Nat → Option D) (stack0 : Plist)
    (cb : gps_callback_t) (line : List Nat) (eol : Int) (rest : List Int)
    (hline : IsLine line) (heol : eol = 13 ∨ eol = 10) :
    ∃ ret events,
      processing scanLf stack0 (some cb) (lineStream line eol rest)
        = { ret := ret, events := events, ser := rest } ∧
      (recordEvents events).length ≤ 1 ∧
      (∀ p, Event.gga p ∈ events → field line 0 = txt "$GPGGA") ∧
      (∀ p, Event.gsa p ∈ events → field line 0 = txt "$GPGSA") ∧
      (∀ p, Event.rmc p ∈ events → field line 0 = txt "$GPRMC") ∧
      (∀ p, Event.gsv p ∈ events → field line 0 = txt "$GPGSV") ∧
      (ret = .ok true → field line 0 = txt "$GPGGA" →
        ∃ p, recordEvents events = [Event.gga p]) ∧
      (ret = .ok true → field line 0 = txt "$GPGSA" →
        ∃ p, recordEvents events = [Event.gsa p]) ∧
      (ret = .ok true → field line 0 = txt "$GPRMC" →
        ∃ p, recordEvents events = [Event.rmc p]) ∧
      (ret = .ok true → field line 0 = txt "$GPGSV" →
        ∃ p, recordEvents events = [Event.gsv p]) := by
  have d12 : txt "$GPGGA" ≠ txt "$GPGSA" := by decide
  have d13 : txt "$GPGGA" ≠ txt "$GPRMC" := by decide
  have d14 : txt "$GPGGA" ≠ txt "$GPGSV" := by decide
  have d23 : txt "$GPGSA" ≠ txt "$GPRMC" := by decide
  have d24 : txt "$GPGSA" ≠ txt "$GPGSV" := by decide
  have d34 : txt "$GPRMC" ≠ txt "$GPGSV" := by decide
  obtain ⟨ret, tail, hp, hcase⟩ :=
    processing_outcome scanLf stack0 cb line eol rest hline heol
  refine ⟨ret, _, hp, ?_⟩
  rw [recordEvents_logged]
  have hlog : ∀ e : Event D, e ∈ logged cb line → e = Event.log line := by
    intro e he
    unfold logged at he
    cases hl : cb.cbfunc_log
    · simp [hl] at he
    · simpa [hl] using he
  rcases hcase with ⟨e, rfl, rfl⟩ | ⟨d, rfl, rfl, -⟩ | ⟨-, rfl, rfl⟩ |
    ⟨-, rfl, rfl, n1, n2, n3, n4⟩ | ⟨-, rfl, h0, p, rfl, -⟩ | ⟨-, rfl, h0, p, rfl, -⟩ |
    ⟨-, rfl, h0, p, rfl, -⟩ | ⟨-, rfl, h0, p, rfl, -⟩
  · refine ⟨by simp [recordEvents], ?_, ?_, ?_, ?_, ?_, ?_, ?_, ?_⟩ <;>
      first
        | (intro p hp2
           have := hlog _ (by simpa using hp2)
           simp at this)
        | (intro h; simp at h)
  · refine ⟨by simp [recordEvents, Event.isRecord], ?_, ?_, ?_, ?_, ?_, ?_, ?_, ?_⟩ <;>
      first
        | (intro p hp2
           simp only [List.mem_append, List.mem_singleton, reduceCtorEq, or_false] at hp2
           have := hlog _ hp2
           simp at this)
        | (intro h; simp at h)
  · refine ⟨by simp [recordEvents], ?_, ?_, ?_, ?_, ?_, ?_, ?_, ?_⟩ <;>
      first
        | (intro p hp2
           have := hlog _ (by simpa using hp2)
           simp at this)
        | (intro h; simp at h)
  · refine ⟨by simp [recordEvents], ?_, ?_, ?_, ?_, ?_, ?_, ?_, ?_⟩ <;>
      first
        | (intro p hp2
           have := hlog _ (by simpa using hp2)
           simp at this)
        | (intro _ h; first | exact absurd h n1 | exact absurd h n2 | exact absurd h n3
                            | exact absurd h n4)
  · refine ⟨by simp [recordEvents, Event.isRecord], fun _ _ => h0, ?_, ?_, ?_,
      fun _ _ => ⟨p, by simp [recordEvents, Event.isRecord]⟩, ?_, ?_, ?_⟩ <;>
      first
        | (intro q hq
           simp only [List.mem_append, List.mem_singleton, reduceCtorEq, or_false] at hq
           have := hlog _ hq
           simp at this)
        | (intro _ h; rw [h0] at h; first | exact absurd h d12 | exact absurd h d13
                                          | exact absurd h d14)
  · refine ⟨by simp [recordEvents, Event.isRecord], ?_, fun _ _ => h0, ?_, ?_, ?_,
      fun _ _ => ⟨p, by simp [recordEvents, Event.isRecord]⟩, ?_, ?_⟩ <;>
      first
        | (intro q hq
           simp only [List.mem_append, List.mem_singleton, reduceCtorEq, or_false] at hq
           have := hlog _ hq
           simp at this)
        | (intro _ h; rw [h0] at h; first | exact absurd h.symm d12 | exact absurd h d23
                                          | exact absurd h d24)
  · refine ⟨by simp [recordEvents, Event.isRecord], ?_, ?_, fun _ _ => h0, ?_, ?_, ?_,
      fun _ _ => ⟨p, by simp [recordEvents, Event.isRecord]⟩, ?_⟩ <;>
      first
        | (intro q hq
           simp only [List.mem_append, List.mem_singleton, reduceCtorEq, or_false] at hq
           have := hlog _ hq
           simp at this)
        | (intro _ h; rw [h0] at h; first | exact absurd h.symm d13 | exact absurd h.symm d23
                                          | exact absurd h d34)
  · refine ⟨by simp [recordEvents, Event.isRecord], ?_, ?_, ?_, fun _ _ => h0, ?_, ?_, ?_,
      fun _ _ => ⟨p, by simp [recordEvents, Event.isRecord]⟩⟩ <;>
      first
        | (intro q hq
           simp only [List.mem_append, List.mem_singleton, reduceCtorEq, or_false] at hq
           have := hlog _ hq
           simp at this)
        | (intro _ h; rw [h0] at h; first | exact absurd h.symm d14 | exact absurd h.symm d24
                                          | exact absurd h.symm d34)

/-- C4 at the sentence `ggaAccepted` with every callback registered: the one record
callback called is `cbfunc_gga`. -/
theorem emission_routing_witness :
    IsLine ggaAccepted ∧
      (recordEvents (processing scanDecimal zeroStack (some allCallbacks)
        (lineStream ggaAccepted 13 [10])).events).length ≤ 1 ∧
      recordEvents (processing scanDecimal zeroStack (some allCallbacks)
        (lineStream ggaAccepted 13 [10])).events = [Event.gga ggaAcceptedRecord] := by
  obtain ⟨ret, events, hp, h1, -⟩ := emission_routing scanDecimal zeroStack allCallbacks
    ggaAccepted 13 [10] (by decide) (by decide)
  refine ⟨by decide, ?_, by decide⟩
  rw [hp]
  exact h1

/-- C7. With a callback structure attached whose `cbfunc_log` is not NULL, a call of
`processing` that reads a line first calls `cbfunc_log` with the text of the line, and
calls it once: the events that follow, at most one, are no call of it. This holds whatever
the result of the call is, undefined behaviour included. -/
theorem log_first {D : Type} (scanLf : List Nat → Option D) (stack0 : Plist)
    (cb : gps_callback_t) (line : List Nat) (eol : Int) (rest : List Int)
    (hline : IsLine line) (heol : eol = 13 ∨ eol = 10) (hlog : cb.cbfunc_log = true) :
    ∃ ret tail,
      processing scanLf stack0 (some cb) (lineStream line eol rest)
        = { ret := ret, events := Event.log line :: tail, ser := rest } ∧
      tail.length ≤ 1 ∧ ∀ e ∈ tail, ∀ str, e ≠ Event.log str := by
  obtain ⟨ret, tail, hp, hcase⟩ :=
    processing_outcome scanLf stack0 cb line eol rest hline heol
  have hl : (logged cb line : List (Event D)) = [Event.log line] := by simp [logged, hlog]
  rw [hl] at hp
  refine ⟨ret, tail, hp, ?_⟩
  rcases hcase with ⟨e, -, rfl⟩ | ⟨d, -, rfl, -⟩ | ⟨-, -, rfl⟩ | ⟨-, -, rfl, -⟩ |
    ⟨-, -, -, p, rfl, -⟩ | ⟨-, -, -, p, rfl, -⟩ | ⟨-, -, -, p, rfl, -⟩ | ⟨-, -, -, p, rfl, -⟩ <;>
    simp

/-- C7 at the sentence of the reference manual with the check sum `19`: the log callback
gets the text although the check fails. -/
theorem log_first_witness :
    IsLine ggaExample19 ∧
      ∃ ret tail,
        processing scanDecimal zeroStack (some allCallbacks) (lineStream ggaExample19 13 [10])
          = { ret := ret, events := Event.log ggaExample19 :: tail, ser := [10] } ∧
        tail.length ≤ 1 ∧ ∀ e ∈ tail, ∀ str, e ≠ Event.log str :=
  ⟨by decide,
   log_first scanDecimal zeroStack allCallbacks ggaExample19 13 [10] (by decide) (by decide) rfl⟩

/-- The claim C8 fails on the code: the sentence `ggaAccepted` passes the check of the
check sum and is a GGA sentence, `cbfunc_gga` is NULL, and `processing` returns false,
the decoder having returned -1. -/
theorem missing_handler_counterexample :
    checkSum (ggaAccepted ++ [0]) = .ok none ∧ field ggaAccepted 0 = txt "$GPGGA" ∧
      noGgaCallback.cbfunc_gga = false ∧
      parseAndCallbackGGA scanDecimal zeroStack (ggaAccepted ++ [0]) noGgaCallback
        = .ok (-1, []) ∧
      processing scanDecimal zeroStack (some noGgaCallback) (lineStream ggaAccepted 13 [10])
        = { ret := .ok false, events := [Event.log ggaAccepted], ser := [10] } := by
  decide

/-- C8, amended. On a line whose check sum is right and whose first field is one of the
four identifiers, when the callback of that identifier is NULL the decoder returns -1
before it reads a field, and `processing` returns false; no record is built or delivered,
the only event being the call of the log callback. -/
theorem missing_handler_fails {D : Type} (scanLf : List Nat → Option D) (stack0 : Plist)
    (cb : gps_callback_t) (line : List Nat) (eol : Int) (rest : List Int)
    (hline : IsLine line) (heol : eol = 13 ∨ eol = 10)
    (hpass : checkSum (line ++ [0]) = .ok none)
    (hmiss : (field line 0 = txt "$GPGGA" ∧ cb.cbfunc_gga = false) ∨
      (field line 0 = txt "$GPGSA" ∧ cb.cbfunc_gsa = false) ∨
      (field line 0 = txt "$GPRMC" ∧ cb.cbfunc_rmc = false) ∨
      (field line 0 = txt "$GPGSV" ∧ cb.cbfunc_gsv = false)) :
    dispatch scanLf stack0 (line ++ [0]) cb = .ok (-1, []) ∧
      processing scanLf stack0 (some cb) (lineStream line eol rest)
        = { ret := .ok false, events := logged cb line, ser := rest } := by
  have hd : dispatch scanLf stack0 (line ++ [0]) cb = .ok (-1, []) := by
    rw [dispatch_of_pass scanLf stack0 cb line hline hpass]
    rcases hmiss with ⟨h, hc⟩ | ⟨h, hc⟩ | ⟨h, hc⟩ | ⟨h, hc⟩
    · rw [if_pos h]
      simp [parseAndCallbackGGA, hc]
    · rw [h, if_neg (by decide), if_pos rfl]
      simp [parseAndCallbackGSA, hc]
    · rw [h, if_neg (by decide), if_neg (by decide), if_pos rfl]
      simp [parseAndCallbackRMC, hc]
    · rw [h, if_neg (by decide), if_neg (by decide), if_neg (by decide), if_pos rfl]
      simp [parseAndCallbackGSV, hc]
  refine ⟨hd, ?_⟩
  rw [processing_of_dispatch scanLf stack0 cb line eol rest (-1) [] hline heol hpass hd]
  simp

/-- C8, amended, at the sentence `ggaAccepted` without `cbfunc_gga`. -/
theorem missing_handler_fails_witness :
    IsLine ggaAccepted ∧
      processing scanDecimal zeroStack (some noGgaCallback) (lineStream ggaAccepted 13 [10])
        = { ret := .ok false, events := logged noGgaCallback ggaAccepted, ser := [10] } :=
  ⟨by decide,
   (missing_handler_fails scanDecimal zeroStack noGgaCallback ggaAccepted 13 [10] (by decide)
      (by decide) (by decide) (Or.inl ⟨by decide, rfl⟩)).2⟩

/-- C9. With a callback structure attached, on a line whose check sum is right and whose
first field is none of `$GPGGA`, `$GPGSA`, `$GPRMC` and `$GPGSV`, compared exactly,
`processing` returns true and calls no record callback, whatever the other fields are: its
only event is the call of the log callback. -/
theorem unknown_accepted {D : Type} (scanLf : List Nat → Option D) (stack0 : Plist)
    (cb : gps_callback_t) (line : List Nat) (eol : Int) (rest : List Int)
    (hline : IsLine line) (heol : eol = 13 ∨ eol = 10)
    (hpass : checkSum (line ++ [0]) = .ok none)
    (h1 : field line 0 ≠ txt "$GPGGA") (h2 : field line 0 ≠ txt "$GPGSA")
    (h3 : field line 0 ≠ txt "$GPRMC") (h4 : field line 0 ≠ txt "$GPGSV") :
    processing scanLf stack0 (some cb) (lineStream line eol rest)
        = { ret := .ok true, events := logged cb line, ser := rest } ∧
      recordEvents (processing scanLf stack0 (some cb) (lineStream line eol rest)).events
        = [] := by
  have hd : dispatch scanLf stack0 (line ++ [0]) cb = .ok (0, []) := by
    rw [dispatch_of_pass scanLf stack0 cb line hline hpass, if_neg h1, if_neg h2, if_neg h3,
      if_neg h4]
  have hp := processing_of_dispatch scanLf stack0 cb line eol rest 0 [] hline heol hpass hd
  simp only [decide_True, List.append_nil] at hp
  refine ⟨hp, ?_⟩
  rw [hp]
  have := recordEvents_logged cb line ([] : List (Event D))
  simpa [recordEvents] using this

/-- C9 at the sentence `ggaLowerCase`, a GGA sentence but for the case of its
identifier. -/
theorem unknown_accepted_witness :
    IsLine ggaLowerCase ∧ checkSum (ggaLowerCase ++ [0]) = .ok none ∧
      processing scanDecimal zeroStack (some allCallbacks) (lineStream ggaLowerCase 13 [10])
        = { ret := .ok true, events := [Event.log ggaLowerCase], ser := [10] } :=
  ⟨by decide, by decide,
   (unknown_accepted scanDecimal zeroStack allCallbacks ggaLowerCase 13 [10] (by decide)
      (by decide) (by decide) (by decide) (by decide) (by decide) (by decide)).1⟩

/-! ## The count of the fields (C5) -/

/-- C5. The code on a GGA sentence with 16 delimiters and a right check sum: the call of
`parse` on the field of 64 characters returns NULL as at the end of the text, the loop
ends with `cnt = 15`, and `processing` returns true and calls `cbfunc_gga`, where the claim
has the sentence fail. The sentence without that field has 15 delimiters and is accepted
with the same record. -/
theorem long_field_accepted :
    IsLine ggaLongField ∧ checkSum (ggaLongField ++ [0]) = .ok none ∧
      delimCount ggaLongField = 16 ∧ (field ggaLongField 15).length = 64 ∧
      (tokenize zeroStack (ggaLongField ++ [0])).bind (fun t => .ok t.1) = .ok 15 ∧
      processing scanDecimal zeroStack (some allCallbacks) (lineStream ggaLongField 13 [10])
        = { ret := .ok true,
            events := [Event.log ggaLongField, Event.gga ggaLongFieldRecord],
            ser := [10] } ∧
      delimCount (txt "$GPGGA,000000,1,N,1,E,1,1,1,1,M,1,M,,*6C") = 15 ∧
      processing scanDecimal zeroStack (some allCallbacks)
          (lineStream (txt "$GPGGA,000000,1,N,1,E,1,1,1,1,M,1,M,,*6C") 13 [10])
        = { ret := .ok true,
            events := [Event.log (txt "$GPGGA,000000,1,N,1,E,1,1,1,1,M,1,M,,*6C"),
              Event.gga ggaLongFieldRecord],
            ser := [10] } := by
  decide

/-! ## The rows that a decoder reads -/

/-- After the tokenizing loop of a decoder on a line, every row below the final count has
the field of its index, shorter than `PARAM_TXTMAXLEN`, and its NUL. -/
theorem tokenize_row (stack0 : Plist) (line : List Nat) (n : Nat) (plist : Plist)
    (hline : NoEnd line) (h : tokenize stack0 (line ++ [0]) = .ok (n, plist))
    (r : Nat) (hr : r < n) :
    n < PARAM_ARRAYSIZE ∧ n ≤ delimCount line ∧ (field line r).length < PARAM_TXTMAXLEN ∧
      RowHas plist r (field line r ++ [0]) ∧ ∃ t, plistAt plist r = field line r ++ 0 :: t := by
  rw [tokenize_fuel stack0 line [] hline] at h
  obtain ⟨-, a2, a3, a4, -⟩ := tokenizeFields_spec (fields line) 0 stack0 n plist
    (fields_ne_nil line) h
  have hlen := fields_length line
  have h4 := a4 r (by omega)
  simp only [Nat.zero_add] at h4
  obtain ⟨t, ht⟩ := plistAt_of_rowHas plist r (field line r ++ [0]) h4.2 (by omega)
    (by simp only [List.length_append, List.length_cons, List.length_nil]; exact h4.1)
  refine ⟨a2, by omega, h4.1, h4.2, t, ?_⟩
  rw [ht]
  simp

theorem rowHas_head (plist : Plist) (r : Nat) (f : List Nat) (c : Nat)
    (h : RowHas plist r (f ++ [0])) (hc : plist r 0 = c) (hne : c ≠ 0) :
    f.head? = some c := by
  have := h 0 (by simp)
  rw [hc] at this
  cases f with
  | nil =>
    simp at this
    exact absurd this hne
  | cons a f =>
    simp at this
    simp [this]

/-! ## From a callback to its decoder -/

theorem mem_logged {D : Type} (cb : gps_callback_t) (line : List Nat) (e : Event D)
    (he : e ∈ logged cb line) : e = Event.log line := by
  unfold logged at he
  cases hl : cb.cbfunc_log
  · simp [hl] at he
  · simpa [hl] using he

/-- A call of `cbfunc_gga` comes from a decoder that returned 0. -/
theorem gga_event_inv {D : Type} (scanLf : List Nat → Option D) (stack0 : Plist)
    (cb : gps_callback_t) (line : List Nat) (eol : Int) (rest : List Int)
    (hline : IsLine line) (heol : eol = 13 ∨ eol = 10) (p : gps_gga_t D)
    (hp : Event.gga p ∈ (processing scanLf stack0 (some cb) (lineStream line eol rest)).events) :
    parseAndCallbackGGA scanLf stack0 (line ++ [0]) cb = .ok (0, [Event.gga p]) := by
  obtain ⟨ret, tail, hrun, hcase⟩ :=
    processing_outcome scanLf stack0 cb line eol rest hline heol
  rw [hrun] at hp
  simp only [List.mem_append] at hp
  rcases hp with hp | hp
  · have := mem_logged cb line _ hp
    simp at this
  · rcases hcase with ⟨e, -, rfl⟩ | ⟨d, -, rfl, -⟩ | ⟨-, -, rfl⟩ | ⟨-, -, rfl, -⟩ |
      ⟨-, -, -, q, rfl, hq⟩ | ⟨-, -, -, q, rfl, -⟩ | ⟨-, -, -, q, rfl, -⟩ |
      ⟨-, -, -, q, rfl, -⟩ <;> simp at hp
    subst hp
    exact hq

/-- A call of `cbfunc_gsa` comes from a decoder that returned 0. -/
theorem gsa_event_inv {D : Type} (scanLf : List Nat → Option D) (stack0 : Plist)
    (cb : gps_callback_t) (line : List Nat) (eol : Int) (rest : List Int)
    (hline : IsLine line) (heol : eol = 13 ∨ eol = 10) (p : gps_gsa_t)
    (hp : Event.gsa p ∈ (processing scanLf stack0 (some cb) (lineStream line eol rest)).events) :
    parseAndCallbackGSA stack0 (line ++ [0]) cb = .ok (0, [(Event.gsa p : Event D)]) := by
  obtain ⟨ret, tail, hrun, hcase⟩ :=
    processing_outcome scanLf stack0 cb line eol rest hline heol
  rw [hrun] at hp
  simp only [List.mem_append] at hp
  rcases hp with hp | hp
  · have := mem_logged cb line _ hp
    simp at this
  · rcases hcase with ⟨e, -, rfl⟩ | ⟨d, -, rfl, -⟩ | ⟨-, -, rfl⟩ | ⟨-, -, rfl, -⟩ |
      ⟨-, -, -, q, rfl, -⟩ | ⟨-, -, -, q, rfl, hq⟩ | ⟨-, -, -, q, rfl, -⟩ |
      ⟨-, -, -, q, rfl, -⟩ <;> simp at hp
    subst hp
    exact hq

/-- A call of `cbfunc_rmc` comes from a decoder that returned 0. -/
theorem rmc_event_inv {D : Type} (scanLf : List Nat → Option D) (stack0 : Plist)
    (cb : gps_callback_t) (line : List Nat) (eol : Int) (rest : List Int)
    (hline : IsLine line) (heol : eol = 13 ∨ eol = 10) (p : gps_rmc_t D)
    (hp : Event.rmc p ∈ (processing scanLf stack0 (some cb) (lineStream line eol rest)).events) :
    parseAndCallbackRMC scanLf stack0 (line ++ [0]) cb = .ok (0, [Event.rmc p]) := by
  obtain ⟨ret, tail, hrun, hcase⟩ :=
    processing_outcome scanLf stack0 cb line eol rest hline heol
  rw [hrun] at hp
  simp only [List.mem_append] at hp
  rcases hp with hp | hp
  · have := mem_logged cb line _ hp
    simp at this
  · rcases hcase with ⟨e, -, rfl⟩ | ⟨d, -, rfl, -⟩ | ⟨-, -, rfl⟩ | ⟨-, -, rfl, -⟩ |
      ⟨-, -, -, q, rfl, -⟩ | ⟨-, -, -, q, rfl, -⟩ | ⟨-, -, -, q, rfl, hq⟩ |
      ⟨-, -, -, q, rfl, -⟩ <;> simp at hp
    subst hp
    exact hq

/-- A call of `cbfunc_gsv` comes from a decoder that returned 0. -/
theorem gsv_event_inv {D : Type} (scanLf : List Nat → Option D) (stack0 : Plist)
    (cb : gps_callback_t) (line : List Nat) (eol : Int) (rest : List Int)
    (hline : IsLine line) (heol : eol = 13 ∨ eol = 10) (p : gps_gsv_t)
    (hp : Event.gsv p ∈ (processing scanLf stack0 (some cb) (lineStream line eol rest)).events) :
    parseAndCallbackGSV stack0 (line ++ [0]) cb = .ok (0, [(Event.gsv p : Event D)]) := by
  obtain ⟨ret, tail, hrun, hcase⟩ :=
    processing_outcome scanLf stack0 cb line eol rest hline heol
  rw [hrun] at hp
  simp only [List.mem_append] at hp
  rcases hp with hp | hp
  · have := mem_logged cb line _ hp
    simp at this
  · rcases hcase with ⟨e, -, rfl⟩ | ⟨d, -, rfl, -⟩ | ⟨-, -, rfl⟩ | ⟨-, -, rfl, -⟩ |
      ⟨-, -, -, q, rfl, -⟩ | ⟨-, -, -, q, rfl, -⟩ | ⟨-, -, -, q, rfl, -⟩ |
      ⟨-, -, -, q, rfl, hq⟩ <;> simp at hp
    subst hp
    exact hq

/-! ## The tests on the fields (C10) -/

/-- The claim C10 fails on the code: field 3 of the sentence `ggaNX` is `NX`, which is
neither `N` nor `S`, and `processing` returns true and calls `cbfunc_gga`, with `N` as
the hemisphere of the record. -/
theorem enumerated_field_counterexample :
    checkSum (ggaNX ++ [0]) = .ok none ∧ field ggaNX 3 = txt "NX" ∧
      field ggaNX 3 ≠ txt "N" ∧ field ggaNX 3 ≠ txt "S" ∧
      processing scanDecimal zeroStack (some allCallbacks) (lineStream ggaNX 13 [10])
        = { ret := .ok true,
            events := [Event.log ggaNX, Event.gga ggaAcceptedRecord],
            ser := [10] } := by
  decide

/-- C10, amended. A record callback is called only after the tests of the decoder on the
fields of the sentence passed: for GGA field 3 begins with `N` or `S`, field 5 begins with
`E` or `W` and field 10 is `M`; for GSA field 1 begins with `A` or `M` and the number that
`atoi` reads in field 2 is 1, 2 or 3; for RMC field 4 is `N` and field 6 is `E`. None of
these fields is empty then. -/
theorem validated_fields {D : Type} (scanLf : List Nat → Option D) (stack0 : Plist)
    (cb : gps_callback_t) (line : List Nat) (eol : Int) (rest : List Int)
    (hline : IsLine line) (heol : eol = 13 ∨ eol = 10) :
    (∀ p, Event.gga p ∈ (processing scanLf stack0 (some cb) (lineStream line eol rest)).events →
      ((field line 3).head? = some 78 ∨ (field line 3).head? = some 83) ∧
      ((field line 5).head? = some 69 ∨ (field line 5).head? = some 87) ∧
      field line 10 = txt "M" ∧
      field line 3 ≠ [] ∧ field line 5 ≠ [] ∧ field line 10 ≠ []) ∧
    (∀ p, Event.gsa p ∈ (processing scanLf stack0 (some cb) (lineStream line eol rest)).events →
      ((field line 1).head? = some 65 ∨ (field line 1).head? = some 77) ∧
      (atoi (field line 2 ++ [0]) = .ok 1 ∨ atoi (field line 2 ++ [0]) = .ok 2 ∨
        atoi (field line 2 ++ [0]) = .ok 3) ∧
      field line 1 ≠ [] ∧ field line 2 ≠ []) ∧
    (∀ p, Event.rmc p ∈ (processing scanLf stack0 (some cb) (lineStream line eol rest)).events →
      field line 4 = txt "N" ∧ field line 6 = txt "E") := by
  have hz := hline.ne_zero
  have hlit : ∀ s : List Nat, s = txt "M" ∨ s = txt "N" ∨ s = txt "E" → ∀ c ∈ s, c ≠ 0 := by
    intro s hs
    rcases hs with rfl | rfl | rfl <;> decide
  refine ⟨?_, ?_, ?_⟩
  · intro p hp
    have hdec := gga_event_inv scanLf stack0 cb line eol rest hline heol p hp
    rcases parseAndCallbackGGA_inv scanLf stack0 _ cb 0 _ hdec with ⟨h0, -⟩ |
      ⟨-, -, plist, lat, ns, lon, ew, pf, su, hdop, a9, alt, au, htok, -, hns, hnsv, -, hew,
        hewv, -, -, -, -, hM, -, -, -⟩
    · exact absurd rfl h0
    obtain ⟨-, -, -, -, t3, e3⟩ := tokenize_row stack0 line 15 plist hline.noEnd htok 3 (by omega)
    obtain ⟨-, -, -, -, t5, e5⟩ := tokenize_row stack0 line 15 plist hline.noEnd htok 5 (by omega)
    obtain ⟨-, -, -, -, t10, e10⟩ :=
      tokenize_row stack0 line 15 plist hline.noEnd htok 10 (by omega)
    rw [e3, sscanfChar_string _ _ (field_ne_zero line 3 hz)] at hns
    rw [e5, sscanfChar_string _ _ (field_ne_zero line 5 hz)] at hew
    rw [e10, strcmpEq_string _ _ _ (field_ne_zero line 10 hz) (hlit _ (Or.inl rfl))] at hM
    simp only [Res.ok.injEq] at hns hew hM
    have hM2 : field line 10 = txt "M" := by simpa using hM
    refine ⟨?_, ?_, hM2, ?_, ?_, ?_⟩
    · rcases hnsv with h | h <;> simp [hns, h]
    · rcases hewv with h | h <;> simp [hew, h]
    · intro h
      simp [h] at hns
    · intro h
      simp [h] at hew
    · rw [hM2]
      decide
  · intro p hp
    have hdec := gsa_event_inv scanLf stack0 cb line eol rest hline heol p hp
    rcases parseAndCallbackGSA_inv (D := D) stack0 _ cb 0 _ hdec with ⟨h0, -⟩ |
      ⟨-, -, plist, fix, htok, hsel, hfix, hfixv, -⟩
    · exact absurd rfl h0
    obtain ⟨-, -, -, r1, -⟩ := tokenize_row stack0 line 18 plist hline.noEnd htok 1 (by omega)
    obtain ⟨-, -, -, -, t2, e2⟩ := tokenize_row stack0 line 18 plist hline.noEnd htok 2 (by omega)
    rw [e2, atoi_string] at hfix
    have hsel2 : (field line 1).head? = some 65 ∨ (field line 1).head? = some 77 := by
      rcases hsel with h | h
      · exact Or.inl (rowHas_head plist 1 _ 65 r1 h (by decide))
      · exact Or.inr (rowHas_head plist 1 _ 77 r1 h (by decide))
    refine ⟨hsel2, ?_, ?_, ?_⟩
    · rcases hfixv with h | h | h <;> simp [hfix, h]
    · intro h
      rw [h] at hsel2
      simp at hsel2
    · intro h
      rw [h] at hfix
      have h0 : atoi ([] ++ [0]) = .ok 0 := by decide
      rw [h0] at hfix
      simp only [Res.ok.injEq] at hfix
      omega
  · intro p hp
    have hdec := rmc_event_inv scanLf stack0 cb line eol rest hline heol p hp
    rcases parseAndCallbackRMC_inv scanLf stack0 _ cb 0 _ hdec with ⟨h0, -⟩ |
      ⟨-, -, plist, nl, el, htok, -, hN, -, hE, -⟩
    · exact absurd rfl h0
    obtain ⟨-, -, -, -, t4, e4⟩ := tokenize_row stack0 line 13 plist hline.noEnd htok 4 (by omega)
    obtain ⟨-, -, -, -, t6, e6⟩ := tokenize_row stack0 line 13 plist hline.noEnd htok 6 (by omega)
    rw [e4, strcmpEq_string _ _ _ (field_ne_zero line 4 hz) (hlit _ (Or.inr (Or.inl rfl)))] at hN
    rw [e6, strcmpEq_string _ _ _ (field_ne_zero line 6 hz) (hlit _ (Or.inr (Or.inr rfl)))] at hE
    simp only [Res.ok.injEq] at hN hE
    exact ⟨by simpa using hN, by simpa using hE⟩

/-- C10, amended, at the sentence `ggaNX`, whose field 3 only begins with `N`. -/
theorem validated_fields_witness :
    IsLine ggaNX ∧
      Event.gga ggaAcceptedRecord ∈ (processing scanDecimal zeroStack (some allCallbacks)
        (lineStream ggaNX 13 [10])).events ∧
      (field ggaNX 3).head? = some 78 ∧ field ggaNX 10 = txt "M" := by
  have h := (validated_fields scanDecimal zeroStack allCallbacks ggaNX 13 [10] (by decide)
    (by decide)).1 ggaAcceptedRecord (by decide)
  exact ⟨by decide, by decide, by decide, h.2.2.1⟩

/-! ## One bit flipped in the check sum (C6) -/

theorem mem_hexChars {c a : Nat} (h : hexval c = some a) : c ∈ hexChars := by
  rcases hexval_eq_some h with ⟨h1, h2, -⟩ | ⟨h1, h2, -⟩ | ⟨h1, h2, -⟩ <;>
    interval_cases c <;> decide

/-- The scans of all the check sums of two digits with one bit flipped. -/
theorem flip_scan_table :
    ∀ c1 ∈ hexChars, ∀ c2 ∈ hexChars, ∀ k ∈ List.range 8,
      lineChar (c1 ^^^ 2 ^ k) = true ∧
      (keepsFirst c1 k = true ∨
        scanDiffers (sscanfHex [c1 ^^^ 2 ^ k, c2, 0])
          (16 * (hexval c1).getD 0 + (hexval c2).getD 0) = true) ∧
      (keepsSecond c1 c2 k = true ∨
        scanDiffers (sscanfHex [c1, c2 ^^^ 2 ^ k, 0])
          (16 * (hexval c1).getD 0 + (hexval c2).getD 0) = true) := by
  decide

/-- The scans of the check sums of two digits with one bit flipped that keep the value. -/
theorem flip_keep_table :
    ∀ c1 ∈ hexChars, ∀ c2 ∈ hexChars, ∀ k ∈ List.range 8,
      (keepsFirst c1 k = true →
        scanSame (sscanfHex [c1 ^^^ 2 ^ k, c2, 0])
          (16 * (hexval c1).getD 0 + (hexval c2).getD 0) = true) ∧
      (keepsSecond c1 c2 k = true →
        scanSame (sscanfHex [c1, c2 ^^^ 2 ^ k, 0])
          (16 * (hexval c1).getD 0 + (hexval c2).getD 0) = true) := by
  decide

theorem checkSum_body (body : List Nat) (c1 c2 : Nat)
    (hz : ∀ c ∈ body ++ [c1, c2], c ≠ 0) (hb : 2 ≤ body.length)
    (h0 : body.getD 0 0 = 36) (hs : body.getD (body.length - 1) 0 = 42) :
    checkSum (body ++ [c1, c2] ++ [0])
      = (sscanfHex [c1, c2, 0]).bind fun cs_src =>
          match cs_src with
          | none => .ok (some .invalidCheckSum)
          | some v =>
            if v % 256 ≠ calcCheckSum (body.drop 1) (body.length - 2) then
              .ok (some .illegalData)
            else .ok none := by
  have hlen : (body ++ [c1, c2]).length = body.length + 2 := by simp
  have e : body ++ [c1, c2] ++ [0] = body ++ [c1, c2, 0] := by simp
  unfold checkSum
  simp only [strlen_append_zero (body ++ [c1, c2]) [] hz, hlen]
  rw [e, List.getD_append _ _ _ _ (by omega), List.getD_append _ _ _ _ (by omega), h0]
  have e1 : body.length + 2 - 3 = body.length - 1 := by omega
  have e2 : body.length + 2 - 2 = body.length := by omega
  have e3 : body.length + 2 - 4 = body.length - 2 := by omega
  rw [e1, hs, e2, e3, List.drop_left, List.drop_append_of_le_length (by omega)]
  rw [show calcCheckSum (List.drop 1 body ++ [c1, c2, 0]) (body.length - 2)
        = calcCheckSum (List.drop 1 body) (body.length - 2) from
      calcCheckSumFrom_append _ _ _ _ (by simp; omega)]
  have : ¬ body.length + 2 < 3 := by omega
  simp only [this, if_false, if_true]

theorem checkSum_body_inv (body : List Nat) (c1 c2 : Nat)
    (hz : ∀ c ∈ body ++ [c1, c2], c ≠ 0)
    (h : checkSum (body ++ [c1, c2] ++ [0]) = .ok none) :
    2 ≤ body.length ∧ body.getD 0 0 = 36 ∧ body.getD (body.length - 1) 0 = 42 := by
  obtain ⟨hn, h0, hs⟩ := checkSum_pass_inv (body ++ [c1, c2]) [] hz h
  have hlen : (body ++ [c1, c2]).length = body.length + 2 := by simp
  rw [hlen] at hn hs
  have hb : 2 ≤ body.length := by omega
  rw [List.getD_append _ _ _ _ (by omega)] at h0 hs
  have e1 : body.length + 2 - 3 = body.length - 1 := by omega
  rw [e1] at hs
  exact ⟨hb, h0, hs⟩

/-- A call of `processing` on a line on which the check of the check sum fails. -/
theorem processing_of_checkSum_fails {D : Type} (scanLf : List Nat → Option D)
    (stack0 : Plist) (cb : gps_callback_t) (line : List Nat) (eol : Int) (rest : List Int)
    (d : Diag) (hline : IsLine line) (heol : eol = 13 ∨ eol = 10)
    (hfail : checkSum (line ++ [0]) = .ok (some d)) :
    processing scanLf stack0 (some cb) (lineStream line eol rest)
      = { ret := .ok false, events := logged cb line ++ [Event.print d line], ser := rest } := by
  rw [processing_line scanLf stack0 (some cb) line eol rest hline heol,
    processLine_of_checkSum_fails scanLf stack0 cb _ d hfail,
    text_append_zero line [] hline.ne_zero]

theorem checkSum_of_scanDiffers (body : List Nat) (c1 c2 v : Nat)
    (hz : ∀ c ∈ body ++ [c1, c2], c ≠ 0) (hb : 2 ≤ body.length)
    (h0 : body.getD 0 0 = 36) (hs : body.getD (body.length - 1) 0 = 42)
    (hv : calcCheckSum (body.drop 1) (body.length - 2) = v)
    (hd : scanDiffers (sscanfHex [c1, c2, 0]) v = true) :
    checkSum (body ++ [c1, c2] ++ [0]) = .ok (some .invalidCheckSum) ∨
      checkSum (body ++ [c1, c2] ++ [0]) = .ok (some .illegalData) := by
  rw [checkSum_body body c1 c2 hz hb h0 hs, hv]
  cases hr : sscanfHex [c1, c2, 0] with
  | ub e => simp [hr, scanDiffers] at hd
  | ok o =>
    cases o with
    | none => simp [Res.bind]
    | some w =>
      simp only [hr, scanDiffers, bne_iff_ne, ne_eq] at hd
      simp [Res.bind, hd]

theorem checkSum_of_scanSame (body : List Nat) (c1 c2 v : Nat)
    (hz : ∀ c ∈ body ++ [c1, c2], c ≠ 0) (hb : 2 ≤ body.length)
    (h0 : body.getD 0 0 = 36) (hs : body.getD (body.length - 1) 0 = 42)
    (hv : calcCheckSum (body.drop 1) (body.length - 2) = v)
    (hd : scanSame (sscanfHex [c1, c2, 0]) v = true) :
    checkSum (body ++ [c1, c2] ++ [0]) = .ok none := by
  rw [checkSum_body body c1 c2 hz hb h0 hs, hv]
  cases hr : sscanfHex [c1, c2, 0] with
  | ub e => simp [hr, scanSame] at hd
  | ok o =>
    cases o with
    | none => simp [hr, scanSame] at hd
    | some w =>
      simp only [hr, scanSame, beq_iff_eq] at hd
      simp [Res.bind, hd]

theorem isLine_replace (body : List Nat) (c1 c2 d1 d2 : Nat)
    (h : IsLine (body ++ [c1, c2])) (h1 : lineChar d1 = true) (h2 : lineChar d2 = true) :
    IsLine (body ++ [d1, d2]) := by
  obtain ⟨-, hlen, hc⟩ := h
  refine ⟨by simp, by simpa using hlen, ?_⟩
  intro c hmem
  simp only [List.mem_append, List.mem_cons, List.mem_singleton, List.not_mem_nil,
    or_false] at hmem
  rcases hmem with hm | rfl | rfl
  · exact hc c (by simp [hm])
  · simpa [lineChar, and_assoc] using h1
  · simpa [lineChar, and_assoc] using h2

theorem lineChar_of_isLine (body : List Nat) (c1 c2 : Nat) (h : IsLine (body ++ [c1, c2])) :
    lineChar c1 = true ∧ lineChar c2 = true := by
  have h1 := h.2.2 c1 (by simp)
  have h2 := h.2.2 c2 (by simp)
  simp only [lineChar, bne_iff_ne, ne_eq, Bool.and_eq_true, decide_eq_true_eq]
  exact ⟨⟨⟨⟨h1.1, h1.2.1⟩, h1.2.2.1⟩, h1.2.2.2⟩, ⟨⟨⟨h2.1, h2.2.1⟩, h2.2.2.1⟩, h2.2.2.2⟩⟩

/-- The claim C6 fails on the code: the sentence `gsaUpper` has a right check sum, the
sentence `gsaLower` is the same but for bit 5 of its last character (`F`, then `f`), and
`processing` returns true on it and calls `cbfunc_gsa`. -/
theorem checksum_bit_flip_counterexample :
    checkSum (gsaUpper ++ [0]) = .ok none ∧
      gsaUpper = gsaUpper.take 49 ++ [51, 70] ∧
      gsaLower = gsaUpper.take 49 ++ [51, 70 ^^^ 2 ^ 5] ∧
      processing scanDecimal zeroStack (some allCallbacks) (lineStream gsaLower 13 [10])
        = { ret := .ok true,
            events := [Event.log gsaLower, Event.gsa { selmode := 65, fix := 3 }],
            ser := [10] } := by
  decide

/-- C6, amended. Let a sentence end in two hexadecimal digits and have a right check sum,
and let one bit of one of the two digits be flipped. Then `processing` returns false on
the new sentence and calls no record callback (its events are the call of the log callback
and a diagnostic), unless the flip keeps the value that `%X` scans: it changes the case of
a letter, it turns a first digit `0` into a space, or the check sum is `00` and its second
character is no hexadecimal digit any more. In these three cases the check still
passes. -/
theorem checksum_bit_flip {D : Type} (scanLf : List Nat → Option D) (stack0 : Plist)
    (cb : gps_callback_t) (body : List Nat) (c1 c2 a b k : Nat) (eol : Int)
    (rest : List Int) (hline : IsLine (body ++ [c1, c2])) (heol : eol = 13 ∨ eol = 10)
    (hpass : checkSum (body ++ [c1, c2] ++ [0]) = .ok none)
    (h1 : hexval c1 = some a) (h2 : hexval c2 = some b) (hk : k < 8) :
    (keepsFirst c1 k = false →
      ∃ d, processing scanLf stack0 (some cb) (lineStream (body ++ [c1 ^^^ 2 ^ k, c2]) eol rest)
        = { ret := .ok false,
            events := logged cb (body ++ [c1 ^^^ 2 ^ k, c2])
              ++ [Event.print d (body ++ [c1 ^^^ 2 ^ k, c2])],
            ser := rest }) ∧
    (keepsSecond c1 c2 k = false →
      ∃ d, processing scanLf stack0 (some cb) (lineStream (body ++ [c1, c2 ^^^ 2 ^ k]) eol rest)
        = { ret := .ok false,
            events := logged cb (body ++ [c1, c2 ^^^ 2 ^ k])
              ++ [Event.print d (body ++ [c1, c2 ^^^ 2 ^ k])],
            ser := rest }) ∧
    (keepsFirst c1 k = true → checkSum (body ++ [c1 ^^^ 2 ^ k, c2] ++ [0]) = .ok none) ∧
    (keepsSecond c1 c2 k = true → checkSum (body ++ [c1, c2 ^^^ 2 ^ k] ++ [0]) = .ok none) := by
  have hz := hline.ne_zero
  obtain ⟨hb, h0, hs⟩ := checkSum_body_inv body c1 c2 hz hpass
  have hv : calcCheckSum (body.drop 1) (body.length - 2) = 16 * a + b := by
    have hp := hpass
    rw [checkSum_body body c1 c2 hz hb h0 hs, sscanfHex_two [] h1 h2] at hp
    simp only [Res.bind] at hp
    have ha := hexval_lt h1
    have hb2 := hexval_lt h2
    by_cases hc : (16 * a + b) % 256 ≠ calcCheckSum (body.drop 1) (body.length - 2)
    · rw [if_pos hc] at hp
      simp at hp
    · have : (16 * a + b) % 256 = 16 * a + b := Nat.mod_eq_of_lt (by omega)
      rw [this] at hc
      exact (not_not.mp hc).symm
  obtain ⟨t1, t2, t3⟩ := flip_scan_table c1 (mem_hexChars h1) c2 (mem_hexChars h2) k
    (List.mem_range.mpr hk)
  have t1' : lineChar (c2 ^^^ 2 ^ k) = true :=
    (flip_scan_table c2 (mem_hexChars h2) c1 (mem_hexChars h1) k (List.mem_range.mpr hk)).1
  obtain ⟨u1, u2⟩ := flip_keep_table c1 (mem_hexChars h1) c2 (mem_hexChars h2) k
    (List.mem_range.mpr hk)
  simp only [h1, h2, Option.getD_some] at t2 t3 u1 u2
  obtain ⟨l1, l2⟩ := lineChar_of_isLine body c1 c2 hline
  refine ⟨fun hkeep => ?_, fun hkeep => ?_, fun hkeep => ?_, fun hkeep => ?_⟩
  · have hline2 := isLine_replace body c1 c2 (c1 ^^^ 2 ^ k) c2 hline t1 l2
    have hd : scanDiffers (sscanfHex [c1 ^^^ 2 ^ k, c2, 0]) (16 * a + b) = true := by
      rcases t2 with h | h
      · rw [hkeep] at h
        exact absurd h (by decide)
      · exact h
    rcases checkSum_of_scanDiffers body _ _ _ hline2.ne_zero hb h0 hs hv hd with hf | hf
    · exact ⟨_, processing_of_checkSum_fails scanLf stack0 cb _ eol rest _ hline2 heol hf⟩
    · exact ⟨_, processing_of_checkSum_fails scanLf stack0 cb _ eol rest _ hline2 heol hf⟩
  · have hline2 := isLine_replace body c1 c2 c1 (c2 ^^^ 2 ^ k) hline l1 t1'
    have hd : scanDiffers (sscanfHex [c1, c2 ^^^ 2 ^ k, 0]) (16 * a + b) = true := by
      rcases t3 with h | h
      · rw [hkeep] at h
        exact absurd h (by decide)
      · exact h
    rcases checkSum_of_scanDiffers body _ _ _ hline2.ne_zero hb h0 hs hv hd with hf | hf
    · exact ⟨_, processing_of_checkSum_fails scanLf stack0 cb _ eol rest _ hline2 heol hf⟩
    · exact ⟨_, processing_of_checkSum_fails scanLf stack0 cb _ eol rest _ hline2 heol hf⟩
  · have hline2 := isLine_replace body c1 c2 (c1 ^^^ 2 ^ k) c2 hline t1 l2
    exact checkSum_of_scanSame body _ _ _ hline2.ne_zero hb h0 hs hv (u1 hkeep)
  · have hline2 := isLine_replace body c1 c2 c1 (c2 ^^^ 2 ^ k) hline l1 t1'
    exact checkSum_of_scanSame body _ _ _ hline2.ne_zero hb h0 hs hv (u2 hkeep)

/-- C6, amended, at the sentence `gsaUpper`: with bit 0 of its last character flipped
(`F`, then `G`) the check fails. -/
theorem checksum_bit_flip_witness :
    IsLine (gsaUpper.take 49 ++ [51, 70]) ∧ keepsSecond 51 70 0 = false ∧
      ∃ d, processing scanDecimal zeroStack (some allCallbacks)
          (lineStream (gsaUpper.take 49 ++ [51, 70 ^^^ 2 ^ 0]) 13 [10])
        = { ret := .ok false,
            events := logged allCallbacks (gsaUpper.take 49 ++ [51, 70 ^^^ 2 ^ 0])
              ++ [Event.print d (gsaUpper.take 49 ++ [51, 70 ^^^ 2 ^ 0])],
            ser := [10] } :=
  ⟨by decide, by decide,
   (checksum_bit_flip scanDecimal zeroStack allCallbacks (gsaUpper.take 49) 51 70 3 15 0 13 [10]
      (by decide) (by decide) (by decide) (by decide) (by decide) (by decide)).2.1 (by decide)⟩

/-! ## The bound of the tokenizing loop -/

theorem parse_rest_length (src : List Nat) (dessiz : Nat) (delim q : List Nat)
    (h : (parse src dessiz delim).2 = some q) : q.length < src.length := by
  induction src generalizing dessiz with
  | nil => cases dessiz <;> simp [parse] at h
  | cons c src ih =>
    cases dessiz with
    | zero => simp [parse] at h
    | succ n =>
      simp only [parse] at h
      split_ifs at h with h1 h2
      · simp only [Option.some.injEq] at h
        subst h
        simp
      · have := ih n h
        simp only [List.length_cons]
        omega

theorem tokenLoop_ne_fuel (fuel : Nat) (p : List Nat) (cnt : Nat) (plist : Plist)
    (hfuel : p.length < fuel) : tokenLoop fuel p cnt plist ≠ .ub .fuel := by
  induction fuel generalizing p cnt plist with
  | zero => omega
  | succ fuel ih =>
    simp only [tokenLoop]
    split_ifs
    · simp
    · split
      · simp
      · rename_i q hq
        have := parse_rest_length p PARAM_TXTMAXLEN delims q hq
        exact ih q _ _ (by omega)

/-- The bound on the calls of `parse` in the tokenizing loop of a decoder is never used
up: the loop of the C code ends on every text. -/
theorem tokenize_ne_fuel (stack0 : Plist) (src : List Nat) :
    tokenize stack0 src ≠ .ub .fuel :=
  tokenLoop_ne_fuel _ src 0 stack0 (by omega)

theorem tokenizeFields_short (fs : List (List Nat)) (cnt : Nat) (plist : Plist)
    (hfs : fs ≠ []) (hshort : ∀ f ∈ fs, f.length < PARAM_TXTMAXLEN)
    (hcnt : cnt + fs.length ≤ PARAM_ARRAYSIZE) :
    ∃ plist', tokenizeFields fs cnt plist = .ok (cnt + fs.length - 1, plist') := by
  induction fs generalizing cnt plist with
  | nil => exact absurd rfl hfs
  | cons f fs ih =>
    have hf := hshort f (by simp)
    simp only [List.length_cons] at hcnt
    simp only [tokenizeFields]
    rw [if_neg (by omega), if_neg (by omega)]
    cases fs with
    | nil => exact ⟨store plist cnt (f ++ [0]), by simp⟩
    | cons g gs =>
      obtain ⟨p, hp⟩ := ih (cnt + 1) (store plist cnt (f ++ [0])) (by simp)
        (fun x hx => hshort x (by simp [hx])) (by simp only [List.length_cons] at hcnt ⊢; omega)
      refine ⟨p, ?_⟩
      simp only [hp, List.length_cons]
      congr 2
      omega

/-- On a line whose fields are all shorter than `PARAM_TXTMAXLEN` and that has fewer than
`PARAM_ARRAYSIZE` delimiters, the tokenizing loop ends with the number of delimiters. -/
theorem tokenize_short (stack0 : Plist) (line : List Nat) (hline : NoEnd line)
    (hshort : ∀ f ∈ fields line, f.length < PARAM_TXTMAXLEN)
    (hcount : delimCount line < PARAM_ARRAYSIZE) :
    ∃ plist, tokenize stack0 (line ++ [0]) = .ok (delimCount line, plist) := by
  rw [tokenize_fuel stack0 line [] hline]
  have hlen := fields_length line
  obtain ⟨p, hp⟩ := tokenizeFields_short (fields line) 0 stack0 (fields_ne_nil line) hshort
    (by omega)
  refine ⟨p, ?_⟩
  rw [hp, hlen]
  simp

/-- The count of the fields where no field is too long: on a line with a right check sum,
fields all shorter than `PARAM_TXTMAXLEN` and fewer than `PARAM_ARRAYSIZE` delimiters,
whose first field is one of the four identifiers and whose number of delimiters is not the
one of that identifier (15, 18, 13, 20), `processing` returns false and its only event is
the call of the log callback. -/
theorem field_count_mismatch_fails {D : Type} (scanLf : List Nat → Option D)
    (stack0 : Plist) (cb : gps_callback_t) (line : List Nat) (eol : Int) (rest : List Int)
    (hline : IsLine line) (heol : eol = 13 ∨ eol = 10)
    (hpass : checkSum (line ++ [0]) = .ok none)
    (hshort : ∀ f ∈ fields line, f.length < PARAM_TXTMAXLEN)
    (hcount : delimCount line < PARAM_ARRAYSIZE)
    (hid : (field line 0 = txt "$GPGGA" ∧ delimCount line ≠ 15) ∨
      (field line 0 = txt "$GPGSA" ∧ delimCount line ≠ 18) ∨
      (field line 0 = txt "$GPRMC" ∧ delimCount line ≠ 13) ∨
      (field line 0 = txt "$GPGSV" ∧ delimCount line ≠ 20)) :
    processing scanLf stack0 (some cb) (lineStream line eol rest)
      = { ret := .ok false, events := logged cb line, ser := rest } := by
  obtain ⟨plist, htok⟩ := tokenize_short stack0 line hline.noEnd hshort hcount
  have hd : ∃ res, res ≠ 0 ∧ dispatch scanLf stack0 (line ++ [0]) cb = .ok (res, []) := by
    rw [dispatch_of_pass scanLf stack0 cb line hline hpass]
    rcases hid with ⟨h, hc⟩ | ⟨h, hc⟩ | ⟨h, hc⟩ | ⟨h, hc⟩
    · rw [if_pos h]
      unfold parseAndCallbackGGA
      by_cases hcb : cb.cbfunc_gga = false
      · exact ⟨-1, by decide, by simp [hcb]⟩
      · exact ⟨-11, by decide, by simp [hcb, htok, Res.bind, hc]⟩
    · rw [h, if_neg (by decide), if_pos rfl]
      unfold parseAndCallbackGSA
      by_cases hcb : cb.cbfunc_gsa = false
      · exact ⟨-1, by decide, by simp [hcb]⟩
      · exact ⟨-4, by decide, by simp [hcb, htok, Res.bind, hc]⟩
    · rw [h, if_neg (by decide), if_neg (by decide), if_pos rfl]
      unfold parseAndCallbackRMC
      by_cases hcb : cb.cbfunc_rmc = false
      · exact ⟨-1, by decide, by simp [hcb]⟩
      · exact ⟨-4, by decide, by simp [hcb, htok, Res.bind, hc]⟩
    · rw [h, if_neg (by decide), if_neg (by decide), if_neg (by decide), if_pos rfl]
      unfold parseAndCallbackGSV
      by_cases hcb : cb.cbfunc_gsv = false
      · exact ⟨-1, by decide, by simp [hcb]⟩
      · exact ⟨-3, by decide, by simp [hcb, htok, Res.bind, hc]⟩
  obtain ⟨res, hres, hdis⟩ := hd
  rw [processing_of_dispatch scanLf stack0 cb line eol rest res [] hline heol hpass hdis]
  simp [hres]

/-! ## The check sum of a concatenation (C20) -/

theorem foldl_xor_init (buf : List Nat) (x : Nat) :
    buf.foldl (fun x b => x ^^^ b) x = x ^^^ buf.foldl (fun x b => x ^^^ b) 0 := by
  induction buf generalizing x with
  | nil => simp
  | cons b buf ih =>
    simp only [List.foldl_cons]
    rw [ih (x ^^^ b), ih (0 ^^^ b), Nat.zero_xor, Nat.xor_assoc]

theorem xor8_append (a b : List Nat) : xor8 (a ++ b) = xor8 a ^^^ xor8 b := by
  unfold xor8
  rw [List.foldl_append, foldl_xor_init b, xor_mod_256]

theorem xor8_cons (x : Nat) (b : List Nat) : xor8 (x :: b) = x % 256 ^^^ xor8 b := by
  have := xor8_append [x] b
  simpa [xor8] using this

theorem xor8_replace (a b : List Nat) (x y : Nat) (hx : x < 256) (hy : y < 256)
    (hxy : y ≠ x) : xor8 (a ++ y :: b) ≠ xor8 (a ++ x :: b) := by
  rw [xor8_append, xor8_append, xor8_cons, xor8_cons, Nat.mod_eq_of_lt hx,
    Nat.mod_eq_of_lt hy]
  intro h
  exact hxy (Nat.xor_left_inj.mp (Nat.xor_right_inj.mp h))

theorem calcCheckSum_all (buf : List Nat) : calcCheckSum buf buf.length = xor8 buf := by
  rw [calcCheckSum_eq_xor8, List.take_length]

theorem body_checked (pre mid : List Nat) (x : Nat) (hpre : 1 ≤ pre.length)
    (hmid : 1 ≤ mid.length) :
    ((pre ++ x :: mid).drop 1).take ((pre ++ x :: mid).length - 2)
      = pre.tail ++ x :: mid.take (mid.length - 1) := by
  cases pre with
  | nil => simp at hpre
  | cons p pre =>
    simp only [List.cons_append, List.drop_succ_cons, List.drop_zero, List.length_cons,
      List.length_append, List.tail_cons]
    have e : pre.length + (mid.length + 1) + 1 - 2 = pre.length + (mid.length - 1 + 1) := by
      omega
    rw [e, List.take_append, List.take_succ_cons]

/-- C20. The function `calcCheckSum` is 0 on the empty buffer, and on a concatenation it
is the exclusive or of its values on the parts. Hence, when a sentence passes the check
of the check sum and one byte strictly between its first character and the `*` before its
last two characters is replaced by another byte that is not NUL, CR or LF, the last two
characters being the same, the new sentence fails the check with the diagnostic of illegal
data, and `processing` returns false on it and calls no record callback. -/
theorem single_byte_error {D : Type} (scanLf : List Nat → Option D) (stack0 : Plist)
    (cb : gps_callback_t) (pre mid : List Nat) (x y c1 c2 : Nat) (eol : Int)
    (rest : List Int) (hline : IsLine ((pre ++ x :: mid) ++ [c1, c2]))
    (heol : eol = 13 ∨ eol = 10)
    (hpass : checkSum ((pre ++ x :: mid) ++ [c1, c2] ++ [0]) = .ok none)
    (hpre : 1 ≤ pre.length) (hmid : 1 ≤ mid.length)
    (hy : lineChar y = true) (hxy : y ≠ x) :
    calcCheckSum [] 0 = 0 ∧
    (∀ a b : List Nat, calcCheckSum (a ++ b) (a.length + b.length)
      = calcCheckSum a a.length ^^^ calcCheckSum b b.length) ∧
    checkSum ((pre ++ y :: mid) ++ [c1, c2] ++ [0]) = .ok (some .illegalData) ∧
    processing scanLf stack0 (some cb) (lineStream ((pre ++ y :: mid) ++ [c1, c2]) eol rest)
      = { ret := .ok false,
          events := logged cb ((pre ++ y :: mid) ++ [c1, c2])
            ++ [Event.print .illegalData ((pre ++ y :: mid) ++ [c1, c2])],
          ser := rest } := by
  have hcat : ∀ a b : List Nat, calcCheckSum (a ++ b) (a.length + b.length)
      = calcCheckSum a a.length ^^^ calcCheckSum b b.length := by
    intro a b
    rw [← List.length_append, calcCheckSum_all, calcCheckSum_all, calcCheckSum_all, xor8_append]
  have hy' : y ≠ 0 ∧ y ≠ 10 ∧ y ≠ 13 ∧ y < 256 := by
    simpa [lineChar, and_assoc] using hy
  have hx' : x < 256 := (hline.2.2 x (by simp)).2.2.2
  -- the new sentence is a line
  have hline2 : IsLine ((pre ++ y :: mid) ++ [c1, c2]) := by
    obtain ⟨-, hlen, hc⟩ := hline
    refine ⟨by simp, by simpa using hlen, ?_⟩
    intro c hmem
    simp only [List.mem_append, List.mem_cons, List.mem_singleton, List.not_mem_nil,
      or_false] at hmem
    rcases hmem with (hm | rfl | hm) | rfl | rfl
    · exact hc c (by simp [hm])
    · exact hy'
    · exact hc c (by simp [hm])
    · exact hc c (by simp)
    · exact hc c (by simp)
  obtain ⟨hb, h0, hs⟩ := checkSum_body_inv (pre ++ x :: mid) c1 c2 hline.ne_zero hpass
  have hlen2 : (pre ++ y :: mid).length = (pre ++ x :: mid).length := by simp
  have h0' : (pre ++ y :: mid).getD 0 0 = 36 := by
    rw [List.getD_append _ _ _ _ (by omega)] at h0 ⊢
    exact h0
  have hs' : (pre ++ y :: mid).getD ((pre ++ y :: mid).length - 1) 0 = 42 := by
    have ex : (pre ++ x :: mid).length - 1 = pre.length + (mid.length - 1 + 1) := by
      simp only [List.length_append, List.length_cons]
      omega
    have ey : (pre ++ y :: mid).length - 1 = pre.length + (mid.length - 1 + 1) := by
      simp only [List.length_append, List.length_cons]
      omega
    rw [ex, List.getD_append_right _ _ _ _ (by omega), Nat.add_sub_cancel_left,
      List.getD_cons_succ] at hs
    rw [ey, List.getD_append_right _ _ _ _ (by omega), Nat.add_sub_cancel_left,
      List.getD_cons_succ]
    exact hs
  have hcalc : calcCheckSum ((pre ++ y :: mid).drop 1) ((pre ++ y :: mid).length - 2)
      ≠ calcCheckSum ((pre ++ x :: mid).drop 1) ((pre ++ x :: mid).length - 2) := by
    rw [calcCheckSum_eq_xor8, calcCheckSum_eq_xor8, body_checked pre mid y hpre hmid,
      body_checked pre mid x hpre hmid]
    exact xor8_replace _ _ x y hx' hy'.2.2.2 hxy
  have hfail : checkSum ((pre ++ y :: mid) ++ [c1, c2] ++ [0]) = .ok (some .illegalData) := by
    have hp := hpass
    rw [checkSum_body _ c1 c2 hline.ne_zero hb h0 hs] at hp
    rw [checkSum_body _ c1 c2 hline2.ne_zero (by omega) h0' hs']
    cases hr : sscanfHex [c1, c2, 0] with
    | ub e => simp [hr, Res.bind] at hp
    | ok o =>
      cases o with
      | none => simp [hr, Res.bind] at hp
      | some v =>
        simp only [hr, Res.bind] at hp ⊢
        by_cases hv : v % 256 ≠ calcCheckSum ((pre ++ x :: mid).drop 1)
            ((pre ++ x :: mid).length - 2)
        · rw [if_pos hv] at hp
          simp at hp
        · have hv2 := not_not.mp hv
          rw [if_pos (by rw [hv2]; exact fun h => hcalc h.symm)]
  exact ⟨rfl, hcat, hfail,
    processing_of_checkSum_fails scanLf stack0 cb _ eol rest _ hline2 heol hfail⟩

/-- C20 at the sentence `gsaUpper` with its fix `3` replaced by `2`. -/
theorem single_byte_error_witness :
    IsLine ((txt "$GPGSA,A," ++ 51 :: txt ",07,02,26,27,09,04,15,,,,,,1.8,1.0,1.9*") ++ [51, 70]) ∧
      checkSum ((txt "$GPGSA,A," ++ 50 :: txt ",07,02,26,27,09,04,15,,,,,,1.8,1.0,1.9*")
        ++ [51, 70] ++ [0]) = .ok (some .illegalData) :=
  ⟨by decide,
   (single_byte_error scanDecimal zeroStack allCallbacks (txt "$GPGSA,A,")
      (txt ",07,02,26,27,09,04,15,,,,,,1.8,1.0,1.9*") 51 50 51 70 13 [10] (by decide)
      (by decide) (by decide) (by decide) (by decide) (by decide) (by decide)).2.2.1⟩

/-! ## The tokenizer (C18) -/

theorem parse_run (pre post : List Nat) (c n : Nat)
    (hpre : ∀ x ∈ pre, isDelim x = false ∧ isEnd x = false) (hn : pre.length < n)
    (hc : isDelim c = true ∨ isEnd c = true) :
    parse (pre ++ c :: post) n delims
      = (pre ++ [0], if isDelim c = true then some post else none) := by
  induction pre generalizing n with
  | nil =>
    obtain ⟨m, rfl⟩ : ∃ m, n = m + 1 := ⟨n - 1, by simp at hn; omega⟩
    simp only [List.nil_append, parse, exists_delims]
    by_cases he : c = 0 ∨ c = 13 ∨ c = 10
    · have hd : isDelim c = false := by
        rcases he with rfl | rfl | rfl <;> decide
      simp [he, hd]
    · have hd : isDelim c = true := by
        rcases hc with h | h
        · exact h
        · simp only [isEnd, Bool.or_eq_true, decide_eq_true_eq] at h
          exact absurd (by tauto) he
      simp [he, hd]
  | cons a pre ih =>
    obtain ⟨m, rfl⟩ : ∃ m, n = m + 1 := ⟨n - 1, by simp at hn; omega⟩
    have ha := hpre a (by simp)
    have ha1 : ¬ (a = 0 ∨ a = 13 ∨ a = 10) := by
      have := ha.2
      simp only [isEnd, Bool.or_eq_false_iff, decide_eq_false_iff_not] at this
      tauto
    simp only [List.cons_append, parse, ha1, if_false, exists_delims, ha.1,
      Bool.false_eq_true, List.append_eq]
    rw [ih m (fun x hx => hpre x (by simp [hx])) (by simpa using hn)]

theorem parse_run_end (pre : List Nat) (n : Nat)
    (hpre : ∀ x ∈ pre, isDelim x = false ∧ isEnd x = false) (hn : pre.length < n) :
    parse pre n delims = (pre ++ [0], none) := by
  induction pre generalizing n with
  | nil =>
    obtain ⟨m, rfl⟩ : ∃ m, n = m + 1 := ⟨n - 1, by simp at hn; omega⟩
    simp [parse]
  | cons a pre ih =>
    obtain ⟨m, rfl⟩ : ∃ m, n = m + 1 := ⟨n - 1, by simp at hn; omega⟩
    have ha := hpre a (by simp)
    have ha1 : ¬ (a = 0 ∨ a = 13 ∨ a = 10) := by
      have := ha.2
      simp only [isEnd, Bool.or_eq_false_iff, decide_eq_false_iff_not] at this
      tauto
    simp only [parse, ha1, if_false, exists_delims, ha.1, Bool.false_eq_true]
    rw [ih m (fun x hx => hpre x (by simp [hx])) (by simpa using hn)]
    simp

theorem parseRepeat_fields (fuel : Nat) (line t : List Nat) (n cnt : Nat)
    (hline : NoEnd line) (hfuel : line.length < fuel)
    (hshort : ∀ f ∈ fields line, f.length < n) :
    parseRepeat fuel (line ++ 0 :: t) n cnt
      = ((fields line).map (fun f => f ++ [0]), cnt + delimCount line) := by
  induction fuel generalizing line cnt with
  | zero => omega
  | succ fuel ih =>
    obtain ⟨f, fs, hf⟩ := fields_cases line
    have hlen := fields_length line
    have hfn : ¬ n ≤ f.length := by
      have := hshort f (by simp [hf])
      omega
    simp only [parseRepeat, parse_fields line t n f fs hline hf, if_neg hfn]
    cases fs with
    | nil =>
      rw [hf] at hlen
      simp only [List.length_cons, List.length_nil] at hlen
      simp [hf]
      omega
    | cons g gs =>
      have hne := fields_length_two_ne_nil line f g gs hf
      have hlt := afterDelim_length_lt line hne
      have hfa := fields_afterDelim line f g gs hf
      have hla := fields_length (afterDelim line)
      rw [hfa] at hla
      rw [hf] at hlen
      simp only [List.length_cons] at hlen hla
      simp only [reduceCtorEq, if_false]
      rw [ih (afterDelim line) (cnt + 1) hline.afterDelim (by omega)
        (fun x hx => hshort x (by rw [hf]; rw [hfa] at hx; simp [hx])), hfa, hf]
      simp only [List.map_cons, Prod.mk.injEq, true_and]
      omega

theorem fields_total (line : List Nat) :
    ((fields line).map List.length).sum + delimCount line = line.length := by
  induction line with
  | nil => simp [fields, delimCount]
  | cons c line ih =>
    obtain ⟨f, fs, hf⟩ := fields_cases line
    by_cases hd : isDelim c = true
    · rw [fields_cons_delim c line hd]
      simp only [delimCount, List.filter_cons, hd, if_true, List.length_cons, List.map_cons,
        List.sum_cons, List.length_nil] at ih ⊢
      omega
    · have hd2 : isDelim c = false := by simpa using hd
      rw [fields_cons_char c line f fs hd2 hf]
      rw [hf] at ih
      simp only [delimCount, List.filter_cons, hd2, Bool.false_eq_true, if_false,
        List.length_cons, List.map_cons, List.sum_cons] at ih ⊢
      omega

/-- C18. A call of `parse` with the delimiters `",*"` and a buffer of size `n`, on a text
whose first delimiter or terminator (NUL, CR, LF, or the end of the text) stands after
fewer than `n` characters, stores these characters and a NUL, and returns the pointer
after a delimiter and NULL at a terminator. Hence the repeated calls of `parse` on a
sentence whose fields are all shorter than `n` store the fields of the sentence in order,
the runs of characters between its delimiters, each with its NUL; no field has a delimiter
in it, the fields and the delimiters make up the sentence, and the number of calls that do
not return NULL is the number of delimiters. -/
theorem parse_tokenizes (n : Nat) :
    (∀ (pre post : List Nat) (c : Nat),
      (∀ x ∈ pre, isDelim x = false ∧ isEnd x = false) → pre.length < n →
      isDelim c = true ∨ isEnd c = true →
        parse (pre ++ c :: post) n delims
          = (pre ++ [0], if isDelim c = true then some post else none)) ∧
    (∀ pre : List Nat,
      (∀ x ∈ pre, isDelim x = false ∧ isEnd x = false) → pre.length < n →
        parse pre n delims = (pre ++ [0], none)) ∧
    (∀ line : List Nat, NoEnd line → (∀ f ∈ fields line, f.length < n) →
      parseRepeat (line.length + 1) (line ++ [0]) n 0
          = ((fields line).map (fun f => f ++ [0]), delimCount line) ∧
        (∀ f ∈ fields line, ∀ x ∈ f, isDelim x = false) ∧
        (fields line).length = delimCount line + 1 ∧
        ((fields line).map List.length).sum + delimCount line = line.length) := by
  refine ⟨fun pre post c hpre hn hc => parse_run pre post c n hpre hn hc,
    fun pre hpre hn => parse_run_end pre n hpre hn, ?_⟩
  intro line hline hshort
  have h := parseRepeat_fields (line.length + 1) line [] n 0 hline (by omega) hshort
  rw [Nat.zero_add] at h
  exact ⟨h, fun f hf x hx => (fields_mem line f hf x hx).2, fields_length line,
    fields_total line⟩

/-- C18 at the sentence of the reference manual and the size of a field of `plist`: the
calls of `parse` store its 16 fields, and 15 of them do not return NULL. -/
theorem parse_tokenizes_witness :
    NoEnd ggaExample ∧ (∀ f ∈ fields ggaExample, f.length < PARAM_TXTMAXLEN) ∧
      parseRepeat (ggaExample.length + 1) (ggaExample ++ [0]) PARAM_TXTMAXLEN 0
        = ((fields ggaExample).map (fun f => f ++ [0]), 15) := by
  have hline : NoEnd ggaExample := by
    unfold NoEnd
    decide
  have hshort : ∀ f ∈ fields ggaExample, f.length < PARAM_TXTMAXLEN := by decide
  exact ⟨hline, hshort, ((parse_tokenizes PARAM_TXTMAXLEN).2.2 ggaExample hline hshort).1⟩

/-! ## The round trip of GSA (C14) -/

/-- C14. For a selection mode `A` or `M` and a fix 1, 2 or 3, on every sentence with a
right check sum whose first three fields are `$GPGSA`, the mode and the digit of the fix,
that has 18 delimiters and fields all shorter than `PARAM_TXTMAXLEN`, `processing` with
`cbfunc_gsa` registered returns true, and after the call of the log callback its one event
is the call of `cbfunc_gsa` with the record of that mode and that fix. -/
theorem gsa_round_trip {D : Type} (scanLf : List Nat → Option D) (stack0 : Plist)
    (cb : gps_callback_t) (line : List Nat) (eol : Int) (rest : List Int)
    (selmode fix : Nat) (hline : IsLine line) (heol : eol = 13 ∨ eol = 10)
    (hpass : checkSum (line ++ [0]) = .ok none)
    (hid : field line 0 = txt "$GPGSA")
    (hsel : field line 1 = [selmode]) (hselv : selmode = 65 ∨ selmode = 77)
    (hfix : field line 2 = [48 + fix]) (hfixv : fix = 1 ∨ fix = 2 ∨ fix = 3)
    (hcount : delimCount line = 18)
    (hshort : ∀ f ∈ fields line, f.length < PARAM_TXTMAXLEN)
    (hcb : cb.cbfunc_gsa = true) :
    processing scanLf stack0 (some cb) (lineStream line eol rest)
      = { ret := .ok true,
          events := logged cb line ++ [Event.gsa { selmode := selmode, fix := (fix : Int) }],
          ser := rest } := by
  obtain ⟨plist, htok⟩ := tokenize_short stack0 line hline.noEnd hshort
    (by rw [hcount]; decide)
  rw [hcount] at htok
  obtain ⟨-, -, -, r1, -⟩ := tokenize_row stack0 line 18 plist hline.noEnd htok 1 (by omega)
  obtain ⟨-, -, -, -, t2, e2⟩ := tokenize_row stack0 line 18 plist hline.noEnd htok 2 (by omega)
  have hp10 : plist 1 0 = selmode := by
    have := r1 0 (by simp)
    rw [hsel] at this
    simpa using this
  have hatoi : atoi (plistAt plist 2) = .ok (fix : Int) := by
    rw [e2, atoi_string, hfix]
    rcases hfixv with rfl | rfl | rfl <;> decide
  have hdec : parseAndCallbackGSA (D := D) stack0 (line ++ [0]) cb
      = .ok (0, [Event.gsa { selmode := selmode, fix := (fix : Int) }]) := by
    unfold parseAndCallbackGSA
    have hs : ¬ (selmode ≠ 65 ∧ selmode ≠ 77) := by omega
    have hf : ¬ ((fix : Int) ≠ 1 ∧ (fix : Int) ≠ 2 ∧ (fix : Int) ≠ 3) := by omega
    simp only [hcb, Bool.true_eq_false, if_false, htok, Res.bind, if_true, hp10, hatoi, hs, hf]
  have hd : dispatch scanLf stack0 (line ++ [0]) cb
      = .ok (0, [Event.gsa { selmode := selmode, fix := (fix : Int) }]) := by
    rw [dispatch_of_pass scanLf stack0 cb line hline hpass, hid, if_neg (by decide),
      if_pos rfl, hdec]
  rw [processing_of_dispatch scanLf stack0 cb line eol rest 0 _ hline heol hpass hd]
  simp

/-- C14 at the sentence `gsaUpper`, of mode `A` and fix 3. -/
theorem gsa_round_trip_witness :
    IsLine gsaUpper ∧ delimCount gsaUpper = 18 ∧
      processing scanDecimal zeroStack (some allCallbacks) (lineStream gsaUpper 13 [10])
        = { ret := .ok true,
            events := logged allCallbacks gsaUpper ++ [Event.gsa { selmode := 65, fix := 3 }],
            ser := [10] } :=
  ⟨by decide, by decide,
   gsa_round_trip scanDecimal zeroStack allCallbacks gsaUpper 13 [10] 65 3 (by decide)
     (by decide) (by decide) (by decide) (by decide) (by decide) (by decide) (by decide)
     (by decide) (by decide) rfl⟩

/-! ## The members of the records (C11, C12, C13) -/

theorem row_atoi (stack0 : Plist) (line : List Nat) (n : Nat) (plist : Plist)
    (hline : NoEnd line) (h : tokenize stack0 (line ++ [0]) = .ok (n, plist))
    (r : Nat) (hr : r < n) :
    atoi (plistAt plist r) = atoi (field line r ++ [0]) := by
  obtain ⟨-, -, -, -, t, e⟩ := tokenize_row stack0 line n plist hline h r hr
  rw [e, atoi_string]

theorem row_char (stack0 : Plist) (line : List Nat) (n : Nat) (plist : Plist)
    (hline : NoEnd line) (h : tokenize stack0 (line ++ [0]) = .ok (n, plist))
    (r : Nat) (hr : r < n) :
    sscanfChar (plistAt plist r) = .ok (field line r).head? := by
  obtain ⟨-, -, -, -, t, e⟩ := tokenize_row stack0 line n plist hline h r hr
  rw [e, sscanfChar_string _ _ (fun c hc => (hline c (field_chars line r c hc).1).1)]

theorem rowFrom_congr (p q : Plist) (r : Nat) (h : p r = q r) (c n : Nat) :
    rowFrom p r c n = rowFrom q r c n := by
  induction n generalizing c with
  | zero => rfl
  | succ n ih => simp only [rowFrom, h, ih]

theorem rowsFrom_congr (p q : Plist) (r n : Nat) (h : ∀ k, r ≤ k → p k = q k) :
    rowsFrom p r n = rowsFrom q r n := by
  induction n generalizing r with
  | zero => rfl
  | succ n ih =>
    simp only [rowsFrom]
    rw [rowFrom_congr p q r (h r (le_refl _)), ih (r + 1) (fun k hk => h k (by omega))]

/-- The rows above the final count of the tokenizing loop are as the stack left them. -/
theorem tokenize_above (stack0 : Plist) (line : List Nat) (n : Nat) (plist : Plist)
    (hline : NoEnd line) (h : tokenize stack0 (line ++ [0]) = .ok (n, plist))
    (r : Nat) (hr : n < r) : plistAt plist r = plistAt stack0 r := by
  rw [tokenize_fuel stack0 line [] hline] at h
  obtain ⟨-, -, -, -, a5, -⟩ := tokenizeFields_spec (fields line) 0 stack0 n plist
    (fields_ne_nil line) h
  exact rowsFrom_congr _ _ _ _ (fun k hk => a5 k (Or.inr (by omega)))

/-- C12. The code on an accepted GGA sentence: the altitude of the record is the number
that `atoi` reads in field 11 and its unit is the first character of field 12, for the
decoder stores the number of field 9 in `altitude` and then overwrites it, and never reads
the unit of field 10 into the record. On the sentence `ggaGeoid`, whose field 9 is `9.0`
and whose field 11, the separation of the geoid, is `-34.2`, the altitude delivered is
-34, where the claim has it be 9. -/
theorem gga_altitude_overwritten {D : Type} (scanLf : List Nat → Option D) (stack0 : Plist)
    (cb : gps_callback_t) (line : List Nat) (eol : Int) (rest : List Int)
    (hline : IsLine line) (heol : eol = 13 ∨ eol = 10) (p : gps_gga_t D)
    (hp : Event.gga p ∈ (processing scanLf stack0 (some cb) (lineStream line eol rest)).events) :
    (atoi (field line 11 ++ [0]) = .ok p.altitude ∧
      (field line 12).head? = some p.altitude_unit) ∧
    (field ggaGeoid 9 = txt "9.0" ∧ atoi (field ggaGeoid 9 ++ [0]) = .ok 9 ∧
      field ggaGeoid 10 = txt "M" ∧ field ggaGeoid 11 = txt "-34.2" ∧
      processing scanDecimal zeroStack (some allCallbacks) (lineStream ggaGeoid 13 [10])
        = { ret := .ok true,
            events := [Event.log ggaGeoid, Event.gga ggaGeoidRecord],
            ser := [10] } ∧
      ggaGeoidRecord.altitude = -34) := by
  refine ⟨?_, by decide⟩
  have hdec := gga_event_inv scanLf stack0 cb line eol rest hline heol p hp
  rcases parseAndCallbackGGA_inv scanLf stack0 _ cb 0 _ hdec with ⟨h0, -⟩ |
    ⟨-, -, plist, lat, ns, lon, ew, pf, su, hdop, a9, alt, au, htok, -, -, -, -, -,
      -, -, -, -, -, -, halt, hau, hev⟩
  · exact absurd rfl h0
  simp only [List.cons.injEq, Event.gga.injEq, and_true] at hev
  subst hev
  rw [row_atoi stack0 line 15 plist hline.noEnd htok 11 (by omega)] at halt
  rw [row_char stack0 line 15 plist hline.noEnd htok 12 (by omega)] at hau
  simp only [Res.ok.injEq] at hau
  exact ⟨halt, hau⟩

/-- C12 at the sentence `ggaGeoid`: its record has the number of field 11 as altitude. -/
theorem gga_altitude_overwritten_witness :
    IsLine ggaGeoid ∧ atoi (field ggaGeoid 11 ++ [0]) = .ok ggaGeoidRecord.altitude ∧
      (field ggaGeoid 12).head? = some ggaGeoidRecord.altitude_unit :=
  ⟨by decide,
   (gga_altitude_overwritten scanDecimal zeroStack allCallbacks ggaGeoid 13 [10] (by decide)
      (by decide) ggaGeoidRecord (by decide)).1⟩

/-- The claim C11 fails on the code: field 6 of the sentence `ggaNoFix`, the position
fix, is empty, and `processing` returns true and calls `cbfunc_gga` with a record whose
position fix is 0. -/
theorem numeric_default_counterexample :
    checkSum (ggaNoFix ++ [0]) = .ok none ∧ delimCount ggaNoFix = 15 ∧
      field ggaNoFix 6 = [] ∧
      processing scanDecimal zeroStack (some allCallbacks) (lineStream ggaNoFix 13 [10])
        = { ret := .ok true,
            events := [Event.log ggaNoFix,
              Event.gga { ggaAcceptedRecord with position_fix := 0 }],
            ser := [10] } := by
  decide

/-- The function `atoi` gives 0 on a text that has no number. -/
theorem atoi_noNumber (f : List Nat) (h : noNumber f = true) : atoi (f ++ [0]) = .ok 0 := by
  induction f with
  | nil => decide
  | cons c f ih =>
    unfold noNumber at h
    simp only [skipSpace] at h
    by_cases hs : isspace c = true
    · simp only [hs, if_true] at h
      simp only [List.cons_append, atoi, hs, if_true]
      exact ih (by unfold noNumber; exact h)
    · simp only [hs, Bool.false_eq_true, if_false] at h
      simp only [List.cons_append, atoi, hs, Bool.false_eq_true, if_false, List.append_eq]
      by_cases h45 : c = 45
      · subst h45
        cases f with
        | nil => decide
        | cons d f =>
          simp at h
          simp [atoiSigned, atoiDigits, h]
      · by_cases h43 : c = 43
        · subst h43
          cases f with
          | nil => decide
          | cons d f =>
            simp at h
            simp [atoiSigned, atoiDigits, h]
        · simp [h45, h43] at h
          simp [atoiSigned, atoiDigits, h, h45, h43]

/-- After the tokenizing loop on a line whose fields are all shorter than
`PARAM_TXTMAXLEN`, the row of the final count has the last field and its NUL. -/
theorem tokenize_last (stack0 : Plist) (line : List Nat) (n : Nat) (plist : Plist)
    (hline : NoEnd line) (hshort : ∀ f ∈ fields line, f.length < PARAM_TXTMAXLEN)
    (h : tokenize stack0 (line ++ [0]) = .ok (n, plist)) :
    ∃ t, plistAt plist n = field line n ++ 0 :: t := by
  rw [tokenize_fuel stack0 line [] hline] at h
  obtain ⟨-, a2, a3, -, -, a6, -⟩ := tokenizeFields_spec (fields line) 0 stack0 n plist
    (fields_ne_nil line) h
  simp only [Nat.sub_zero] at a3 a6
  have hf : (field line n).length < PARAM_TXTMAXLEN :=
    hshort _ (field_mem_fields line n a3)
  obtain ⟨-, hrow⟩ := a6 hf
  obtain ⟨t, ht⟩ := plistAt_of_rowHas plist n (field line n ++ [0]) hrow a2
    (by simp only [List.length_append, List.length_cons, List.length_nil]; exact hf)
  refine ⟨t, ?_⟩
  rw [ht]
  simp

theorem row_lf {D : Type} (scanLf : List Nat → Option D) (stack0 : Plist) (line : List Nat)
    (n : Nat) (plist : Plist)
    (hline : NoEnd line) (h : tokenize stack0 (line ++ [0]) = .ok (n, plist))
    (r : Nat) (hr : r < n) :
    sscanfLf scanLf (plistAt plist r) = .ok (scanLf (field line r)) := by
  obtain ⟨-, -, -, -, t, e⟩ := tokenize_row stack0 line n plist hline h r hr
  unfold sscanfLf
  rw [e, cstr_string _ _ (fun c hc => (hline c (field_chars line r c hc).1).1)]

theorem row_strcmp (stack0 : Plist) (line : List Nat) (n : Nat) (plist : Plist)
    (hline : NoEnd line) (h : tokenize stack0 (line ++ [0]) = .ok (n, plist))
    (r : Nat) (hr : r < n) (lit : List Nat) (hl : ∀ c ∈ lit, c ≠ 0) :
    strcmpEq (plistAt plist r) lit = .ok (decide (field line r = lit)) := by
  obtain ⟨-, -, -, -, t, e⟩ := tokenize_row stack0 line n plist hline h r hr
  rw [e, strcmpEq_string _ _ _ (fun c hc => (hline c (field_chars line r c hc).1).1) hl]

theorem isOk_eq {α : Type} {x : Res α} (h : x.isOk = true) : ∃ v, x = .ok v := by
  cases x with
  | ok v => exact ⟨v, rfl⟩
  | ub f => simp [Res.isOk] at h

/-- The GGA decoder on a sentence of 15 delimiters and short fields that passes its tests
of the fields 2, 3, 4, 5, 8, 10 and 12: whatever `atoi` reads in the fields 6, 7, 9 and 11,
it calls `cbfunc_gga` and returns 0. -/
theorem gga_decoder_accepts {D : Type} (scanLf : List Nat → Option D) (stack0 : Plist)
    (cb : gps_callback_t) (line : List Nat) (hline : NoEnd line)
    (hshort : ∀ f ∈ fields line, f.length < PARAM_TXTMAXLEN)
    (hfit : ∀ f ∈ fields line, (atoi (f ++ [0])).isOk = true)
    (hcb : cb.cbfunc_gga = true) (hcount : delimCount line = 15)
    (h2 : (scanLf (field line 2)).isSome = true)
    (h3 : (field line 3).head? = some 78 ∨ (field line 3).head? = some 83)
    (h4 : (scanLf (field line 4)).isSome = true)
    (h5 : (field line 5).head? = some 69 ∨ (field line 5).head? = some 87)
    (h8 : (scanLf (field line 8)).isSome = true)
    (h10 : field line 10 = txt "M") (h12 : field line 12 ≠ []) :
    ∃ p, parseAndCallbackGGA scanLf stack0 (line ++ [0]) cb = .ok (0, [Event.gga p]) ∧
      atoi (field line 6 ++ [0]) = .ok p.position_fix ∧
      atoi (field line 7 ++ [0]) = .ok p.satellites_used := by
  obtain ⟨plist, htok⟩ := tokenize_short stack0 line hline hshort (by rw [hcount]; decide)
  rw [hcount] at htok
  have hlen := fields_length line
  have hmem : ∀ k, k < 16 → field line k ∈ fields line :=
    fun k hk => field_mem_fields line k (by omega)
  obtain ⟨lat, e2⟩ := Option.isSome_iff_exists.mp h2
  obtain ⟨lon, e4⟩ := Option.isSome_iff_exists.mp h4
  obtain ⟨hdop, e8⟩ := Option.isSome_iff_exists.mp h8
  obtain ⟨ns, e3, hns⟩ : ∃ ns, (field line 3).head? = some ns ∧ ¬ (ns ≠ 78 ∧ ns ≠ 83) := by
    rcases h3 with h | h
    · exact ⟨78, h, by omega⟩
    · exact ⟨83, h, by omega⟩
  obtain ⟨ew, e5, hew⟩ : ∃ ew, (field line 5).head? = some ew ∧ ¬ (ew ≠ 69 ∧ ew ≠ 87) := by
    rcases h5 with h | h
    · exact ⟨69, h, by omega⟩
    · exact ⟨87, h, by omega⟩
  obtain ⟨au, e12⟩ : ∃ au, (field line 12).head? = some au := by
    cases h : field line 12 with
    | nil => exact absurd h h12
    | cons a t => exact ⟨a, rfl⟩
  obtain ⟨pf, e6⟩ := isOk_eq (hfit _ (hmem 6 (by omega)))
  obtain ⟨su, e7⟩ := isOk_eq (hfit _ (hmem 7 (by omega)))
  obtain ⟨a9, e9⟩ := isOk_eq (hfit _ (hmem 9 (by omega)))
  obtain ⟨a11, e11⟩ := isOk_eq (hfit _ (hmem 11 (by omega)))
  refine ⟨{ hour := twoDigits (plist 1 0) (plist 1 1),
            min := twoDigits (plist 1 2) (plist 1 3),
            sec := twoDigits (plist 1 4) (plist 1 5),
            latitude := lat, ns := ns, longitude := lon, ew := ew,
            position_fix := pf, satellites_used := su,
            hdop := hdop, altitude := a11, altitude_unit := au }, ?_, e6, e7⟩
  unfold parseAndCallbackGGA
  simp only [hcb, Bool.true_eq_false, if_false, htok, Res.bind, if_true,
    row_lf scanLf stack0 line 15 plist hline htok 2 (by omega),
    row_lf scanLf stack0 line 15 plist hline htok 4 (by omega),
    row_lf scanLf stack0 line 15 plist hline htok 8 (by omega),
    row_char stack0 line 15 plist hline htok 3 (by omega),
    row_char stack0 line 15 plist hline htok 5 (by omega),
    row_char stack0 line 15 plist hline htok 12 (by omega),
    row_atoi stack0 line 15 plist hline htok 6 (by omega),
    row_atoi stack0 line 15 plist hline htok 7 (by omega),
    row_atoi stack0 line 15 plist hline htok 9 (by omega),
    row_atoi stack0 line 15 plist hline htok 11 (by omega),
    row_strcmp stack0 line 15 plist hline htok 10 (by omega) (txt "M") (by decide),
    e2, e3, e4, e5, e6, e7, e8, e9, e11, e12, h10, hns, hew, decide_True]

/-- The GSV decoder on a sentence of 20 delimiters and short fields whose last field is
two hexadecimal digits: whatever `atoi` reads in its fields, it calls `cbfunc_gsv` and
returns 0. -/
theorem gsv_decoder_accepts {D : Type} (stack0 : Plist)
    (cb : gps_callback_t) (line : List Nat) (hline : NoEnd line)
    (hshort : ∀ f ∈ fields line, f.length < PARAM_TXTMAXLEN)
    (hfit : ∀ f ∈ fields line, (atoi (f ++ [0])).isOk = true)
    (hstack : ∀ r ∈ [28, 40], (atoi (plistAt stack0 r)).isOk = true)
    (hcb : cb.cbfunc_gsv = true) (hcount : delimCount line = 20)
    (h20 : ∃ c1 c2, field line 20 = [c1, c2] ∧ (hexval c1).isSome = true ∧
      (hexval c2).isSome = true) :
    ∃ p, parseAndCallbackGSV (D := D) stack0 (line ++ [0]) cb = .ok (0, [Event.gsv p]) ∧
      atoi (field line 1 ++ [0]) = .ok p.msgcnt ∧
      atoi (field line 2 ++ [0]) = .ok p.msgnum ∧
      atoi (field line 3 ++ [0]) = .ok p.satcnt ∧
      ∃ s ss, p.satellite = s :: ss ∧ atoi (field line 4 ++ [0]) = .ok s.num := by
  obtain ⟨plist, htok⟩ := tokenize_short stack0 line hline hshort (by rw [hcount]; decide)
  rw [hcount] at htok
  have hlen := fields_length line
  have hmem : ∀ k, k < 21 → field line k ∈ fields line :=
    fun k hk => field_mem_fields line k (by omega)
  obtain ⟨c1, c2, f20, hc1, hc2⟩ := h20
  obtain ⟨a, ha⟩ := Option.isSome_iff_exists.mp hc1
  obtain ⟨b, hb⟩ := Option.isSome_iff_exists.mp hc2
  obtain ⟨t20, r20⟩ := tokenize_last stack0 line 20 plist hline hshort htok
  have r28 := tokenize_above stack0 line 20 plist hline htok 28 (by omega)
  have r40 := tokenize_above stack0 line 20 plist hline htok 40 (by omega)
  obtain ⟨v1, e1⟩ := isOk_eq (hfit _ (hmem 1 (by omega)))
  obtain ⟨v2, e2⟩ := isOk_eq (hfit _ (hmem 2 (by omega)))
  obtain ⟨v3, e3⟩ := isOk_eq (hfit _ (hmem 3 (by omega)))
  obtain ⟨v4, e4⟩ := isOk_eq (hfit _ (hmem 4 (by omega)))
  obtain ⟨v8, e8⟩ := isOk_eq (hfit _ (hmem 8 (by omega)))
  obtain ⟨v12, e12⟩ := isOk_eq (hfit _ (hmem 12 (by omega)))
  obtain ⟨v16, e16⟩ := isOk_eq (hfit _ (hmem 16 (by omega)))
  obtain ⟨v20, e20⟩ := isOk_eq (hfit _ (hmem 20 (by omega)))
  obtain ⟨v28, e28⟩ := isOk_eq (hstack 28 (by simp))
  obtain ⟨v40, e40⟩ := isOk_eq (hstack 40 (by simp))
  have q4 : atoi (plistAt plist 4) = .ok v4 := by
    rw [row_atoi stack0 line 20 plist hline htok 4 (by omega), e4]
  have q8 : atoi (plistAt plist 8) = .ok v8 := by
    rw [row_atoi stack0 line 20 plist hline htok 8 (by omega), e8]
  have q12 : atoi (plistAt plist 12) = .ok v12 := by
    rw [row_atoi stack0 line 20 plist hline htok 12 (by omega), e12]
  have q16 : atoi (plistAt plist 16) = .ok v16 := by
    rw [row_atoi stack0 line 20 plist hline htok 16 (by omega), e16]
  have q20 : atoi (plistAt plist 20) = .ok v20 := by
    rw [r20, atoi_string, e20]
  have q28 : atoi (plistAt plist 28) = .ok v28 := by rw [r28, e28]
  have q40 : atoi (plistAt plist 40) = .ok v40 := by rw [r40, e40]
  have x20 : sscanfHex (plistAt plist 20) = .ok (some (16 * a + b)) := by
    rw [r20, f20]
    exact sscanfHex_two t20 ha hb
  have s0 : gsvSatellite plist 0
      = .ok { num := v4, elevation := v4, azimuth := v4, snr := v4 } := by
    unfold gsvSatellite
    change ((atoi (plistAt plist 4)).bind fun num => (atoi (plistAt plist 4)).bind
      fun elevation => (atoi (plistAt plist 4)).bind fun azimuth =>
      (atoi (plistAt plist 4)).bind fun snr => _) = _
    simp only [q4, Res.bind]
  have s1 : gsvSatellite plist 1
      = .ok { num := v4, elevation := v8, azimuth := v12, snr := v16 } := by
    unfold gsvSatellite
    change ((atoi (plistAt plist 4)).bind fun num => (atoi (plistAt plist 8)).bind
      fun elevation => (atoi (plistAt plist 12)).bind fun azimuth =>
      (atoi (plistAt plist 16)).bind fun snr => _) = _
    simp only [q4, q8, q12, q16, Res.bind]
  have s2 : gsvSatellite plist 2
      = .ok { num := v4, elevation := v12, azimuth := v20, snr := v28 } := by
    unfold gsvSatellite
    change ((atoi (plistAt plist 4)).bind fun num => (atoi (plistAt plist 12)).bind
      fun elevation => (atoi (plistAt plist 20)).bind fun azimuth =>
      (atoi (plistAt plist 28)).bind fun snr => _) = _
    simp only [q4, q12, q20, q28, Res.bind]
  have s3 : gsvSatellite plist 3
      = .ok { num := v4, elevation := v16, azimuth := v28, snr := v40 } := by
    unfold gsvSatellite
    change ((atoi (plistAt plist 4)).bind fun num => (atoi (plistAt plist 16)).bind
      fun elevation => (atoi (plistAt plist 28)).bind fun azimuth =>
      (atoi (plistAt plist 40)).bind fun snr => _) = _
    simp only [q4, q16, q28, q40, Res.bind]
  refine ⟨{ msgcnt := v1, msgnum := v2, satcnt := v3,
            satellite := [{ num := v4, elevation := v4, azimuth := v4, snr := v4 },
              { num := v4, elevation := v8, azimuth := v12, snr := v16 },
              { num := v4, elevation := v12, azimuth := v20, snr := v28 },
              { num := v4, elevation := v16, azimuth := v28, snr := v40 }] },
    ?_, e1, e2, e3, _, _, rfl, e4⟩
  unfold parseAndCallbackGSV
  simp only [hcb, Bool.true_eq_false, if_false, htok, Res.bind, if_true,
    row_atoi stack0 line 20 plist hline htok 1 (by omega),
    row_atoi stack0 line 20 plist hline htok 2 (by omega),
    row_atoi stack0 line 20 plist hline htok 3 (by omega),
    e1, e2, e3, s0, s1, s2, s3, x20]

/-- The GSA decoder on a sentence of 18 delimiters and short fields whose field 2 has no
number: it returns a value that is not 0 and calls nothing. -/
theorem gsa_decoder_no_number {D : Type} (stack0 : Plist)
    (cb : gps_callback_t) (line : List Nat) (hline : NoEnd line)
    (hshort : ∀ f ∈ fields line, f.length < PARAM_TXTMAXLEN)
    (hcount : delimCount line = 18) (h2 : noNumber (field line 2) = true) :
    ∃ res, res ≠ 0 ∧ parseAndCallbackGSA (D := D) stack0 (line ++ [0]) cb = .ok (res, []) := by
  obtain ⟨plist, htok⟩ := tokenize_short stack0 line hline hshort (by rw [hcount]; decide)
  rw [hcount] at htok
  have q2 : atoi (plistAt plist 2) = .ok 0 := by
    rw [row_atoi stack0 line 18 plist hline htok 2 (by omega), atoi_noNumber _ h2]
  unfold parseAndCallbackGSA
  by_cases hcb : cb.cbfunc_gsa = false
  · exact ⟨-1, by decide, by simp [hcb]⟩
  · by_cases hsel : plist 1 0 ≠ 65 ∧ plist 1 0 ≠ 77
    · exact ⟨-2, by decide, by simp [hcb, htok, Res.bind, hsel]⟩
    · exact ⟨-3, by decide, by simp [hcb, htok, Res.bind, hsel, q2]⟩

/-- C11, amended. The decoders read the integers of a sentence with `atoi`, which gives 0
on a field that has no number (it is empty, or no digit follows its white space and sign),
and they test none of these values but the fix of GSA. So such a field makes no decoder
fail but the one of GSA. A record of GGA has the numbers of fields 6 and 7 as position fix
and satellites used, a record of GSV those of fields 1, 2, 3 and 4 as message count,
message index, satellites in view and number of its first satellite, and a record of GSA the
number of field 2, which is 1, 2 or 3, as fix. On a sentence with a right check sum and
fields shorter than `PARAM_TXTMAXLEN`: a GGA sentence of 15 delimiters that passes the
tests of fields 2, 3, 4, 5, 8, 10 and 12 gives its record and `processing` returns true,
whatever its fields 6, 7, 9 and 11 hold, a number that fits an `int` or none; so does a
GSV sentence of 20
delimiters whose last field is two hexadecimal digits, when `atoi` is defined on what
the stack left in the rows 28 and 40 that the decoder reads; and a GSA sentence of 18
delimiters whose field 2 has no number gives no record and `processing` returns false. -/
theorem integer_fields_unchecked {D : Type} (scanLf : List Nat → Option D) (stack0 : Plist)
    (cb : gps_callback_t) (line : List Nat) (eol : Int) (rest : List Int)
    (hline : IsLine line) (heol : eol = 13 ∨ eol = 10) :
    (∀ f, noNumber f = true → atoi (f ++ [0]) = .ok 0) ∧
    (∀ p, Event.gga p ∈ (processing scanLf stack0 (some cb) (lineStream line eol rest)).events →
      atoi (field line 6 ++ [0]) = .ok p.position_fix ∧
      atoi (field line 7 ++ [0]) = .ok p.satellites_used) ∧
    (∀ p, Event.gsv p ∈ (processing scanLf stack0 (some cb) (lineStream line eol rest)).events →
      atoi (field line 1 ++ [0]) = .ok p.msgcnt ∧
      atoi (field line 2 ++ [0]) = .ok p.msgnum ∧
      atoi (field line 3 ++ [0]) = .ok p.satcnt ∧
      ∃ s ss, p.satellite = s :: ss ∧ atoi (field line 4 ++ [0]) = .ok s.num) ∧
    (∀ p, Event.gsa p ∈ (processing scanLf stack0 (some cb) (lineStream line eol rest)).events →
      atoi (field line 2 ++ [0]) = .ok p.fix ∧ (p.fix = 1 ∨ p.fix = 2 ∨ p.fix = 3) ∧
      noNumber (field line 2) = false) ∧
    (checkSum (line ++ [0]) = .ok none →
      (∀ f ∈ fields line, f.length < PARAM_TXTMAXLEN) →
      (∀ f ∈ fields line, (atoi (f ++ [0])).isOk = true) →
      field line 0 = txt "$GPGGA" → cb.cbfunc_gga = true → delimCount line = 15 →
      (scanLf (field line 2)).isSome = true →
      ((field line 3).head? = some 78 ∨ (field line 3).head? = some 83) →
      (scanLf (field line 4)).isSome = true →
      ((field line 5).head? = some 69 ∨ (field line 5).head? = some 87) →
      (scanLf (field line 8)).isSome = true →
      field line 10 = txt "M" → field line 12 ≠ [] →
      ∃ p, processing scanLf stack0 (some cb) (lineStream line eol rest)
          = { ret := .ok true, events := logged cb line ++ [Event.gga p], ser := rest } ∧
        atoi (field line 6 ++ [0]) = .ok p.position_fix ∧
        atoi (field line 7 ++ [0]) = .ok p.satellites_used) ∧
    (checkSum (line ++ [0]) = .ok none →
      (∀ f ∈ fields line, f.length < PARAM_TXTMAXLEN) →
      (∀ f ∈ fields line, (atoi (f ++ [0])).isOk = true) →
      (∀ r ∈ [28, 40], (atoi (plistAt stack0 r)).isOk = true) →
      field line 0 = txt "$GPGSV" → cb.cbfunc_gsv = true → delimCount line = 20 →
      (∃ c1 c2, field line 20 = [c1, c2] ∧ (hexval c1).isSome = true ∧
        (hexval c2).isSome = true) →
      ∃ p, processing scanLf stack0 (some cb) (lineStream line eol rest)
          = { ret := .ok true, events := logged cb line ++ [Event.gsv p], ser := rest } ∧
        atoi (field line 1 ++ [0]) = .ok p.msgcnt ∧
        atoi (field line 2 ++ [0]) = .ok p.msgnum ∧
        atoi (field line 3 ++ [0]) = .ok p.satcnt ∧
        ∃ s ss, p.satellite = s :: ss ∧ atoi (field line 4 ++ [0]) = .ok s.num) ∧
    (checkSum (line ++ [0]) = .ok none →
      (∀ f ∈ fields line, f.length < PARAM_TXTMAXLEN) →
      field line 0 = txt "$GPGSA" → delimCount line = 18 →
      noNumber (field line 2) = true →
      processing scanLf stack0 (some cb) (lineStream line eol rest)
        = { ret := .ok false, events := logged cb line, ser := rest }) := by
  refine ⟨atoi_noNumber, ?_, ?_, ?_, ?_, ?_, ?_⟩
  · intro p hp
    have hdec := gga_event_inv scanLf stack0 cb line eol rest hline heol p hp
    rcases parseAndCallbackGGA_inv scanLf stack0 _ cb 0 _ hdec with ⟨h0, -⟩ |
      ⟨-, -, plist, lat, ns, lon, ew, pf, su, hdop, a9, alt, au, htok, -, -, -, -, -,
        -, hpf, hsu, -, -, -, -, -, hev⟩
    · exact absurd rfl h0
    simp only [List.cons.injEq, Event.gga.injEq, and_true] at hev
    subst hev
    rw [row_atoi stack0 line 15 plist hline.noEnd htok 6 (by omega)] at hpf
    rw [row_atoi stack0 line 15 plist hline.noEnd htok 7 (by omega)] at hsu
    exact ⟨hpf, hsu⟩
  · intro p hp
    have hdec := gsv_event_inv scanLf stack0 cb line eol rest hline heol p hp
    rcases parseAndCallbackGSV_inv (D := D) stack0 _ cb 0 _ hdec with ⟨h0, -⟩ |
      ⟨-, -, plist, msgcnt, msgnum, satcnt, s0, s1, s2, s3, chk, htok, h1, h2, h3, hs0, -, -,
        -, -, hev⟩
    · exact absurd rfl h0
    simp only [List.cons.injEq, Event.gsv.injEq, and_true] at hev
    subst hev
    rw [row_atoi stack0 line 20 plist hline.noEnd htok 1 (by omega)] at h1
    rw [row_atoi stack0 line 20 plist hline.noEnd htok 2 (by omega)] at h2
    rw [row_atoi stack0 line 20 plist hline.noEnd htok 3 (by omega)] at h3
    refine ⟨h1, h2, h3, s0, _, rfl, ?_⟩
    unfold gsvSatellite at hs0
    rw [bind_eq_ok] at hs0
    obtain ⟨num, hnum, hs0⟩ := hs0
    rw [bind_eq_ok] at hs0
    obtain ⟨e, -, hs0⟩ := hs0
    rw [bind_eq_ok] at hs0
    obtain ⟨a, -, hs0⟩ := hs0
    rw [bind_eq_ok] at hs0
    obtain ⟨s, -, hs0⟩ := hs0
    simp only [Res.ok.injEq] at hs0
    subst hs0
    have e4 : SATINFOFS + 0 * (0 * 4) = 4 := by decide
    rw [e4, row_atoi stack0 line 20 plist hline.noEnd htok 4 (by omega)] at hnum
    exact hnum
  · intro p hp
    have hdec := gsa_event_inv scanLf stack0 cb line eol rest hline heol p hp
    rcases parseAndCallbackGSA_inv (D := D) stack0 _ cb 0 _ hdec with ⟨h0, -⟩ |
      ⟨-, -, plist, fix, htok, -, hfix, hfixv, hev⟩
    · exact absurd rfl h0
    simp only [List.cons.injEq, Event.gsa.injEq, and_true] at hev
    subst hev
    rw [row_atoi stack0 line 18 plist hline.noEnd htok 2 (by omega)] at hfix
    refine ⟨hfix, hfixv, ?_⟩
    cases hno : noNumber (field line 2) with
    | false => rfl
    | true =>
      rw [atoi_noNumber _ hno] at hfix
      simp only [Res.ok.injEq] at hfix
      omega
  · intro hpass hshort hfit hid hcb hcount h2 h3 h4 h5 h8 h10 h12
    obtain ⟨p, hdec, e6, e7⟩ := gga_decoder_accepts scanLf stack0 cb line hline.noEnd hshort
      hfit hcb hcount h2 h3 h4 h5 h8 h10 h12
    have hd : dispatch scanLf stack0 (line ++ [0]) cb = .ok (0, [Event.gga p]) := by
      rw [dispatch_of_pass scanLf stack0 cb line hline hpass, if_pos hid, hdec]
    refine ⟨p, ?_, e6, e7⟩
    rw [processing_of_dispatch scanLf stack0 cb line eol rest 0 _ hline heol hpass hd]
    simp
  · intro hpass hshort hfit hstack hid hcb hcount h20
    obtain ⟨p, hdec, e1, e2, e3, e4⟩ := gsv_decoder_accepts (D := D) stack0 cb line
      hline.noEnd hshort hfit hstack hcb hcount h20
    have hd : dispatch scanLf stack0 (line ++ [0]) cb = .ok (0, [Event.gsv p]) := by
      rw [dispatch_of_pass scanLf stack0 cb line hline hpass, hid, if_neg (by decide),
        if_neg (by decide), if_neg (by decide), if_pos rfl, hdec]
    refine ⟨p, ?_, e1, e2, e3, e4⟩
    rw [processing_of_dispatch scanLf stack0 cb line eol rest 0 _ hline heol hpass hd]
    simp
  · intro hpass hshort hid hcount h2
    obtain ⟨res, hres, hdec⟩ := gsa_decoder_no_number (D := D) stack0 cb line hline.noEnd
      hshort hcount h2
    have hd : dispatch scanLf stack0 (line ++ [0]) cb = .ok (res, []) := by
      rw [dispatch_of_pass scanLf stack0 cb line hline hpass, hid, if_neg (by decide),
        if_pos rfl, hdec]
    rw [processing_of_dispatch scanLf stack0 cb line eol rest res [] hline heol hpass hd]
    simp [hres]

/-- C11, amended, at three sentences. The position fix (field 6) and the altitude
(field 9) of `ggaNoAltitude` are empty: its record is delivered. The message count (field 1) and field 8 of `gsvNoCount` are
empty: its record is delivered. The fix (field 2) of `gsaNoFix` is `-x`: no record is
delivered and `processing` returns false. -/
theorem integer_fields_unchecked_witness :
    (IsLine ggaNoAltitude ∧ noNumber (field ggaNoAltitude 6) = true ∧
      noNumber (field ggaNoAltitude 9) = true ∧
      ∃ p, processing scanDecimal zeroStack (some allCallbacks)
            (lineStream ggaNoAltitude 13 [10])
          = { ret := .ok true,
              events := logged allCallbacks ggaNoAltitude ++ [Event.gga p], ser := [10] } ∧
        atoi (field ggaNoAltitude 6 ++ [0]) = .ok p.position_fix ∧
        atoi (field ggaNoAltitude 7 ++ [0]) = .ok p.satellites_used) ∧
    (IsLine gsvNoCount ∧ noNumber (field gsvNoCount 1) = true ∧
      noNumber (field gsvNoCount 8) = true ∧
      ∃ p, processing scanDecimal zeroStack (some allCallbacks) (lineStream gsvNoCount 13 [10])
          = { ret := .ok true,
              events := logged allCallbacks gsvNoCount ++ [Event.gsv p], ser := [10] } ∧
        atoi (field gsvNoCount 1 ++ [0]) = .ok p.msgcnt ∧
        atoi (field gsvNoCount 2 ++ [0]) = .ok p.msgnum ∧
        atoi (field gsvNoCount 3 ++ [0]) = .ok p.satcnt ∧
        ∃ s ss, p.satellite = s :: ss ∧ atoi (field gsvNoCount 4 ++ [0]) = .ok s.num) ∧
    (IsLine gsaNoFix ∧ field gsaNoFix 2 = txt "-x" ∧
      processing scanDecimal zeroStack (some allCallbacks) (lineStream gsaNoFix 13 [10])
        = { ret := .ok false, events := logged allCallbacks gsaNoFix, ser := [10] }) :=
  ⟨⟨by decide, by decide, by decide,
    (integer_fields_unchecked scanDecimal zeroStack allCallbacks ggaNoAltitude 13 [10]
      (by decide) (by decide)).2.2.2.2.1 (by decide) (by decide) (by decide) (by decide) (by decide)
      (by decide) (by decide) (by decide) (by decide) (by decide) (by decide) (by decide)
      (by decide)⟩,
   ⟨by decide, by decide, by decide,
    (integer_fields_unchecked scanDecimal zeroStack allCallbacks gsvNoCount 13 [10]
      (by decide) (by decide)).2.2.2.2.2.1 (by decide) (by decide) (by decide) (by decide)
      (by decide) (by decide) (by decide) ⟨52, 49, by decide, by decide, by decide⟩⟩,
   ⟨by decide, by decide,
    (integer_fields_unchecked scanDecimal zeroStack allCallbacks gsaNoFix 13 [10]
      (by decide) (by decide)).2.2.2.2.2.2 (by decide) (by decide) (by decide) (by decide)
      (by decide)⟩⟩

theorem gsvSatellite_inv (plist : Plist) (i : Nat) (s : gps_gsv_satellite_t)
    (h : gsvSatellite plist i = .ok s) :
    atoi (plistAt plist (SATINFOFS + 0 * (i * 4))) = .ok s.num ∧
      atoi (plistAt plist (SATINFOFS + 1 * (i * 4))) = .ok s.elevation ∧
      atoi (plistAt plist (SATINFOFS + 2 * (i * 4))) = .ok s.azimuth ∧
      atoi (plistAt plist (SATINFOFS + 3 * (i * 4))) = .ok s.snr := by
  unfold gsvSatellite at h
  rw [bind_eq_ok] at h
  obtain ⟨a, ha, h⟩ := h
  rw [bind_eq_ok] at h
  obtain ⟨b, hb, h⟩ := h
  rw [bind_eq_ok] at h
  obtain ⟨c, hc, h⟩ := h
  rw [bind_eq_ok] at h
  obtain ⟨d, hd, h⟩ := h
  simp only [Res.ok.injEq] at h
  subst h
  exact ⟨ha, hb, hc, hd⟩

/-- C13. The code on an accepted GSV sentence. The message count, the message index and
the number of satellites in view are the numbers of fields 1, 2 and 3. But the member of
index `k` of `satellite[i]` is read in row `4 + k * (i * 4)` of `plist` and not in row
`4 + 4 * i + k`: with `a4`, `a8`, `a12`, `a16` the numbers of fields 4, 8, 12 and 16, the
four satellites are `(a4, a4, a4, a4)`, `(a4, a8, a12, a16)`, `(a4, a12, a20, g28)` and
`(a4, a16, g28, g40)`, where `a20` is the number in row 20, the last one that the loop
wrote, and `g28` and `g40` are what `atoi` reads in rows 28 and 40, which the loop never
wrote: they hold what the stack held before. On the sentence of the reference manual the
record delivered is not the one of the claim, and it changes with the stack. -/
theorem gsv_satellite_rows {D : Type} (scanLf : List Nat → Option D) (stack0 : Plist)
    (cb : gps_callback_t) (line : List Nat) (eol : Int) (rest : List Int)
    (hline : IsLine line) (heol : eol = 13 ∨ eol = 10) (p : gps_gsv_t)
    (hp : Event.gsv p ∈ (processing scanLf stack0 (some cb) (lineStream line eol rest)).events) :
    (atoi (field line 1 ++ [0]) = .ok p.msgcnt ∧ atoi (field line 2 ++ [0]) = .ok p.msgnum ∧
      atoi (field line 3 ++ [0]) = .ok p.satcnt ∧
      ∃ a4 a8 a12 a16 a20 g28 g40 : Int,
        atoi (field line 4 ++ [0]) = .ok a4 ∧ atoi (field line 8 ++ [0]) = .ok a8 ∧
        atoi (field line 12 ++ [0]) = .ok a12 ∧ atoi (field line 16 ++ [0]) = .ok a16 ∧
        atoi (plistAt stack0 28) = .ok g28 ∧ atoi (plistAt stack0 40) = .ok g40 ∧
        p.satellite =
          [{ num := a4, elevation := a4, azimuth := a4, snr := a4 },
           { num := a4, elevation := a8, azimuth := a12, snr := a16 },
           { num := a4, elevation := a12, azimuth := a20, snr := g28 },
           { num := a4, elevation := a16, azimuth := g28, snr := g40 }]) ∧
    (field gsvExample 4 = txt "07" ∧ field gsvExample 5 = txt "79" ∧
      field gsvExample 6 = txt "048" ∧ field gsvExample 7 = txt "42" ∧
      (fields gsvExample).length = 21 ∧
      processing scanDecimal zeroStack (some allCallbacks) (lineStream gsvExample 13 [10])
        = { ret := .ok true,
            events := [Event.log gsvExample, Event.gsv gsvExampleRecord],
            ser := [10] } ∧
      processing scanDecimal nineStack (some allCallbacks) (lineStream gsvExample 13 [10])
        = { ret := .ok true,
            events := [Event.log gsvExample, Event.gsv gsvExampleRecord9],
            ser := [10] }) := by
  refine ⟨?_, by decide⟩
  have hdec := gsv_event_inv scanLf stack0 cb line eol rest hline heol p hp
  rcases parseAndCallbackGSV_inv (D := D) stack0 _ cb 0 _ hdec with ⟨h0, -⟩ |
    ⟨-, -, plist, msgcnt, msgnum, satcnt, s0, s1, s2, s3, chk, htok, h1, h2, h3, hs0, hs1, hs2,
      hs3, -, hev⟩
  · exact absurd rfl h0
  simp only [List.cons.injEq, Event.gsv.injEq, and_true] at hev
  subst hev
  have hn := hline.noEnd
  rw [row_atoi stack0 line 20 plist hn htok 1 (by omega)] at h1
  rw [row_atoi stack0 line 20 plist hn htok 2 (by omega)] at h2
  rw [row_atoi stack0 line 20 plist hn htok 3 (by omega)] at h3
  obtain ⟨x0, y0, z0, w0⟩ := gsvSatellite_inv plist 0 s0 hs0
  obtain ⟨x1, y1, z1, w1⟩ := gsvSatellite_inv plist 1 s1 hs1
  obtain ⟨x2, y2, z2, w2⟩ := gsvSatellite_inv plist 2 s2 hs2
  obtain ⟨x3, y3, z3, w3⟩ := gsvSatellite_inv plist 3 s3 hs3
  have r4 := row_atoi stack0 line 20 plist hn htok 4 (by omega)
  have r8 := row_atoi stack0 line 20 plist hn htok 8 (by omega)
  have r12 := row_atoi stack0 line 20 plist hn htok 12 (by omega)
  have r16 := row_atoi stack0 line 20 plist hn htok 16 (by omega)
  have r28 := tokenize_above stack0 line 20 plist hn htok 28 (by omega)
  have r40 := tokenize_above stack0 line 20 plist hn htok 40 (by omega)
  change atoi (plistAt plist 4) = _ at x0 y0 z0 w0 x1 x2 x3
  change atoi (plistAt plist 8) = _ at y1
  change atoi (plistAt plist 12) = _ at z1 y2
  change atoi (plistAt plist 16) = _ at w1 y3
  change atoi (plistAt plist 20) = _ at z2
  change atoi (plistAt plist 28) = _ at w2 z3
  change atoi (plistAt plist 40) = _ at w3
  rw [r4] at x0 y0 z0 w0 x1 x2 x3
  rw [r8] at y1
  rw [r12] at z1 y2
  rw [r16] at w1 y3
  rw [r28] at w2 z3
  rw [r40] at w3
  have inj : ∀ {a b : Int} {r : Res Int}, r = .ok a → r = .ok b → a = b := by
    intro a b r ha hb
    rw [ha] at hb
    exact Res.ok.inj hb
  refine ⟨h1, h2, h3, s0.num, s1.elevation, s1.azimuth, s1.snr, s2.azimuth, s2.snr, s3.snr,
    x0, y1, z1, w1, w2, w3, ?_⟩
  have e1 := inj x0 y0
  have e2 := inj x0 z0
  have e3 := inj x0 w0
  have e4 := inj x0 x1
  have e5 := inj x0 x2
  have e6 := inj x0 x3
  have e7 := inj z1 y2
  have e8 := inj w1 y3
  have e9 := inj w2 z3
  cases s0
  cases s1
  cases s2
  cases s3
  simp only at e1 e2 e3 e4 e5 e6 e7 e8 e9
  subst e1 e2 e3 e4 e5 e6 e7 e8 e9
  rfl

/-- C13 at the sentence of the reference manual: the record delivered has the number of
field 4 in the four members of its first satellite. -/
theorem gsv_satellite_rows_witness :
    IsLine gsvExample ∧ atoi (field gsvExample 1 ++ [0]) = .ok gsvExampleRecord.msgcnt ∧
      gsvExampleRecord.satellite.head? =
        some { num := 7, elevation := 7, azimuth := 7, snr := 7 } :=
  ⟨by decide,
   (gsv_satellite_rows scanDecimal zeroStack allCallbacks gsvExample 13 [10] (by decide)
      (by decide) gsvExampleRecord (by decide)).1.1, by decide⟩

/-! ## The loops that read a line (C15, C16) -/

theorem readLine_bytes (bytes : List Nat) (tail : List Int) (src : List Nat)
    (hb : ∀ b ∈ bytes, b ≠ 10 ∧ b ≠ 13)
    (hlen : src.length + bytes.length ≤ DATABUFSIZ) :
    readLine (bytes.map Int.ofNat ++ tail) src
      = readLine tail (src ++ bytes.map (fun b => b % 256)) := by
  induction bytes generalizing src with
  | nil => simp
  | cons b bytes ih =>
    obtain ⟨b10, b13⟩ := hb b (by simp)
    simp only [List.length_cons] at hlen
    have h1 : ¬ (Int.ofNat b) < 0 := by simp
    have h2 : ¬ DATABUFSIZ ≤ src.length := by omega
    have h3 : ¬ (Int.ofNat b = 13 ∨ Int.ofNat b = 10) := by
      simp only [Int.ofNat_eq_coe]
      omega
    have h4 : (Int.ofNat b % 256).toNat = b % 256 := by
      simp only [Int.ofNat_eq_coe]
      omega
    simp only [List.map_cons, List.cons_append, readLine, h1, h2, h3, if_false, h4]
    have ih2 := ih (src ++ [b % 256]) (fun x hx => hb x (by simp [hx])) (by
      simp only [List.length_append, List.length_cons, List.length_nil]
      omega)
    simpa [List.append_assoc] using ih2

/-- C16. The code on 128 bytes without CR and LF and one more byte or terminator: no test
keeps `cnt` below `DATABUFSIZ`, so the byte after the first 128 is stored at `src[128]`,
past the end of the line buffer, where the claim has the call fail and the line be
discarded. The behaviour of `processing` is undefined from there on. -/
theorem line_buffer_overflow {D : Type} (scanLf : List Nat → Option D) (stack0 : Plist)
    (cbfuncs : Option gps_callback_t) (bytes : List Nat) (c : Int) (rest : List Int)
    (hb : ∀ b ∈ bytes, b ≠ 10 ∧ b ≠ 13) (hlen : bytes.length = DATABUFSIZ) (hc : 0 ≤ c) :
    readLine (bytes.map Int.ofNat ++ c :: rest) [] = .overflow rest ∧
      processing scanLf stack0 cbfuncs (bytes.map Int.ofNat ++ c :: rest)
        = { ret := .ub .srcOverflow, events := [], ser := rest } := by
  have h : readLine (bytes.map Int.ofNat ++ c :: rest) [] = .overflow rest := by
    rw [readLine_bytes bytes (c :: rest) [] hb (by simp [hlen])]
    have h1 : ¬ c < 0 := by omega
    have h2 : DATABUFSIZ ≤ ([] ++ bytes.map (fun b => b % 256)).length := by simp [hlen]
    simp only [readLine, h1, if_false, h2, if_true]
  refine ⟨h, ?_⟩
  unfold processing
  rw [h]

/-- C16 at 128 letters `A` and a CR. -/
theorem line_buffer_overflow_witness :
    (List.replicate 128 65).length = DATABUFSIZ ∧
      processing scanDecimal zeroStack (some allCallbacks)
          ((List.replicate 128 65).map Int.ofNat ++ 13 :: [10])
        = { ret := .ub .srcOverflow, events := [], ser := [10] } :=
  ⟨by decide,
   (line_buffer_overflow scanDecimal zeroStack (some allCallbacks) (List.replicate 128 65) 13
      [10] (by decide) (by decide) (by decide)).2⟩

/-- The claim C15 fails on the code: the sentence `ggaAccepted` comes in two parts, its
first 10 bytes, then no data, then the rest and CR LF. The first call of `processing`
returns false; the second call reads the rest as a line of its own, which does not start
with `$`, prints the diagnostic of the format and returns false. A single call on the
whole sentence returns true and calls `cbfunc_gga`. -/
theorem partial_line_counterexample :
    ggaAccepted = ggaAccepted.take 10 ++ ggaAccepted.drop 10 ∧
      processing scanDecimal zeroStack (some allCallbacks)
          ((ggaAccepted.take 10).map Int.ofNat ++ (-1) :: lineStream (ggaAccepted.drop 10) 13 [10])
        = { ret := .ok false, events := [], ser := lineStream (ggaAccepted.drop 10) 13 [10] } ∧
      processing scanDecimal zeroStack (some allCallbacks)
          (lineStream (ggaAccepted.drop 10) 13 [10])
        = { ret := .ok false,
            events := [Event.log (ggaAccepted.drop 10),
              Event.print .invalidFormat (ggaAccepted.drop 10)],
            ser := [10] } ∧
      processing scanDecimal zeroStack (some allCallbacks) (lineStream ggaAccepted 13 [10])
        = { ret := .ok true,
            events := [Event.log ggaAccepted, Event.gga ggaAcceptedRecord],
            ser := [10] } := by
  decide

/-- C15, amended. When the serial buffer gives a part of a sentence, at most `DATABUFSIZ`
bytes without CR and LF, and then no data, `processing` returns false at once and calls no
callback, and the bytes read are lost: the line buffer is local to the call. A later call
that gets the remaining bytes and a terminator frames these bytes alone, and does on them
what a call does on a line of its own. -/
theorem partial_line_lost {D : Type} (scanLf : List Nat → Option D) (stack0 : Plist)
    (cbfuncs : Option gps_callback_t) (part remaining : List Nat) (c eol : Int)
    (rest : List Int) (hpart : ∀ b ∈ part, b ≠ 10 ∧ b ≠ 13)
    (hlen : part.length ≤ DATABUFSIZ) (hc : c < 0)
    (hrem : IsLine remaining) (heol : eol = 13 ∨ eol = 10) :
    processing scanLf stack0 cbfuncs
        (part.map Int.ofNat ++ c :: lineStream remaining eol rest)
      = { ret := .ok false, events := [], ser := lineStream remaining eol rest } ∧
    processing scanLf stack0 cbfuncs
        (processing scanLf stack0 cbfuncs
          (part.map Int.ofNat ++ c :: lineStream remaining eol rest)).ser
      = { ret := (processLine scanLf stack0 cbfuncs (remaining ++ [0])).1,
          events := (processLine scanLf stack0 cbfuncs (remaining ++ [0])).2,
          ser := rest } := by
  have h : processing scanLf stack0 cbfuncs
      (part.map Int.ofNat ++ c :: lineStream remaining eol rest)
      = { ret := .ok false, events := [], ser := lineStream remaining eol rest } := by
    unfold processing
    rw [readLine_bytes part _ [] hpart (by simpa using hlen)]
    simp only [readLine, hc, if_true]
  refine ⟨h, ?_⟩
  rw [h]
  exact processing_line scanLf stack0 cbfuncs remaining eol rest hrem heol

/-- C15, amended, at the sentence `ggaAccepted` cut after 10 bytes. -/
theorem partial_line_lost_witness :
    IsLine (ggaAccepted.drop 10) ∧
      processing scanDecimal zeroStack (some allCallbacks)
          ((ggaAccepted.take 10).map Int.ofNat ++ (-1) :: lineStream (ggaAccepted.drop 10) 13 [10])
        = { ret := .ok false, events := [], ser := lineStream (ggaAccepted.drop 10) 13 [10] } :=
  ⟨by decide,
   (partial_line_lost scanDecimal zeroStack (some allCallbacks) (ggaAccepted.take 10)
      (ggaAccepted.drop 10) (-1) 13 [10] (by decide) (by decide) (by decide) (by decide)
      (by decide)).1⟩

/-! ## Short lines (C19) -/

/-- C19. The code on a line of fewer than three characters. When the line does not start
with `$` the check fails with the diagnostic of the format and `processing` returns false,
as the claim has it. When it starts with `$` (the lines `$` and `$A` of the claim), the
test `src[srclen - 3] == '*'` is made with `srclen - 3` below 0, an unsigned number that
wraps: the character read is outside the line, before the start of the buffer, and the
behaviour is undefined. -/
theorem short_line {D : Type} (scanLf : List Nat → Option D) (stack0 : Plist)
    (cb : gps_callback_t) (line : List Nat) (eol : Int) (rest : List Int)
    (hline : IsLine line) (heol : eol = 13 ∨ eol = 10) (hshort : line.length < 3) :
    (line.getD 0 0 ≠ 36 →
      processing scanLf stack0 (some cb) (lineStream line eol rest)
        = { ret := .ok false,
            events := logged cb line ++ [Event.print .invalidFormat line],
            ser := rest }) ∧
    (line.getD 0 0 = 36 →
      checkSum (line ++ [0]) = .ub .srcUnderread ∧
      processing scanLf stack0 (some cb) (lineStream line eol rest)
        = { ret := .ub .srcUnderread, events := logged cb line, ser := rest }) := by
  have hlen : 0 < line.length := List.length_pos.mpr hline.1
  have h0 : (line ++ [0]).getD 0 0 = line.getD 0 0 := List.getD_append _ _ _ _ hlen
  constructor
  · intro hne
    have hf : checkSum (line ++ [0]) = .ok (some .invalidFormat) := by
      unfold checkSum
      rw [h0, if_neg hne]
    exact processing_of_checkSum_fails scanLf stack0 cb line eol rest _ hline heol hf
  · intro heq
    have hf : checkSum (line ++ [0]) = .ub .srcUnderread := by
      unfold checkSum
      simp only [strlen_append_zero line [] hline.ne_zero]
      rw [h0, if_pos heq, if_pos hshort]
    refine ⟨hf, ?_⟩
    rw [processing_line scanLf stack0 (some cb) line eol rest hline heol,
      processLine_of_checkSum_ub scanLf stack0 cb _ _ hf,
      text_append_zero line [] hline.ne_zero]

/-- C19 at the line `$A`. -/
theorem short_line_witness :
    IsLine (txt "$A") ∧
      processing scanDecimal zeroStack (some allCallbacks) (lineStream (txt "$A") 13 [10])
        = { ret := .ub .srcUnderread, events := logged allCallbacks (txt "$A"), ser := [10] } :=
  ⟨by decide,
   ((short_line scanDecimal zeroStack allCallbacks (txt "$A") 13 [10] (by decide) (by decide)
      (by decide)).2 (by decide)).2⟩

/-! ## The limits of the fields (C17) -/

theorem tokenizeFields_overflow (fs : List (List Nat)) (cnt : Nat) (plist : Plist)
    (hfs : fs ≠ []) (hshort : ∀ f ∈ fs, f.length < PARAM_TXTMAXLEN)
    (hcnt : PARAM_ARRAYSIZE < cnt + fs.length) :
    tokenizeFields fs cnt plist = .ub .plistOverflow := by
  induction fs generalizing cnt plist with
  | nil => exact absurd rfl hfs
  | cons f fs ih =>
    have hf := hshort f (by simp)
    simp only [List.length_cons] at hcnt
    simp only [tokenizeFields]
    by_cases h1 : PARAM_ARRAYSIZE ≤ cnt
    · rw [if_pos h1]
    · rw [if_neg h1, if_neg (by omega)]
      cases fs with
      | nil =>
        simp only [List.length_nil] at hcnt
        omega
      | cons g gs =>
        exact ih (cnt + 1) _ (by simp) (fun x hx => hshort x (by simp [hx]))
          (by simp only [List.length_cons] at hcnt ⊢; omega)

theorem parse_stored_le (src : List Nat) (n : Nat) (delim : List Nat) :
    (parse src n delim).1.length ≤ n := by
  induction src generalizing n with
  | nil => cases n <;> simp [parse]
  | cons c src ih =>
    cases n with
    | zero => simp [parse]
    | succ n =>
      simp only [parse]
      split_ifs
      · simp
      · simp
      · have := ih n
        simp only [List.length_cons]
        omega

/-- C17. The code on sentences beyond the limits of the fields, with a right check sum, a
first field that is one of the four identifiers and the callback of that identifier
registered. With more than `PARAM_ARRAYSIZE` fields, all shorter than `PARAM_TXTMAXLEN`,
the tokenizing loop, which has no test on `cnt`, calls `parse` on `plist[64]`, past the
end of the array, and the behaviour is undefined, where the claim has a failure of the
decoder. With a field of `PARAM_TXTMAXLEN` characters the loop stops as at the end of the
sentence, and the sentence `ggaLongField` is accepted. What holds of the claim is that
`parse` never stores more than the size of its buffer. -/
theorem field_limits {D : Type} (scanLf : List Nat → Option D) (stack0 : Plist)
    (cb : gps_callback_t) (line : List Nat) (eol : Int) (rest : List Int)
    (hline : IsLine line) (heol : eol = 13 ∨ eol = 10)
    (hpass : checkSum (line ++ [0]) = .ok none)
    (hshort : ∀ f ∈ fields line, f.length < PARAM_TXTMAXLEN)
    (hmany : PARAM_ARRAYSIZE < (fields line).length)
    (hid : (field line 0 = txt "$GPGGA" ∧ cb.cbfunc_gga = true) ∨
      (field line 0 = txt "$GPGSA" ∧ cb.cbfunc_gsa = true) ∨
      (field line 0 = txt "$GPRMC" ∧ cb.cbfunc_rmc = true) ∨
      (field line 0 = txt "$GPGSV" ∧ cb.cbfunc_gsv = true)) :
    tokenize stack0 (line ++ [0]) = .ub .plistOverflow ∧
    processing scanLf stack0 (some cb) (lineStream line eol rest)
      = { ret := .ub .plistOverflow, events := logged cb line, ser := rest } ∧
    (∀ (src : List Nat) (n : Nat), (parse src n delims).1.length ≤ n) ∧
    (IsLine ggaLongField ∧ checkSum (ggaLongField ++ [0]) = .ok none ∧
      (field ggaLongField 15).length = PARAM_TXTMAXLEN ∧
      processing scanDecimal zeroStack (some allCallbacks) (lineStream ggaLongField 13 [10])
        = { ret := .ok true,
            events := [Event.log ggaLongField, Event.gga ggaLongFieldRecord],
            ser := [10] }) := by
  have htok : tokenize stack0 (line ++ [0]) = .ub .plistOverflow := by
    rw [tokenize_fuel stack0 line [] hline.noEnd]
    exact tokenizeFields_overflow _ 0 stack0 (fields_ne_nil line) hshort (by omega)
  have hd : dispatch scanLf stack0 (line ++ [0]) cb = .ub .plistOverflow := by
    rw [dispatch_of_pass scanLf stack0 cb line hline hpass]
    rcases hid with ⟨h, hc⟩ | ⟨h, hc⟩ | ⟨h, hc⟩ | ⟨h, hc⟩
    · rw [if_pos h]
      simp [parseAndCallbackGGA, hc, htok, Res.bind]
    · rw [h, if_neg (by decide), if_pos rfl]
      simp [parseAndCallbackGSA, hc, htok, Res.bind]
    · rw [h, if_neg (by decide), if_neg (by decide), if_pos rfl]
      simp [parseAndCallbackRMC, hc, htok, Res.bind]
    · rw [h, if_neg (by decide), if_neg (by decide), if_neg (by decide), if_pos rfl]
      simp [parseAndCallbackGSV, hc, htok, Res.bind]
  refine ⟨htok, ?_, fun src n => parse_stored_le src n delims, by decide⟩
  rw [processing_line scanLf stack0 (some cb) line eol rest hline heol,
    processLine_of_pass_ub scanLf stack0 cb _ _ hpass hd,
    text_append_zero line [] hline.ne_zero]

/-- C17 at the sentence `ggaManyFields`, of 65 fields. -/
theorem field_limits_witness :
    IsLine ggaManyFields ∧ (fields ggaManyFields).length = 65 ∧
      processing scanDecimal zeroStack (some allCallbacks) (lineStream ggaManyFields 13 [10])
        = { ret := .ub .plistOverflow, events := logged allCallbacks ggaManyFields,
            ser := [10] } :=
  ⟨by decide, by decide,
   (field_limits scanDecimal zeroStack allCallbacks ggaManyFields 13 [10] (by decide)
      (by decide) (by decide) (by decide) (by decide) (Or.inl ⟨by decide, rfl⟩)).2.1⟩

end SerialGPS
